import Mathlib

/-!
# TrafficManager: the road building system

A shallow embedding of `systems/roadbuilding.go`: the candidate registry
(`AddCity`, `Remove`), the per-frame `Update` with its selection / hover state
machine, the commit of a road, and the geometry of the road hint.

Conventions of the embedding.

* `float32` and the functions of `luxengine/math` are not part of the
  repository. The program is written over an arbitrary number type `F` and a
  record `Lib F` of the operations it calls. A statement over an arbitrary
  `L : Lib F` holds of the program in its own `float32` arithmetic. `ideal` is
  exact real arithmetic, with `Num32.NaN` for the results IEEE arithmetic leaves
  without a finite value; it has no rounding, no overflow and no underflow, so
  a statement over `ideal` holds of the program only at inputs on which
  `float32` is itself exact (small integers, as in the examples given), and
  says nothing about centres of very large or very small distance.
* The candidates are bundles of pointers. Memory is a family of maps from
  addresses to components, one per component type, so that two candidates may
  share a component.
* Calls into the engine (render system, commuter system, world, cursor) are
  recorded, in order, in `State.events`.
-/

namespace TrafficManager

/-! ## Data model -/

/-- Values of `color.Color` the system uses; `nil` is the zero interface value. -/
inductive Color
  | nil
  | gray16 (y : Nat)
  | rgba (r g b a : Nat)
deriving DecidableEq

/-- `colorDefault = color.Black`, which is `color.Gray16{0}`. -/
def colorDefault : Color := Color.gray16 0

def colorHover : Color := Color.rgba 100 100 255 255

def colorSelectedBorder : Color := colorHover

def colorRoadAvailable : Color := Color.rgba 0 255 0 255

def colorRoadUnavailable : Color := Color.rgba 255 0 0 255

def colorRoadDefault : Color := Color.rgba 128 128 128 255

/-- `engo.Point`. -/
structure Point (F : Type) where
  X : F
  Y : F

/-- `engo.AABB`. -/
structure AABB (F : Type) where
  Min : Point F
  Max : Point F

/-- `common.SpaceComponent`. -/
structure SpaceComponent (F : Type) where
  Position : Point F
  Width : F
  Height : F
  Rotation : F

/-- The arithmetic the program calls and does not define: `float32` literals and
operators, `math.Sqrt`, `math.Pow`, `math.Acos`, `math.Pi` of `luxengine/math`,
and `SpaceComponent.AABB` of `engo/common`. -/
structure Lib (F : Type) where
  lit : Int → F
  add : F → F → F
  sub : F → F → F
  mul : F → F → F
  div : F → F → F
  neg : F → F
  lt : F → F → Bool
  Sqrt : F → F
  Pow : F → F → F
  Acos : F → F
  Pi : F
  spaceAABB : SpaceComponent F → AABB F

/-! ## Geometry of the hint (`Update`, lines 204-243) -/

section Geometry

variable {F : Type}

/-- Lines 206-207: centre of a bounding box,
`Point{(ab.Max.X-ab.Min.X)/2 + ab.Min.X, (ab.Max.Y-ab.Min.Y)/2 + ab.Min.Y}`. -/
def center (L : Lib F) (ab : AABB F) : Point F :=
  { X := L.add (L.div (L.sub ab.Max.X ab.Min.X) (L.lit 2)) ab.Min.X
    Y := L.add (L.div (L.sub ab.Max.Y ab.Min.Y) (L.lit 2)) ab.Min.Y }

/-- Lines 212-215: `roadLength`, the distance between the two centres. -/
def roadLength (L : Lib F) (centerA centerB : Point F) : F :=
  L.Sqrt (L.add (L.Pow (L.sub centerA.X centerB.X) (L.lit 2))
    (L.Pow (L.sub centerA.Y centerB.Y) (L.lit 2)))

/-- Line 227: the divisor `2 * b * c` of the argument of `math.Acos`. -/
def rotationDivisor (L : Lib F) (centerA centerB : Point F) : F :=
  let b := roadLength L centerA centerB
  let c := L.sub centerA.X centerB.X
  L.mul (L.mul (L.lit 2) b) c

/-- Line 227: the argument `(-a² + b² + c²) / (2 * b * c)` of `math.Acos`. -/
def rotationArg (L : Lib F) (centerA centerB : Point F) : F :=
  let a := L.sub centerA.Y centerB.Y
  let b := roadLength L centerA centerB
  let c := L.sub centerA.X centerB.X
  L.div (L.add (L.add (L.neg (L.Pow a (L.lit 2))) (L.Pow b (L.lit 2))) (L.Pow c (L.lit 2)))
    (rotationDivisor L centerA centerB)

/-- Lines 209-243: the placement written into `r.roadHint.SpaceComponent`, from
the centre `centerA` of the target and the centre `centerB` of the selected
candidate. -/
def hintSpace (L : Lib F) (centerA centerB : Point F) : SpaceComponent F :=
  let roadWidth := L.lit 10
  let roadLength := roadLength L centerA centerB
  let rotation_rad := L.Acos (rotationArg L centerA centerB)
  let rotation := L.mul (L.lit 180) (L.div rotation_rad L.Pi)
  let dirY := if L.lt centerA.Y centerB.Y then L.lit (-1) else L.lit 1
  { Position :=
      { X := L.sub centerB.X (L.div roadWidth (L.lit 2))
        Y := L.sub centerB.Y (L.div roadWidth (L.lit 2)) }
    Width := roadLength
    Height := roadWidth
    Rotation := L.mul rotation dirY }

end Geometry

/-! ## Idealised arithmetic -/

/-- A `float32` read as an exact real, or `NaN`. Infinities are not separated
from `NaN`: the one quotient whose divisor can vanish is passed to `math.Acos`,
which sends an infinity to `NaN` as well. -/
inductive Num32
  | val (x : ℝ)
  | NaN

/-- Lift of a total binary operation; `NaN` propagates. -/
noncomputable def Num32.lift2 (f : ℝ → ℝ → ℝ) : Num32 → Num32 → Num32
  | Num32.val x, Num32.val y => Num32.val (f x y)
  | _, _ => Num32.NaN

/-- Ideal `math.Pow` on finite arguments: the real power, and `NaN` for a
negative base with a non-integer exponent or zero to a negative power. -/
noncomputable def Num32.pow (x y : ℝ) : Num32 :=
  haveI := Classical.propDecidable ((x < 0 ∧ ∀ n : ℤ, y ≠ n) ∨ (x = 0 ∧ y < 0))
  if (x < 0 ∧ ∀ n : ℤ, y ≠ n) ∨ (x = 0 ∧ y < 0) then Num32.NaN else Num32.val (x ^ y)

/-- Exact real arithmetic. Division by zero, the square root of a negative
number and the arc cosine outside `[-1, 1]` give `NaN`, and so does `Pow` where
`math.Pow` has no finite value. It is not `float32`: results are not rounded,
and there is no overflow to an infinity and no underflow to zero. The bounding
box is that of an unrotated component (`Position` to `Position + (Width,
Height)`); what `SpaceComponent.AABB` of the engine does with a rotated
component is outside the repository and is not modelled. -/
noncomputable def ideal : Lib Num32 where
  lit n := Num32.val n
  add := Num32.lift2 (fun x y => x + y)
  sub := Num32.lift2 (fun x y => x - y)
  mul := Num32.lift2 (fun x y => x * y)
  div a b :=
    match a, b with
    | Num32.val x, Num32.val y => if y = 0 then Num32.NaN else Num32.val (x / y)
    | _, _ => Num32.NaN
  neg a :=
    match a with
    | Num32.val x => Num32.val (-x)
    | Num32.NaN => Num32.NaN
  lt a b :=
    match a, b with
    | Num32.val x, Num32.val y => decide (x < y)
    | _, _ => false
  Sqrt a :=
    match a with
    | Num32.val x => if x < 0 then Num32.NaN else Num32.val (Real.sqrt x)
    | Num32.NaN => Num32.NaN
  Pow a b :=
    match a, b with
    | Num32.val x, Num32.val y => Num32.pow x y
    | _, _ => Num32.NaN
  Acos a :=
    match a with
    | Num32.val x => if -1 ≤ x ∧ x ≤ 1 then Num32.val (Real.arccos x) else Num32.NaN
    | Num32.NaN => Num32.NaN
  Pi := Num32.val Real.pi
  spaceAABB sc :=
    { Min := sc.Position
      Max :=
        { X := Num32.lift2 (fun x y => x + y) sc.Position.X sc.Width
          Y := Num32.lift2 (fun x y => x + y) sc.Position.Y sc.Height } }

/-- A point with finite coordinates. -/
noncomputable def pt (x y : ℝ) : Point Num32 :=
  { X := Num32.val x, Y := Num32.val y }

/-! ## Entities and components -/

/-- `ecs.BasicEntity`, reduced to its identity. -/
structure BasicEntity where
  id : Nat
deriving DecidableEq

/-- `BasicEntity.ID()`. -/
def BasicEntity.ID (b : BasicEntity) : Nat := b.id

/-- `common.Rectangle`. -/
structure Rectangle (F : Type) where
  BorderWidth : F
  BorderColor : Color

/-- Shaders of `engo/common` the system names. -/
inductive Shader
  | LegacyShader
deriving DecidableEq

/-- `common.RenderComponent`: the fields the system reads or writes. A `Drawable`
is `none` (the nil interface) or a rectangle; `zIndex` and `shader` are what
`SetZIndex` and `SetShader` store. -/
structure RenderComponent (F : Type) where
  Drawable : Option (Rectangle F)
  Color : Color
  zIndex : F
  shader : Option Shader

/-- `common.MouseComponent`: the two flags the mouse system sets each frame. -/
structure MouseComponent where
  Clicked : Bool
  Hovered : Bool
deriving DecidableEq

inductive RoadType
  | RoadNone
  | RoadBasic
deriving DecidableEq

/-- `RoadComponent`. `Typ` is the field `Type`; `Commuters` holds the addresses
of the commuters. -/
structure RoadComponent where
  Typ : RoadType
  From : BasicEntity
  To : BasicEntity
  Commuters : List Nat
  isHovered : Bool
deriving DecidableEq

/-- `Road`. -/
structure Road (F : Type) where
  BasicEntity : BasicEntity
  RoadComponent : RoadComponent
  SpaceComponent : SpaceComponent F
  RenderComponent : RenderComponent F
  MouseComponent : MouseComponent

/-- `CityComponent` is declared outside `roadbuilding.go`; these are the two
fields the system uses. A `*Road` in `Roads` is kept as the road it points to:
the system never writes to a road after it has built it. -/
structure CityComponent (F : Type) where
  Roads : List (Road F)
  isHovered : Bool

/-- `roadBuildingEntity`: five pointers, kept as addresses into the memory of
`State`. The zero value of the Go struct (all pointers nil) is the `none` of
`State.selectedEntity`. -/
structure roadBuildingEntity where
  BasicEntity : Nat
  CityComponent : Nat
  SpaceComponent : Nat
  RenderComponent : Nat
  MouseComponent : Nat
deriving DecidableEq

/-- `MouseTracker` is declared outside `roadbuilding.go`: an entity with a
`common.MouseComponent`, of which the system reads the pointer position. -/
structure MouseTracker (F : Type) where
  BasicEntity : BasicEntity
  Track : Bool
  MouseX : F
  MouseY : F

/-- The systems of an `ecs.World`, by the cases of the type switches in
`roadbuilding.go`. `RoadBuildingSystem` stands for the receiver itself. -/
inductive System
  | RenderSystem
  | CommuterSystem
  | MouseSystem
  | RoadBuildingSystem
  | other
deriving DecidableEq

inductive Cursor
  | CursorNone
  | CursorHand
deriving DecidableEq

/-- Calls that leave the system. `renderAdd` is `RenderSystem.Add`, `addRoad` is
`CommuterSystem.AddRoad`, `mouseAdd` is `MouseSystem.Add`, `removeEntity` is
`World.RemoveEntity` and `setCursor` is `engo.SetCursor`. Pointer arguments are
recorded by the value they point to at the time of the call. -/
inductive Event (F : Type)
  | renderAdd (basic : BasicEntity) (render : RenderComponent F) (space : SpaceComponent F)
  | addRoad (basic : BasicEntity) (road : RoadComponent)
  | mouseAdd (basic : BasicEntity)
  | removeEntity (basic : BasicEntity)
  | setCursor (c : Cursor)

/-- `RoadBuildingSystem` together with what it reaches. `basic`, `city`,
`space`, `render` and `mouse` are the memory behind the pointers of the
candidates; `world` lists the systems of `r.world`; `idInc` is the counter of
`ecs.NewBasic`; `events` is the trace of outgoing calls. -/
structure State (F : Type) where
  basic : Nat → BasicEntity
  city : Nat → CityComponent F
  space : Nat → SpaceComponent F
  render : Nat → RenderComponent F
  mouse : Nat → MouseComponent
  world : List System
  cities : List roadBuildingEntity
  roadHint : Road F
  selectedEntity : Option roadBuildingEntity
  hovering : Bool
  mouseTracker : MouseTracker F
  idInc : Nat
  events : List (Event F)

section Program

variable {F : Type}

/-- The zero value `common.SpaceComponent{}`. -/
def SpaceComponent.zero (L : Lib F) : SpaceComponent F :=
  { Position := { X := L.lit 0, Y := L.lit 0 }
    Width := L.lit 0
    Height := L.lit 0
    Rotation := L.lit 0 }

/-- The zero value `common.Rectangle{}`. -/
def Rectangle.zero (L : Lib F) : Rectangle F :=
  { BorderWidth := L.lit 0, BorderColor := Color.nil }

/-- The zero value `common.RenderComponent{}`. -/
def RenderComponent.zero (L : Lib F) : RenderComponent F :=
  { Drawable := none, Color := Color.nil, zIndex := L.lit 0, shader := none }

/-- The zero value `RoadComponent{}`. -/
def RoadComponent.zero : RoadComponent :=
  { Typ := RoadType.RoadNone, From := { id := 0 }, To := { id := 0 }
    Commuters := [], isHovered := false }

/-- The zero value `Road{}`: the sentinel state of the hint. -/
def Road.zero (L : Lib F) : Road F :=
  { BasicEntity := { id := 0 }
    RoadComponent := RoadComponent.zero
    SpaceComponent := SpaceComponent.zero L
    RenderComponent := RenderComponent.zero L
    MouseComponent := { Clicked := false, Hovered := false } }

/-- `ecs.NewBasic()`: the next value of the identity counter, which is never 0.
The counter is 64 bits wide; its wrap-around is not modelled. -/
def NewBasic (s : State F) : BasicEntity × State F :=
  ({ id := s.idInc + 1 }, { s with idInc := s.idInc + 1 })

/-- Write of `Color` through a `*common.RenderComponent`. -/
def setColor (s : State F) (p : Nat) (c : Color) : State F :=
  { s with render := Function.update s.render p { s.render p with Color := c } }

/-- Write of `Drawable` through a `*common.RenderComponent`. -/
def setDrawable (s : State F) (p : Nat) (d : Option (Rectangle F)) : State F :=
  { s with render := Function.update s.render p { s.render p with Drawable := d } }

/-- Write of `isHovered` through a `*CityComponent`. -/
def setIsHovered (s : State F) (p : Nat) (b : Bool) : State F :=
  { s with city := Function.update s.city p { s.city p with isHovered := b } }

/-- Write `Roads = append(Roads, road)` through a `*CityComponent`. -/
def appendRoad (s : State F) (p : Nat) (road : Road F) : State F :=
  { s with city := Function.update s.city p { s.city p with Roads := (s.city p).Roads ++ [road] } }

/-- Append to the trace of outgoing calls. -/
def emit (s : State F) (evs : List (Event F)) : State F :=
  { s with events := s.events ++ evs }

/-- Lines 78-84 of `Remove`: the index of the first entry with the identity of
`basic`, or `-1`. -/
def findDelete (s : State F) (basic : BasicEntity) : Nat → List roadBuildingEntity → Int
  | _, [] => -1
  | index, e :: rest =>
    if (s.basic e.BasicEntity).ID = basic.ID then (index : Int)
    else findDelete s basic (index + 1) rest

/-- `RoadBuildingSystem.Remove`. -/
def Remove (s : State F) (basic : BasicEntity) : State F :=
  let delete := findDelete s basic 0 s.cities
  if delete ≥ 0 then
    { s with cities := s.cities.take delete.toNat ++ s.cities.drop (delete.toNat + 1) }
  else s

/-- `RoadBuildingSystem.AddCity`. -/
def AddCity (s : State F) (basic city space render mouse : Nat) : State F :=
  let e : roadBuildingEntity :=
    { BasicEntity := basic
      CityComponent := city
      SpaceComponent := space
      RenderComponent := render
      MouseComponent := mouse }
  { s with cities := s.cities ++ [e] }

/-- `RoadBuildingSystem.New`, with `w` the systems of the world. -/
def New (L : Lib F) (s : State F) (w : List System) : State F :=
  let s := { s with world := w }
  let (b, s) := NewBasic s
  let s := { s with mouseTracker :=
    { BasicEntity := b, Track := true, MouseX := L.lit 0, MouseY := L.lit 0 } }
  emit s ((s.world.filter (fun sys => sys = System.MouseSystem)).map
    (fun _ => Event.mouseAdd s.mouseTracker.BasicEntity))

/-- `World.RemoveEntity(basic)`: the call is recorded, and every system of the
world is asked to remove the entity, the road building system included when it
belongs to the world. -/
def worldRemoveEntity (s : State F) (basic : BasicEntity) : State F :=
  let s := emit s [Event.removeEntity basic]
  s.world.foldl (fun s sys => if sys = System.RoadBuildingSystem then Remove s basic else s) s

/-- Lines 124-133: the road `actualRoad` with the fresh identity `b`, from the
selected candidate `sel` to the clicked candidate `e`. -/
def actualRoad (L : Lib F) (s : State F) (b : BasicEntity) (sel e : roadBuildingEntity) :
    Road F :=
  { BasicEntity := b
    RoadComponent :=
      { Typ := RoadType.RoadBasic
        From := s.basic sel.BasicEntity
        To := s.basic e.BasicEntity
        Commuters := []
        isHovered := false }
    SpaceComponent := s.roadHint.SpaceComponent
    RenderComponent :=
      { Drawable := some (Rectangle.zero L)
        Color := colorRoadDefault
        zIndex := L.lit (-1)
        shader := some Shader.LegacyShader }
    MouseComponent := { Clicked := false, Hovered := false } }

/-- Lines 135-142: the calls made while ranging over the systems `w` of the
world, for the road `road`. -/
def roadRegistrations (w : List System) (road : Road F) : List (Event F) :=
  w.filterMap (fun sys =>
    match sys with
    | System.RenderSystem =>
      some (Event.renderAdd road.BasicEntity road.RenderComponent road.SpaceComponent)
    | System.CommuterSystem => some (Event.addRoad road.BasicEntity road.RoadComponent)
    | _ => none)

/-- Lines 123-148: build the road from the selected candidate `sel` to the
clicked candidate `e`, then clean up the hint. -/
def buildRoad (L : Lib F) (s : State F) (sel e : roadBuildingEntity) : State F :=
  let (b, s) := NewBasic s
  let road := actualRoad L s b sel e
  let s := emit s (roadRegistrations s.world road)
  let s := appendRoad s sel.CityComponent road
  let s := worldRemoveEntity s s.roadHint.BasicEntity
  { s with roadHint := Road.zero L }

/-- Lines 114-157: the click handling for the candidate `e`. -/
def clickStep (L : Lib F) (s : State F) (e : roadBuildingEntity) : State F :=
  if (s.mouse e.MouseComponent).Clicked then
    match s.selectedEntity with
    | none =>
      let s := { s with selectedEntity := some e }
      let s := setColor s e.RenderComponent colorDefault
      setDrawable s e.RenderComponent
        (some { BorderColor := colorSelectedBorder, BorderWidth := L.lit 5 })
    | some sel =>
      let s :=
        if (s.basic sel.BasicEntity).ID ≠ (s.basic e.BasicEntity).ID then buildRoad L s sel e
        else s
      let s := setColor s e.RenderComponent colorDefault
      let s := setDrawable s e.RenderComponent (some (Rectangle.zero L))
      let s := setDrawable s sel.RenderComponent (some (Rectangle.zero L))
      { s with selectedEntity := none }
  else s

/-- Line 160: the candidate `e` is not the selected one. -/
def notSelected (s : State F) (e : roadBuildingEntity) : Bool :=
  match s.selectedEntity with
  | none => true
  | some sel => decide ((s.basic sel.BasicEntity).ID ≠ (s.basic e.BasicEntity).ID)

/-- The locals `hovered` and `hoveredId` of `Update`, with the system. -/
structure LoopState (F : Type) where
  r : State F
  hovered : Bool
  hoveredId : Int

/-- Lines 159-172: the hover handling for the candidate `e` at `index`. -/
def hoverStep (st : LoopState F) (index : Nat) (e : roadBuildingEntity) : LoopState F :=
  if notSelected st.r e then
    if (st.r.mouse e.MouseComponent).Hovered then
      let s := setColor st.r e.RenderComponent colorHover
      let s := setIsHovered s e.CityComponent true
      { r := s, hovered := true, hoveredId := (index : Int) }
    else if (st.r.city e.CityComponent).isHovered then
      { st with r := setColor st.r e.RenderComponent colorDefault }
    else st
  else st

/-- One iteration of the loop of lines 112-173. -/
def visit (L : Lib F) (st : LoopState F) (index : Nat) (e : roadBuildingEntity) : LoopState F :=
  hoverStep { st with r := clickStep L st.r e } index e

/-- The loop `for index, e := range r.cities`, from `index` on, over the entries
the registry had when the loop started. The Go loop reads the backing array of
the slice at every iteration. The only write to that array during `Update` is
the `append` of `Remove`, reached through `World.RemoveEntity` on a commit, and
it changes the array only when a registered candidate carries the identity of
the hint (0 while the hint is the sentinel). With no such candidate the array
is never written and the loop here is the Go loop (`cityLoop_cities`). With
such a candidate the Go loop reads the shifted array, skips an entry and visits
the last one twice, unless the removed entry is the last one; that sharing is
not modelled: what a statement says about the entries visited after such a
removal holds of the Go loop only under the condition that no registered
candidate has the identity 0 or that of the hint. -/
def cityLoop (L : Lib F) : Nat → List roadBuildingEntity → LoopState F → LoopState F
  | _, [], st => st
  | index, e :: rest, st => cityLoop L (index + 1) rest (visit L st index e)

/-- Lines 181-185: the target of the hint; `none` when `r.cities[hoveredId]` is
out of range. -/
def hintTarget (L : Lib F) (s : State F) (hoveredId : Int) : Option (SpaceComponent F) :=
  if hoveredId ≥ 0 then
    (s.cities.get? hoveredId.toNat).map (fun c => s.space c.SpaceComponent)
  else
    some { SpaceComponent.zero L with
      Position := { X := s.mouseTracker.MouseX, Y := s.mouseTracker.MouseY } }

/-- Lines 176-253: the hint, for the selected candidate `sel`. -/
def hintBlock (L : Lib F) (s : State F) (hoveredId : Int) (sel : roadBuildingEntity) :
    Option (State F) :=
  match hintTarget L s hoveredId with
  | none => none
  | some target =>
    let roadHintNew := decide (s.roadHint.BasicEntity.ID = 0)
    let s :=
      if s.roadHint.BasicEntity.ID = 0 then
        let (b, s) := NewBasic s
        { s with roadHint :=
            { Road.zero L with
              BasicEntity := b
              RenderComponent :=
                { Drawable := some (Rectangle.zero L)
                  Color := Color.nil
                  zIndex := L.lit (-1)
                  shader := some Shader.LegacyShader } } }
      else s
    let s := { s with roadHint := { s.roadHint with RenderComponent :=
      { s.roadHint.RenderComponent with
        Color := if hoveredId ≥ 0 then colorRoadAvailable else colorRoadUnavailable } } }
    let ab1 := L.spaceAABB target
    let ab2 := L.spaceAABB (s.space sel.SpaceComponent)
    let centerA := center L ab1
    let centerB := center L ab2
    let s := { s with roadHint := { s.roadHint with
      SpaceComponent := hintSpace L centerA centerB } }
    if roadHintNew then
      some (emit s ((s.world.filter (fun sys => sys = System.RenderSystem)).map
        (fun _ => Event.renderAdd s.roadHint.BasicEntity s.roadHint.RenderComponent
          s.roadHint.SpaceComponent)))
    else some s

/-- Lines 255-262: the cursor. -/
def cursorBlock (s : State F) (hovered : Bool) : State F :=
  if hovered && !s.hovering then
    { emit s [Event.setCursor Cursor.CursorHand] with hovering := true }
  else if !hovered && s.hovering then
    { emit s [Event.setCursor Cursor.CursorNone] with hovering := false }
  else s

/-- `RoadBuildingSystem.Update`. The result is `none` when the Go code panics on
the index `r.cities[hoveredId]`. The argument `dt` is not used by the code. -/
def Update (L : Lib F) (s : State F) : Option (State F) :=
  let st := cityLoop L 0 s.cities { r := s, hovered := false, hoveredId := -1 }
  match st.r.selectedEntity with
  | none => some (cursorBlock st.r st.hovered)
  | some sel =>
    match hintBlock L st.r st.hoveredId sel with
    | none => none
    | some s => some (cursorBlock s st.hovered)

end Program

/-! ## Relations used in the statements -/

section Relations

variable {F : Type}

/-- The state `s'` differs from `s` at most in the colours of render components
and in `isHovered` flags. -/
structure Quiet (s s' : State F) : Prop where
  basic : s'.basic = s.basic
  space : s'.space = s.space
  mouse : s'.mouse = s.mouse
  world : s'.world = s.world
  cities : s'.cities = s.cities
  roadHint : s'.roadHint = s.roadHint
  selectedEntity : s'.selectedEntity = s.selectedEntity
  hovering : s'.hovering = s.hovering
  mouseTracker : s'.mouseTracker = s.mouseTracker
  idInc : s'.idInc = s.idInc
  events : s'.events = s.events
  roads : ∀ p, (s'.city p).Roads = (s.city p).Roads
  drawable : ∀ p, (s'.render p).Drawable = (s.render p).Drawable

/-- The state `s'` differs from `s` at most in the selection, in render
components and in `isHovered` flags. -/
structure Calm (s s' : State F) : Prop where
  basic : s'.basic = s.basic
  space : s'.space = s.space
  mouse : s'.mouse = s.mouse
  world : s'.world = s.world
  cities : s'.cities = s.cities
  roadHint : s'.roadHint = s.roadHint
  hovering : s'.hovering = s.hovering
  mouseTracker : s'.mouseTracker = s.mouseTracker
  idInc : s'.idInc = s.idInc
  events : s'.events = s.events
  roads : ∀ p, (s'.city p).Roads = (s.city p).Roads

/-- The candidate `e` takes the hover branch of lines 160-167 in the state `s`: it
is not the selected one and it reports hovered. -/
def hoverHit (s : State F) (e : roadBuildingEntity) : Bool :=
  notSelected s e && (s.mouse e.MouseComponent).Hovered

/-- The parts of the state `Update` never writes are the same in `s` and `s'`. -/
structure Stable (s s' : State F) : Prop where
  basic : s'.basic = s.basic
  space : s'.space = s.space
  mouse : s'.mouse = s.mouse
  world : s'.world = s.world
  mouseTracker : s'.mouseTracker = s.mouseTracker

/-- The system as the loop of `Update` has it when it reaches the entry `e` at
index `i`, after the click handling for `e` and before its hover handling. -/
def atVisit (L : Lib F) (s : State F) (i : Nat) (e : roadBuildingEntity) : State F :=
  clickStep L (cityLoop L 0 (s.cities.take i) { r := s, hovered := false, hoveredId := -1 }).r e

/-- What the mouse system writes between two frames: the flags of every mouse
component and the pointer position. -/
structure Input (F : Type) where
  mouse : Nat → MouseComponent
  MouseX : F
  MouseY : F

/-- One frame: the mouse system writes its input, then `Update` runs. -/
def frame (L : Lib F) (s : State F) (i : Input F) : Option (State F) :=
  Update L { s with
    mouse := i.mouse
    mouseTracker := { s.mouseTracker with MouseX := i.MouseX, MouseY := i.MouseY } }

/-- A sequence of frames; `none` once a frame panics. -/
def frames (L : Lib F) : State F → List (Input F) → Option (State F)
  | s, [] => some s
  | s, i :: rest => (frame L s i).bind (fun s1 => frames L s1 rest)

/-- The kind of an outgoing call. -/
inductive Call
  | renderAdd
  | addRoad
  | mouseAdd
  | removeEntity
  | setCursor
deriving DecidableEq

/-- The kind of an outgoing call and the identity it is about (0 for a cursor
call). -/
def Event.call : Event F → Call × Nat
  | Event.renderAdd b _ _ => (Call.renderAdd, b.ID)
  | Event.addRoad b _ => (Call.addRoad, b.ID)
  | Event.mouseAdd b => (Call.mouseAdd, b.ID)
  | Event.removeEntity b => (Call.removeEntity, b.ID)
  | Event.setCursor _ => (Call.setCursor, 0)

/-- The render component carries the draw style line 119 gives the selected
candidate: a rectangle with the border colour `colorSelectedBorder` and the
border width 5. -/
def hasBorder (L : Lib F) (r : RenderComponent F) : Prop :=
  r.Drawable = some { BorderColor := colorSelectedBorder, BorderWidth := L.lit 5 }

/-- The states the system reaches from `s0` by frames with arbitrary input. -/
inductive Reachable (L : Lib F) (s0 : State F) : State F → Prop
  | init : Reachable L s0 s0
  | step (s : State F) (i : Input F) (s1 : State F) :
      Reachable L s0 s → frame L s i = some s1 → Reachable L s0 s1

/-- No road known to the system links a candidate to itself: the roads in the road
lists of the city components and the roads passed to the commuter system have
`From` and `To` of different identity. -/
def NoSelfLink (s : State F) : Prop :=
  (∀ p, ∀ road ∈ (s.city p).Roads, road.RoadComponent.From.ID ≠ road.RoadComponent.To.ID)
  ∧ (∀ b rc, Event.addRoad b rc ∈ s.events → rc.From.ID ≠ rc.To.ID)

/-- The outgoing call is not a cursor call. -/
def notCursor (ev : Event F) : Prop := (Event.call ev).1 ≠ Call.setCursor

end Relations

/-! ## A concrete world

Three candidates at the addresses 0, 1 and 2, with identities 1, 2 and 3 and
unrotated 10 × 10 extents centred at (0, 0), (100, 0) and (0, 100). -/

/-- The candidate whose five components live at the address `p`. -/
def cand (p : Nat) : roadBuildingEntity :=
  { BasicEntity := p, CityComponent := p, SpaceComponent := p, RenderComponent := p,
    MouseComponent := p }

/-- An unrotated 10 × 10 extent with its corner at `(x, y)`. -/
noncomputable def box (x y : ℝ) : SpaceComponent Num32 :=
  { Position := pt x y, Width := Num32.val 10, Height := Num32.val 10, Rotation := Num32.val 0 }

/-- Mouse flags: the candidates at the addresses in `clicked` report clicked,
those in `hovered` report hovered. -/
def flags (clicked hovered : List Nat) (p : Nat) : MouseComponent :=
  { Clicked := decide (p ∈ clicked), Hovered := decide (p ∈ hovered) }

/-- A hint that exists: identity 5, placed from (0, 0) towards `(ax, ay)`. -/
noncomputable def hintAt (ax ay : ℝ) : Road Num32 :=
  { Road.zero ideal with
    BasicEntity := { id := 5 }
    RenderComponent :=
      { Drawable := some (Rectangle.zero ideal)
        Color := colorRoadAvailable
        zIndex := Num32.val (-1)
        shader := some Shader.LegacyShader }
    SpaceComponent := hintSpace ideal (pt ax ay) (pt 0 0) }

/-- The world with the registry `cities`, the selection `sel`, the hint `hint`,
the mouse flags `mouse` and the pointer at `(mx, my)`. -/
noncomputable def demo (cities : List roadBuildingEntity) (sel : Option roadBuildingEntity)
    (hint : Road Num32) (mouse : Nat → MouseComponent) (mx my : ℝ) : State Num32 :=
  { basic := fun p => { id := p + 1 }
    city := fun _ => { Roads := [], isHovered := false }
    space := fun p => if p = 0 then box (-5) (-5) else if p = 1 then box 95 (-5) else box (-5) 95
    render := fun _ =>
      { Drawable := some (Rectangle.zero ideal), Color := colorDefault, zIndex := Num32.val 0,
        shader := none }
    mouse := mouse
    world := [System.MouseSystem, System.RenderSystem, System.CommuterSystem,
      System.RoadBuildingSystem]
    cities := cities
    roadHint := hint
    selectedEntity := sel
    hovering := false
    mouseTracker :=
      { BasicEntity := { id := 4 }, Track := true, MouseX := Num32.val mx, MouseY := Num32.val my }
    idInc := 5
    events := [] }

/-- The zero-valued system, in a memory that holds the three candidates. -/
noncomputable def blank : State Num32 :=
  { basic := fun p => { id := p + 1 }
    city := fun _ => { Roads := [], isHovered := false }
    space := fun p => if p = 0 then box (-5) (-5) else if p = 1 then box 95 (-5) else box (-5) 95
    render := fun _ =>
      { Drawable := some (Rectangle.zero ideal), Color := colorDefault, zIndex := Num32.val 0,
        shader := none }
    mouse := flags [] []
    world := []
    cities := []
    roadHint := Road.zero ideal
    selectedEntity := none
    hovering := false
    mouseTracker :=
      { BasicEntity := { id := 0 }, Track := false, MouseX := Num32.val 0, MouseY := Num32.val 0 }
    idInc := 3
    events := [] }

/-- The initial state: `New` on the zero-valued system, then the first two
candidates added to the registry. -/
noncomputable def started : State Num32 :=
  AddCity (AddCity (New ideal blank [System.MouseSystem, System.RenderSystem,
    System.CommuterSystem, System.RoadBuildingSystem]) 0 0 0 0 0) 1 1 1 1 1

/-- The input of a frame: flags as in `flags`, pointer at `(mx, my)`. -/
noncomputable def input (clicked hovered : List Nat) (mx my : ℝ) : Input Num32 :=
  { mouse := flags clicked hovered, MouseX := Num32.val mx, MouseY := Num32.val my }

/-- The registry of the four candidates at the addresses 0 to 3, where the one at
address 3 carries the identity 0 (an `ecs.BasicEntity{}` that `ecs.NewBasic` did
not make); no selection, the hint in its sentinel state. -/
noncomputable def demoZero (mouse : Nat → MouseComponent) : State Num32 :=
  { demo [cand 0, cand 1, cand 2, cand 3] none (Road.zero ideal) mouse 0 0 with
    basic := fun p => if p = 3 then { id := 0 } else { id := p + 1 } }

/-! ## Geometry: statements -/

@[simp] theorem ideal_lit (n : Int) : ideal.lit n = Num32.val n := rfl

@[simp] theorem ideal_add (x y : ℝ) :
    ideal.add (Num32.val x) (Num32.val y) = Num32.val (x + y) := rfl

@[simp] theorem ideal_sub (x y : ℝ) :
    ideal.sub (Num32.val x) (Num32.val y) = Num32.val (x - y) := rfl

@[simp] theorem ideal_mul (x y : ℝ) :
    ideal.mul (Num32.val x) (Num32.val y) = Num32.val (x * y) := rfl

@[simp] theorem ideal_neg (x : ℝ) : ideal.neg (Num32.val x) = Num32.val (-x) := rfl

@[simp] theorem ideal_div (x y : ℝ) :
    ideal.div (Num32.val x) (Num32.val y)
      = if y = 0 then Num32.NaN else Num32.val (x / y) := rfl

@[simp] theorem ideal_div_NaN (y : Num32) : ideal.div Num32.NaN y = Num32.NaN := rfl

@[simp] theorem ideal_mul_NaN (y : Num32) : ideal.mul Num32.NaN y = Num32.NaN := rfl

@[simp] theorem ideal_mul_NaN_right (x : Num32) : ideal.mul x Num32.NaN = Num32.NaN := by
  cases x <;> rfl

@[simp] theorem ideal_lt (x y : ℝ) :
    ideal.lt (Num32.val x) (Num32.val y) = decide (x < y) := rfl

@[simp] theorem ideal_Sqrt (x : ℝ) :
    ideal.Sqrt (Num32.val x) = if x < 0 then Num32.NaN else Num32.val (Real.sqrt x) := rfl

@[simp] theorem ideal_Acos (x : ℝ) :
    ideal.Acos (Num32.val x)
      = if -1 ≤ x ∧ x ≤ 1 then Num32.val (Real.arccos x) else Num32.NaN := rfl

@[simp] theorem ideal_Acos_NaN : ideal.Acos Num32.NaN = Num32.NaN := rfl

@[simp] theorem ideal_Pi : ideal.Pi = Num32.val Real.pi := rfl

theorem ideal_Pow_two (x : ℝ) :
    ideal.Pow (Num32.val x) (Num32.val ((2 : ℤ) : ℝ)) = Num32.val (x ^ 2) := by
  have h : ¬ ((x < 0 ∧ ∀ n : ℤ, (((2 : ℤ) : ℝ)) ≠ n) ∨ (x = 0 ∧ (((2 : ℤ) : ℝ)) < 0)) := by
    rintro (⟨-, h⟩ | ⟨-, h⟩)
    · exact h 2 rfl
    · norm_num at h
  show Num32.pow x ((2 : ℤ) : ℝ) = _
  unfold Num32.pow
  rw [if_neg h]
  congr 1
  rw [Real.rpow_intCast]
  rfl

@[simp] theorem ideal_Pow_two' (x : ℝ) :
    ideal.Pow (Num32.val x) (Num32.val 2) = Num32.val (x ^ 2) := by
  have := ideal_Pow_two x
  simpa using this

theorem roadLength_ideal (ax ay bx by_ : ℝ) :
    roadLength ideal (pt ax ay) (pt bx by_)
      = Num32.val (Real.sqrt ((ax - bx) ^ 2 + (ay - by_) ^ 2)) := by
  have h : ¬ ((ax - bx) ^ 2 + (ay - by_) ^ 2 < 0) := not_lt.mpr (by positivity)
  simp [roadLength, pt, h]

theorem rotationDivisor_ideal (ax ay bx by_ : ℝ) :
    rotationDivisor ideal (pt ax ay) (pt bx by_)
      = Num32.val (2 * Real.sqrt ((ax - bx) ^ 2 + (ay - by_) ^ 2) * (ax - bx)) := by
  simp only [rotationDivisor, roadLength_ideal]
  simp [pt]

theorem rotationArg_ideal (ax ay bx by_ : ℝ) (h : ax ≠ bx) :
    rotationArg ideal (pt ax ay) (pt bx by_)
      = Num32.val ((ax - bx) / Real.sqrt ((ax - bx) ^ 2 + (ay - by_) ^ 2)) := by
  have hdx : ax - bx ≠ 0 := sub_ne_zero.mpr h
  have hpos : 0 < (ax - bx) ^ 2 + (ay - by_) ^ 2 := by positivity
  have hL : Real.sqrt ((ax - bx) ^ 2 + (ay - by_) ^ 2) ≠ 0 := (Real.sqrt_pos.mpr hpos).ne'
  have hsq : Real.sqrt ((ax - bx) ^ 2 + (ay - by_) ^ 2) ^ 2 = (ax - bx) ^ 2 + (ay - by_) ^ 2 :=
    Real.sq_sqrt hpos.le
  simp only [rotationArg, rotationDivisor_ideal, roadLength_ideal]
  simp [pt, hdx, hL, hsq]
  field_simp
  ring

theorem hintSpace_rotation_ideal (ax ay bx by_ : ℝ) (h : ax ≠ bx) :
    (hintSpace ideal (pt ax ay) (pt bx by_)).Rotation
      = Num32.val (180 * (Real.arccos ((ax - bx) / Real.sqrt ((ax - bx) ^ 2 + (ay - by_) ^ 2))
          / Real.pi) * (if ay < by_ then -1 else 1)) := by
  have hpos : 0 < (ax - bx) ^ 2 + (ay - by_) ^ 2 := by
    have : ax - bx ≠ 0 := sub_ne_zero.mpr h
    positivity
  have hLpos := Real.sqrt_pos.mpr hpos
  have habs : |ax - bx| ≤ Real.sqrt ((ax - bx) ^ 2 + (ay - by_) ^ 2) := by
    apply Real.abs_le_sqrt
    nlinarith [sq_nonneg (ay - by_)]
  have hdom : -1 ≤ (ax - bx) / Real.sqrt ((ax - bx) ^ 2 + (ay - by_) ^ 2)
      ∧ (ax - bx) / Real.sqrt ((ax - bx) ^ 2 + (ay - by_) ^ 2) ≤ 1 := by
    have := abs_le.mp habs
    constructor
    · rw [le_div_iff₀ hLpos]; linarith [this.1]
    · rw [div_le_iff₀ hLpos]; linarith [this.2]
  simp only [hintSpace, rotationArg_ideal ax ay bx by_ h]
  by_cases hy : ay < by_
  · simp [pt, hdom, hy, Real.pi_ne_zero]
  · simp [pt, hdom, hy, Real.pi_ne_zero]

theorem hintSpace_width_ideal (ax ay bx by_ : ℝ) :
    (hintSpace ideal (pt ax ay) (pt bx by_)).Width
      = Num32.val (Real.sqrt ((ax - bx) ^ 2 + (ay - by_) ^ 2)) := by
  simp only [hintSpace, roadLength_ideal]

theorem rotationArg_ideal_vertical (ax ay by_ : ℝ) :
    rotationArg ideal (pt ax ay) (pt ax by_) = Num32.NaN := by
  simp only [rotationArg, rotationDivisor_ideal, roadLength_ideal]
  simp [pt]

theorem hintSpace_rotation_ideal_vertical (ax ay by_ : ℝ) :
    (hintSpace ideal (pt ax ay) (pt ax by_)).Rotation = Num32.NaN := by
  simp only [hintSpace, rotationArg_ideal_vertical]
  simp

/-- The cosine and sine of the arc cosine of `dx / length`. -/
theorem cos_sin_arccos_ratio (dx dy : ℝ) (h : dx ≠ 0) :
    Real.sqrt (dx ^ 2 + dy ^ 2) * Real.cos (Real.arccos (dx / Real.sqrt (dx ^ 2 + dy ^ 2))) = dx
    ∧ Real.sqrt (dx ^ 2 + dy ^ 2) * Real.sin (Real.arccos (dx / Real.sqrt (dx ^ 2 + dy ^ 2)))
        = |dy| := by
  have hpos : 0 < dx ^ 2 + dy ^ 2 := by positivity
  have hLpos := Real.sqrt_pos.mpr hpos
  have hsq : Real.sqrt (dx ^ 2 + dy ^ 2) ^ 2 = dx ^ 2 + dy ^ 2 := Real.sq_sqrt hpos.le
  have habs : |dx| ≤ Real.sqrt (dx ^ 2 + dy ^ 2) := by
    apply Real.abs_le_sqrt
    nlinarith [sq_nonneg dy]
  have hb := abs_le.mp habs
  have h1 : -1 ≤ dx / Real.sqrt (dx ^ 2 + dy ^ 2) := by
    rw [le_div_iff₀ hLpos]; linarith [hb.1]
  have h2 : dx / Real.sqrt (dx ^ 2 + dy ^ 2) ≤ 1 := by
    rw [div_le_iff₀ hLpos]; linarith [hb.2]
  constructor
  · rw [Real.cos_arccos h1 h2]
    field_simp
  · rw [Real.sin_arccos]
    have : 1 - (dx / Real.sqrt (dx ^ 2 + dy ^ 2)) ^ 2 = dy ^ 2 / Real.sqrt (dx ^ 2 + dy ^ 2) ^ 2 := by
      field_simp
    rw [this, Real.sqrt_div (sq_nonneg dy), Real.sqrt_sq hLpos.le, Real.sqrt_sq_eq_abs]
    field_simp

/-- Degrees back to radians. -/
theorem deg_to_rad (t d : ℝ) : 180 * (t / Real.pi) * d * Real.pi / 180 = t * d := by
  field_simp
  ring

/-- Where the two centres are not vertically aligned, the hint connects them:
from `B`, `length` units in the direction of the rotation arrive at `A`. -/
theorem hintSpace_connects_of_ne (ax ay bx by_ : ℝ) (h : ax ≠ bx) :
    ∃ len rot : ℝ,
      (hintSpace ideal (pt ax ay) (pt bx by_)).Width = Num32.val len
      ∧ (hintSpace ideal (pt ax ay) (pt bx by_)).Rotation = Num32.val rot
      ∧ bx + len * Real.cos (rot * Real.pi / 180) = ax
      ∧ by_ + len * Real.sin (rot * Real.pi / 180) = ay := by
  refine ⟨_, _, hintSpace_width_ideal ax ay bx by_, hintSpace_rotation_ideal ax ay bx by_ h, ?_, ?_⟩
  · obtain ⟨hc, -⟩ := cos_sin_arccos_ratio (ax - bx) (ay - by_) (sub_ne_zero.mpr h)
    by_cases hy : ay < by_
    · rw [deg_to_rad, if_pos hy, mul_neg, mul_one, Real.cos_neg, hc]; ring
    · rw [deg_to_rad, if_neg hy, mul_one, hc]; ring
  · obtain ⟨-, hs⟩ := cos_sin_arccos_ratio (ax - bx) (ay - by_) (sub_ne_zero.mpr h)
    by_cases hy : ay < by_
    · rw [deg_to_rad, if_pos hy, mul_neg, mul_one, Real.sin_neg, mul_neg, hs, abs_of_neg (sub_neg.mpr hy)]; ring
    · rw [deg_to_rad, if_neg hy, mul_one, hs, abs_of_nonneg (sub_nonneg.mpr (not_lt.mp hy))]; ring

theorem arccos_ratio_bounds (dx dy : ℝ) (h : dx ≠ 0) :
    -1 ≤ dx / Real.sqrt (dx ^ 2 + dy ^ 2) ∧ dx / Real.sqrt (dx ^ 2 + dy ^ 2) ≤ 1 := by
  have hpos : 0 < dx ^ 2 + dy ^ 2 := by positivity
  have hLpos := Real.sqrt_pos.mpr hpos
  have habs : |dx| ≤ Real.sqrt (dx ^ 2 + dy ^ 2) := by
    apply Real.abs_le_sqrt
    nlinarith [sq_nonneg dy]
  have hb := abs_le.mp habs
  constructor
  · rw [le_div_iff₀ hLpos]; linarith [hb.1]
  · rw [div_le_iff₀ hLpos]; linarith [hb.2]

/-- The argument of the arc cosine, as the code writes it, is `dx / length`. -/
theorem law_of_cosines_arg (dx dy : ℝ) (h : dx ≠ 0) :
    (-dy ^ 2 + Real.sqrt (dx ^ 2 + dy ^ 2) ^ 2 + dx ^ 2) / (2 * Real.sqrt (dx ^ 2 + dy ^ 2) * dx)
      = dx / Real.sqrt (dx ^ 2 + dy ^ 2) := by
  have hpos : 0 < dx ^ 2 + dy ^ 2 := by positivity
  have hL : Real.sqrt (dx ^ 2 + dy ^ 2) ≠ 0 := (Real.sqrt_pos.mpr hpos).ne'
  rw [Real.sq_sqrt hpos.le]
  field_simp
  ring

/-- In exact arithmetic, for centres `A`, `B` with `dx = A.x - B.x` non-zero, the
rotation of the hint is `s * (180/π) * arccos((-dy² + length² + dx²) / (2 * length * dx))`,
with `s = -1` when `A.y < B.y` and `s = 1` otherwise; it is `≤ 0` when
`A.y < B.y`, `≥ 0` when `A.y ≥ B.y`, and its magnitude is at most 180. This
is a statement about `ideal` only: in `float32` the squares overflow or
underflow for centres of very large or very small distance, and the rotation is
then `NaN` although `dx` is not zero. -/
theorem hintSpace_rotation_law_of_cosines (ax ay bx by_ : ℝ) (h : ax - bx ≠ 0) :
    ∃ rot : ℝ,
      (hintSpace ideal (pt ax ay) (pt bx by_)).Rotation = Num32.val rot
      ∧ rot = (if ay < by_ then -1 else 1) * (180 / Real.pi)
          * Real.arccos
              ((-(ay - by_) ^ 2 + Real.sqrt ((ax - bx) ^ 2 + (ay - by_) ^ 2) ^ 2 + (ax - bx) ^ 2)
                / (2 * Real.sqrt ((ax - bx) ^ 2 + (ay - by_) ^ 2) * (ax - bx)))
      ∧ (ay < by_ → rot ≤ 0) ∧ (by_ ≤ ay → 0 ≤ rot) ∧ |rot| ≤ 180 := by
  have hne : ax ≠ bx := sub_ne_zero.mp h
  have hpi := Real.pi_pos
  have h0 := Real.arccos_nonneg ((ax - bx) / Real.sqrt ((ax - bx) ^ 2 + (ay - by_) ^ 2))
  have h1 := Real.arccos_le_pi ((ax - bx) / Real.sqrt ((ax - bx) ^ 2 + (ay - by_) ^ 2))
  have hq0 : 0 ≤ Real.arccos ((ax - bx) / Real.sqrt ((ax - bx) ^ 2 + (ay - by_) ^ 2)) / Real.pi :=
    div_nonneg h0 hpi.le
  have hq1 : Real.arccos ((ax - bx) / Real.sqrt ((ax - bx) ^ 2 + (ay - by_) ^ 2)) / Real.pi ≤ 1 :=
    (div_le_one hpi).mpr h1
  refine ⟨_, hintSpace_rotation_ideal ax ay bx by_ hne, ?_, ?_, ?_, ?_⟩
  · rw [law_of_cosines_arg (ax - bx) (ay - by_) h]
    ring
  · intro hy
    rw [if_pos hy]
    nlinarith
  · intro hy
    rw [if_neg (not_lt.mpr hy)]
    nlinarith
  · rw [abs_le]
    by_cases hy : ay < by_
    · rw [if_pos hy]; constructor <;> nlinarith
    · rw [if_neg hy]; constructor <;> nlinarith

theorem hintSpace_rotation_law_of_cosines_witness :
    (100 : ℝ) - 0 ≠ 0 ∧ ∃ rot : ℝ,
      (hintSpace ideal (pt 100 0) (pt 0 0)).Rotation = Num32.val rot
      ∧ rot = (if (0 : ℝ) < 0 then -1 else 1) * (180 / Real.pi)
          * Real.arccos
              ((-((0 : ℝ) - 0) ^ 2 + Real.sqrt (((100 : ℝ) - 0) ^ 2 + ((0 : ℝ) - 0) ^ 2) ^ 2
                  + ((100 : ℝ) - 0) ^ 2)
                / (2 * Real.sqrt (((100 : ℝ) - 0) ^ 2 + ((0 : ℝ) - 0) ^ 2) * ((100 : ℝ) - 0)))
      ∧ ((0 : ℝ) < 0 → rot ≤ 0) ∧ ((0 : ℝ) ≤ 0 → 0 ≤ rot) ∧ |rot| ≤ 180 :=
  ⟨by norm_num, hintSpace_rotation_law_of_cosines 100 0 0 0 (by norm_num)⟩

/-- C5: at coincident centres the length is 0, the divisor of the arc cosine
argument is 0, the division is carried out all the same and the rotation is
`NaN`: the code has no fallback. -/
theorem hintSpace_coincident_NaN (x y : ℝ) :
    (hintSpace ideal (pt x y) (pt x y)).Width = Num32.val 0
    ∧ rotationDivisor ideal (pt x y) (pt x y) = Num32.val 0
    ∧ rotationArg ideal (pt x y) (pt x y) = Num32.NaN
    ∧ (hintSpace ideal (pt x y) (pt x y)).Rotation = Num32.NaN := by
  refine ⟨?_, ?_, rotationArg_ideal_vertical x y y, hintSpace_rotation_ideal_vertical x y y⟩
  · rw [hintSpace_width_ideal]; simp
  · rw [rotationDivisor_ideal]; simp

/-- Where the two centres are not vertically aligned, swapping them keeps the
length and turns the rotation by 180 degrees modulo 360. -/
theorem hintSpace_swap_of_ne (ax ay bx by_ : ℝ) (h : ax ≠ bx) :
    (hintSpace ideal (pt ax ay) (pt bx by_)).Width = (hintSpace ideal (pt bx by_) (pt ax ay)).Width
    ∧ ∃ r1 r2 : ℝ, ∃ k : ℤ,
        (hintSpace ideal (pt ax ay) (pt bx by_)).Rotation = Num32.val r1
        ∧ (hintSpace ideal (pt bx by_) (pt ax ay)).Rotation = Num32.val r2
        ∧ r1 - r2 = 180 + 360 * k := by
  have hL : (bx - ax) ^ 2 + (by_ - ay) ^ 2 = (ax - bx) ^ 2 + (ay - by_) ^ 2 := by ring
  have hdx : ax - bx ≠ 0 := sub_ne_zero.mpr h
  have hpi := Real.pi_ne_zero
  have hneg : (bx - ax) / Real.sqrt ((ax - bx) ^ 2 + (ay - by_) ^ 2)
      = -((ax - bx) / Real.sqrt ((ax - bx) ^ 2 + (ay - by_) ^ 2)) := by ring
  constructor
  · rw [hintSpace_width_ideal, hintSpace_width_ideal, hL]
  · rcases lt_trichotomy ay by_ with hy | hy | hy
    · refine ⟨_, _, -1, hintSpace_rotation_ideal ax ay bx by_ h,
        hintSpace_rotation_ideal bx by_ ax ay (Ne.symm h), ?_⟩
      rw [hL, hneg, Real.arccos_neg, if_pos hy, if_neg (not_lt.mpr hy.le)]
      push_cast
      field_simp
      ring
    · subst hy
      have hsq : Real.sqrt ((ax - bx) ^ 2 + (ay - ay) ^ 2) = |ax - bx| := by
        rw [sub_self]; simp [Real.sqrt_sq_eq_abs]
      rcases lt_or_gt_of_ne hdx with hx | hx
      · refine ⟨_, _, 0, hintSpace_rotation_ideal ax ay bx ay h,
          hintSpace_rotation_ideal bx ay ax ay (Ne.symm h), ?_⟩
        rw [hL, hneg, Real.arccos_neg, hsq, abs_of_neg hx, div_neg, div_self hdx,
          Real.arccos_neg, Real.arccos_one, if_neg (lt_irrefl ay)]
        push_cast
        field_simp
      · refine ⟨_, _, -1, hintSpace_rotation_ideal ax ay bx ay h,
          hintSpace_rotation_ideal bx ay ax ay (Ne.symm h), ?_⟩
        rw [hL, hneg, Real.arccos_neg, hsq, abs_of_pos hx, div_self hdx,
          Real.arccos_one, if_neg (lt_irrefl ay)]
        push_cast
        field_simp
        ring
    · refine ⟨_, _, 0, hintSpace_rotation_ideal ax ay bx by_ h,
        hintSpace_rotation_ideal bx by_ ax ay (Ne.symm h), ?_⟩
      rw [hL, hneg, Real.arccos_neg, if_neg (not_lt.mpr hy.le), if_pos hy]
      push_cast
      field_simp
      ring

section Loop

variable {F : Type}

theorem Quiet.qrefl (s : State F) : Quiet s s :=
  ⟨rfl, rfl, rfl, rfl, rfl, rfl, rfl, rfl, rfl, rfl, rfl, fun _ => rfl, fun _ => rfl⟩

theorem Quiet.qtrans {s t u : State F} (h1 : Quiet s t) (h2 : Quiet t u) : Quiet s u where
  basic := h2.basic.trans h1.basic
  space := h2.space.trans h1.space
  mouse := h2.mouse.trans h1.mouse
  world := h2.world.trans h1.world
  cities := h2.cities.trans h1.cities
  roadHint := h2.roadHint.trans h1.roadHint
  selectedEntity := h2.selectedEntity.trans h1.selectedEntity
  hovering := h2.hovering.trans h1.hovering
  mouseTracker := h2.mouseTracker.trans h1.mouseTracker
  idInc := h2.idInc.trans h1.idInc
  events := h2.events.trans h1.events
  roads := fun p => (h2.roads p).trans (h1.roads p)
  drawable := fun p => (h2.drawable p).trans (h1.drawable p)

theorem setColor_quiet (s : State F) (p : Nat) (c : Color) : Quiet s (setColor s p c) := by
  refine ⟨rfl, rfl, rfl, rfl, rfl, rfl, rfl, rfl, rfl, rfl, rfl, fun _ => rfl, fun q => ?_⟩
  by_cases h : q = p
  · subst h; simp [setColor]
  · simp [setColor, Function.update_noteq h]

theorem setIsHovered_quiet (s : State F) (p : Nat) (b : Bool) : Quiet s (setIsHovered s p b) := by
  refine ⟨rfl, rfl, rfl, rfl, rfl, rfl, rfl, rfl, rfl, rfl, rfl, fun q => ?_, fun _ => rfl⟩
  by_cases h : q = p
  · subst h; simp [setIsHovered]
  · simp [setIsHovered, Function.update_noteq h]

theorem hoverStep_quiet (st : LoopState F) (index : Nat) (e : roadBuildingEntity) :
    Quiet st.r (hoverStep st index e).r := by
  unfold hoverStep
  split
  · split
    · exact (setColor_quiet _ _ _).qtrans (setIsHovered_quiet _ _ _)
    · split
      · exact setColor_quiet _ _ _
      · exact Quiet.qrefl _
  · exact Quiet.qrefl _

theorem clickStep_of_not_clicked (L : Lib F) (s : State F) (e : roadBuildingEntity)
    (h : (s.mouse e.MouseComponent).Clicked = false) : clickStep L s e = s := by
  simp [clickStep, h]

theorem visit_quiet (L : Lib F) (st : LoopState F) (index : Nat) (e : roadBuildingEntity)
    (h : (st.r.mouse e.MouseComponent).Clicked = false) :
    Quiet st.r (visit L st index e).r := by
  unfold visit
  rw [clickStep_of_not_clicked L st.r e h]
  exact hoverStep_quiet _ _ _

theorem cityLoop_quiet (L : Lib F) (l : List roadBuildingEntity) :
    ∀ (index : Nat) (st : LoopState F),
      (∀ e ∈ l, (st.r.mouse e.MouseComponent).Clicked = false) →
      Quiet st.r (cityLoop L index l st).r := by
  induction l with
  | nil => intro index st _; exact Quiet.qrefl _
  | cons e rest ih =>
    intro index st h
    have h1 := visit_quiet L st index e (h e (List.mem_cons_self _ _))
    have h2 := ih (index + 1) (visit L st index e) (fun e' he' => by
      rw [h1.mouse]; exact h e' (List.mem_cons_of_mem _ he'))
    exact h1.qtrans h2

theorem cityLoop_append (L : Lib F) (l1 l2 : List roadBuildingEntity) :
    ∀ (index : Nat) (st : LoopState F),
      cityLoop L index (l1 ++ l2) st = cityLoop L (index + l1.length) l2 (cityLoop L index l1 st) := by
  induction l1 with
  | nil => intro index st; simp [cityLoop]
  | cons e rest ih =>
    intro index st
    show cityLoop L (index + 1) (rest ++ l2) (visit L st index e)
      = cityLoop L (index + (rest.length + 1)) l2 (cityLoop L (index + 1) rest (visit L st index e))
    rw [ih, Nat.add_assoc, Nat.add_comm 1]

end Loop

section Click

variable {F : Type}

theorem Remove_eq (s : State F) (b : BasicEntity) :
    ∃ cs, Remove s b = { s with cities := cs } := by
  unfold Remove
  simp only
  split
  · exact ⟨_, rfl⟩
  · exact ⟨s.cities, rfl⟩

theorem foldl_Remove_eq (b : BasicEntity) (w : List System) :
    ∀ s : State F, ∃ cs,
      w.foldl (fun s sys => if sys = System.RoadBuildingSystem then Remove s b else s) s
        = { s with cities := cs } := by
  induction w with
  | nil => intro s; exact ⟨s.cities, rfl⟩
  | cons sys rest ih =>
    intro s
    simp only [List.foldl_cons]
    by_cases h : sys = System.RoadBuildingSystem
    · rw [if_pos h]
      obtain ⟨cs1, h1⟩ := Remove_eq s b
      obtain ⟨cs2, h2⟩ := ih (Remove s b)
      rw [h2, h1]
      exact ⟨cs2, rfl⟩
    · rw [if_neg h]
      exact ih s

theorem worldRemoveEntity_eq (s : State F) (b : BasicEntity) :
    ∃ cs, worldRemoveEntity s b
      = { s with events := s.events ++ [Event.removeEntity b], cities := cs } := by
  unfold worldRemoveEntity
  obtain ⟨cs, h⟩ := foldl_Remove_eq b (emit s [Event.removeEntity b]).world
    (emit s [Event.removeEntity b])
  exact ⟨cs, h⟩

end Click

section Click2

variable {F : Type}

theorem buildRoad_eq (L : Lib F) (s : State F) (sel e : roadBuildingEntity) :
    ∃ cs, buildRoad L s sel e
      = { s with
          idInc := s.idInc + 1
          events := s.events
            ++ roadRegistrations s.world (actualRoad L s { id := s.idInc + 1 } sel e)
            ++ [Event.removeEntity s.roadHint.BasicEntity]
          city := Function.update s.city sel.CityComponent
            { s.city sel.CityComponent with
              Roads := (s.city sel.CityComponent).Roads
                ++ [actualRoad L s { id := s.idInc + 1 } sel e] }
          cities := cs
          roadHint := Road.zero L } := by
  unfold buildRoad NewBasic
  simp only
  obtain ⟨cs, h⟩ := worldRemoveEntity_eq
    (appendRoad (emit { s with idInc := s.idInc + 1 }
      (roadRegistrations s.world (actualRoad L { s with idInc := s.idInc + 1 }
        { id := s.idInc + 1 } sel e))) sel.CityComponent
      (actualRoad L { s with idInc := s.idInc + 1 } { id := s.idInc + 1 } sel e))
    s.roadHint.BasicEntity
  refine ⟨cs, ?_⟩
  simp only [appendRoad, emit] at h ⊢
  rw [h]
  simp [actualRoad]

end Click2

section Click3

variable {F : Type}

theorem Quiet.toCalm {s t : State F} (h : Quiet s t) : Calm s t :=
  ⟨h.basic, h.space, h.mouse, h.world, h.cities, h.roadHint, h.hovering, h.mouseTracker,
    h.idInc, h.events, h.roads⟩

theorem Calm.crefl (s : State F) : Calm s s :=
  ⟨rfl, rfl, rfl, rfl, rfl, rfl, rfl, rfl, rfl, rfl, fun _ => rfl⟩

theorem Calm.ctrans {s t u : State F} (h1 : Calm s t) (h2 : Calm t u) : Calm s u where
  basic := h2.basic.trans h1.basic
  space := h2.space.trans h1.space
  mouse := h2.mouse.trans h1.mouse
  world := h2.world.trans h1.world
  cities := h2.cities.trans h1.cities
  roadHint := h2.roadHint.trans h1.roadHint
  hovering := h2.hovering.trans h1.hovering
  mouseTracker := h2.mouseTracker.trans h1.mouseTracker
  idInc := h2.idInc.trans h1.idInc
  events := h2.events.trans h1.events
  roads := fun p => (h2.roads p).trans (h1.roads p)

theorem setDrawable_calm (s : State F) (p : Nat) (d : Option (Rectangle F)) :
    Calm s (setDrawable s p d) :=
  ⟨rfl, rfl, rfl, rfl, rfl, rfl, rfl, rfl, rfl, rfl, fun _ => rfl⟩

theorem setSelected_calm (s : State F) (o : Option roadBuildingEntity) :
    Calm s { s with selectedEntity := o } :=
  ⟨rfl, rfl, rfl, rfl, rfl, rfl, rfl, rfl, rfl, rfl, fun _ => rfl⟩

/-- A click on a candidate with the identity of the selected one: nothing but the
selection and render components change. -/
theorem clickStep_self (L : Lib F) (s : State F) (sel e : roadBuildingEntity)
    (hsel : s.selectedEntity = some sel)
    (hc : (s.mouse e.MouseComponent).Clicked = true)
    (hid : (s.basic sel.BasicEntity).ID = (s.basic e.BasicEntity).ID) :
    Calm s (clickStep L s e) ∧ (clickStep L s e).selectedEntity = none := by
  unfold clickStep
  rw [if_pos hc, hsel]
  simp only [hid, ne_eq, not_true_eq_false, if_false]
  refine ⟨?_, by trivial⟩
  exact ((((setColor_quiet s _ _).toCalm).ctrans (setDrawable_calm _ _ _)).ctrans
    (setDrawable_calm _ _ _)).ctrans (setSelected_calm _ _)

/-- A click on a candidate with another identity than the selected one. -/
theorem clickStep_commit (L : Lib F) (s : State F) (sel e : roadBuildingEntity)
    (hsel : s.selectedEntity = some sel)
    (hc : (s.mouse e.MouseComponent).Clicked = true)
    (hid : (s.basic sel.BasicEntity).ID ≠ (s.basic e.BasicEntity).ID) :
    (clickStep L s e).selectedEntity = none
    ∧ (clickStep L s e).basic = s.basic
    ∧ (clickStep L s e).space = s.space
    ∧ (clickStep L s e).mouse = s.mouse
    ∧ (clickStep L s e).world = s.world
    ∧ (clickStep L s e).hovering = s.hovering
    ∧ (clickStep L s e).mouseTracker = s.mouseTracker
    ∧ (clickStep L s e).roadHint = Road.zero L
    ∧ (clickStep L s e).idInc = s.idInc + 1
    ∧ (clickStep L s e).events = s.events
        ++ roadRegistrations s.world (actualRoad L s { id := s.idInc + 1 } sel e)
        ++ [Event.removeEntity s.roadHint.BasicEntity]
    ∧ ((clickStep L s e).city sel.CityComponent).Roads
        = (s.city sel.CityComponent).Roads ++ [actualRoad L s { id := s.idInc + 1 } sel e]
    ∧ ∀ p, p ≠ sel.CityComponent → ((clickStep L s e).city p).Roads = (s.city p).Roads := by
  obtain ⟨cs, hb⟩ := buildRoad_eq L s sel e
  unfold clickStep
  rw [if_pos hc, hsel]
  simp only [hid, ne_eq, not_false_eq_true, if_true, hb]
  refine ⟨?_, ?_, ?_, ?_, ?_, ?_, ?_, ?_, ?_, ?_, ?_, ?_⟩ <;> first | trivial | rfl | skip
  · simp [setColor, setDrawable]
  · intro p hp
    simp [setColor, setDrawable, Function.update_noteq hp]

theorem cursorBlock_eq (s : State F) (hovered : Bool) :
    ∃ cur h, cursorBlock s hovered = { s with events := s.events ++ cur, hovering := h }
      ∧ ∀ ev ∈ cur, ∃ c, ev = Event.setCursor c := by
  unfold cursorBlock
  split
  · exact ⟨[Event.setCursor Cursor.CursorHand], true, rfl, by simp⟩
  · split
    · exact ⟨[Event.setCursor Cursor.CursorNone], false, rfl, by simp⟩
    · exact ⟨[], s.hovering, by simp, by simp⟩

end Click3

section Frames

variable {F : Type}

theorem Update_of_selected_none (L : Lib F) (s : State F)
    (h : (cityLoop L 0 s.cities { r := s, hovered := false, hoveredId := -1 }).r.selectedEntity
      = none) :
    Update L s = some (cursorBlock
      (cityLoop L 0 s.cities { r := s, hovered := false, hoveredId := -1 }).r
      (cityLoop L 0 s.cities { r := s, hovered := false, hoveredId := -1 }).hovered) := by
  unfold Update
  simp only [h]

theorem Update_of_selected_some (L : Lib F) (s : State F) (sel : roadBuildingEntity)
    (h : (cityLoop L 0 s.cities { r := s, hovered := false, hoveredId := -1 }).r.selectedEntity
      = some sel) :
    Update L s = (hintBlock L
      (cityLoop L 0 s.cities { r := s, hovered := false, hoveredId := -1 }).r
      (cityLoop L 0 s.cities { r := s, hovered := false, hoveredId := -1 }).hoveredId sel).map
        (fun s1 => cursorBlock s1
          (cityLoop L 0 s.cities { r := s, hovered := false, hoveredId := -1 }).hovered) := by
  unfold Update
  simp only [h]
  cases hintBlock L (cityLoop L 0 s.cities { r := s, hovered := false, hoveredId := -1 }).r
    (cityLoop L 0 s.cities { r := s, hovered := false, hoveredId := -1 }).hoveredId sel <;> rfl

/-- The loop over a registry with a single clicked entry `e`: up to `e` only
colours and hover flags change, `e` is handled, and from there on again only
colours and hover flags change. -/
theorem cityLoop_single_click (L : Lib F) (s : State F) (pre post : List roadBuildingEntity)
    (e : roadBuildingEntity)
    (hpre : ∀ c ∈ pre, (s.mouse c.MouseComponent).Clicked = false)
    (hpost : ∀ c ∈ post, (s.mouse c.MouseComponent).Clicked = false) :
    ∃ s1 : State F, Quiet s s1
      ∧ Quiet (clickStep L s1 e)
          (cityLoop L 0 (pre ++ e :: post) { r := s, hovered := false, hoveredId := -1 }).r := by
  have Q1 := cityLoop_quiet L pre 0 { r := s, hovered := false, hoveredId := -1 } hpre
  refine ⟨_, Q1, ?_⟩
  rw [cityLoop_append]
  show Quiet _ (cityLoop L (0 + pre.length + 1) post (visit L _ (0 + pre.length) e)).r
  have Q2 := hoverStep_quiet
    { cityLoop L 0 pre { r := s, hovered := false, hoveredId := -1 } with
      r := clickStep L (cityLoop L 0 pre { r := s, hovered := false, hoveredId := -1 }).r e }
    (0 + pre.length) e
  refine Q2.qtrans (cityLoop_quiet L post _ _ ?_)
  intro c hc
  have hm : (clickStep L (cityLoop L 0 pre { r := s, hovered := false, hoveredId := -1 }).r e).mouse
      = s.mouse := by
    rw [← Q1.mouse]
    unfold clickStep
    split
    · split
      · rfl
      · split
        · obtain ⟨cs, hb⟩ := buildRoad_eq L
            (cityLoop L 0 pre { r := s, hovered := false, hoveredId := -1 }).r ‹_› e
          simp only [hb]; rfl
        · rfl
    · rfl
  show ((visit L _ (0 + pre.length) e).r.mouse c.MouseComponent).Clicked = false
  unfold visit
  rw [Q2.mouse]
  simp only
  rw [hm]
  exact hpost c hc

end Frames

section ClickFrames

variable {F : Type}

/-- A frame in which the only clicked entry has the identity of the selected
candidate: the selection is cleared, and apart from cursor calls, colours,
drawables and hover flags nothing changes; the hint is left as it was. -/
theorem Update_click_self (L : Lib F) (s : State F) (sel e : roadBuildingEntity)
    (pre post : List roadBuildingEntity)
    (hsel : s.selectedEntity = some sel)
    (hcities : s.cities = pre ++ e :: post)
    (hpre : ∀ c ∈ pre, (s.mouse c.MouseComponent).Clicked = false)
    (hpost : ∀ c ∈ post, (s.mouse c.MouseComponent).Clicked = false)
    (hc : (s.mouse e.MouseComponent).Clicked = true)
    (hid : (s.basic sel.BasicEntity).ID = (s.basic e.BasicEntity).ID) :
    ∃ s' cur, Update L s = some s'
      ∧ s'.selectedEntity = none
      ∧ s'.cities = s.cities
      ∧ s'.roadHint = s.roadHint
      ∧ s'.idInc = s.idInc
      ∧ (∀ p, (s'.city p).Roads = (s.city p).Roads)
      ∧ s'.events = s.events ++ cur
      ∧ ∀ ev ∈ cur, ∃ c, ev = Event.setCursor c := by
  obtain ⟨s1, Q1, Q2⟩ := cityLoop_single_click L s pre post e hpre hpost
  have hsel1 : s1.selectedEntity = some sel := by rw [Q1.selectedEntity, hsel]
  have hc1 : (s1.mouse e.MouseComponent).Clicked = true := by rw [Q1.mouse, hc]
  have hid1 : (s1.basic sel.BasicEntity).ID = (s1.basic e.BasicEntity).ID := by
    rw [Q1.basic, hid]
  obtain ⟨C, hnone⟩ := clickStep_self L s1 sel e hsel1 hc1 hid1
  rw [← hcities] at Q2
  have hfin : (cityLoop L 0 s.cities { r := s, hovered := false, hoveredId := -1 }).r.selectedEntity
      = none := by rw [Q2.selectedEntity, hnone]
  have CC : Calm s (cityLoop L 0 s.cities { r := s, hovered := false, hoveredId := -1 }).r :=
    (Q1.toCalm.ctrans C).ctrans Q2.toCalm
  obtain ⟨cur, h, hcb, hcur⟩ := cursorBlock_eq
    (cityLoop L 0 s.cities { r := s, hovered := false, hoveredId := -1 }).r
    (cityLoop L 0 s.cities { r := s, hovered := false, hoveredId := -1 }).hovered
  refine ⟨_, cur, Update_of_selected_none L s hfin, ?_, ?_, ?_, ?_, ?_, ?_, hcur⟩
  · rw [hcb]; exact hfin
  · rw [hcb]; exact CC.cities
  · rw [hcb]; exact CC.roadHint
  · rw [hcb]; exact CC.idInc
  · intro p; rw [hcb]; exact CC.roads p
  · rw [hcb]; show _ ++ cur = _; rw [CC.events]

end ClickFrames

section Hover

variable {F : Type}

theorem hoverHit_quiet {s t : State F} (h : Quiet s t) (e : roadBuildingEntity) :
    hoverHit t e = hoverHit s e := by
  unfold hoverHit notSelected
  rw [h.selectedEntity, h.basic, h.mouse]

theorem hoverStep_hit (st : LoopState F) (index : Nat) (e : roadBuildingEntity)
    (h : hoverHit st.r e = true) :
    (hoverStep st index e).hoveredId = (index : Int) ∧ (hoverStep st index e).hovered = true := by
  unfold hoverHit at h
  rw [Bool.and_eq_true] at h
  unfold hoverStep
  rw [if_pos h.1, if_pos h.2]
  exact ⟨rfl, rfl⟩

theorem hoverStep_miss (st : LoopState F) (index : Nat) (e : roadBuildingEntity)
    (h : hoverHit st.r e = false) :
    (hoverStep st index e).hoveredId = st.hoveredId
    ∧ (hoverStep st index e).hovered = st.hovered := by
  unfold hoverHit at h
  unfold hoverStep
  by_cases h1 : notSelected st.r e = true
  · have h2 : (st.r.mouse e.MouseComponent).Hovered = false := by
      rw [h1] at h; simpa using h
    rw [if_pos h1, h2]
    simp only [Bool.false_eq_true, if_false]
    split <;> exact ⟨rfl, rfl⟩
  · rw [if_neg h1]
    exact ⟨rfl, rfl⟩

theorem cityLoop_no_hit (L : Lib F) (l : List roadBuildingEntity) :
    ∀ (index : Nat) (st : LoopState F),
      (∀ c ∈ l, (st.r.mouse c.MouseComponent).Clicked = false) →
      (∀ c ∈ l, hoverHit st.r c = false) →
      (cityLoop L index l st).hoveredId = st.hoveredId
      ∧ (cityLoop L index l st).hovered = st.hovered := by
  induction l with
  | nil => intro index st _ _; exact ⟨rfl, rfl⟩
  | cons e rest ih =>
    intro index st hc hh
    have Q := visit_quiet L st index e (hc e (List.mem_cons_self _ _))
    have hv : visit L st index e = hoverStep st index e := by
      unfold visit
      rw [clickStep_of_not_clicked L st.r e (hc e (List.mem_cons_self _ _))]
    obtain ⟨m1, m2⟩ := hoverStep_miss st index e (hh e (List.mem_cons_self _ _))
    obtain ⟨i1, i2⟩ := ih (index + 1) (visit L st index e)
      (fun c hcm => by rw [Q.mouse]; exact hc c (List.mem_cons_of_mem _ hcm))
      (fun c hcm => by rw [hoverHit_quiet Q]; exact hh c (List.mem_cons_of_mem _ hcm))
    show (cityLoop L (index + 1) rest (visit L st index e)).hoveredId = _
      ∧ (cityLoop L (index + 1) rest (visit L st index e)).hovered = _
    rw [i1, i2, hv]
    exact ⟨m1, m2⟩

/-- In a loop without clicks the hovered index is that of the last entry that
takes the hover branch. -/
theorem cityLoop_last_hit (L : Lib F) (l : List roadBuildingEntity) :
    ∀ (index : Nat) (st : LoopState F) (k : Nat) (e : roadBuildingEntity),
      (∀ c ∈ l, (st.r.mouse c.MouseComponent).Clicked = false) →
      l.get? k = some e →
      hoverHit st.r e = true →
      (∀ j c, k < j → l.get? j = some c → hoverHit st.r c = false) →
      (cityLoop L index l st).hoveredId = ((index + k : Nat) : Int)
      ∧ (cityLoop L index l st).hovered = true := by
  induction l with
  | nil => intro index st k e _ hk; simp at hk
  | cons c rest ih =>
    intro index st k e hc hk he hlast
    have Q := visit_quiet L st index c (hc c (List.mem_cons_self _ _))
    have hv : visit L st index c = hoverStep st index c := by
      unfold visit
      rw [clickStep_of_not_clicked L st.r c (hc c (List.mem_cons_self _ _))]
    have hc' : ∀ c' ∈ rest, ((visit L st index c).r.mouse c'.MouseComponent).Clicked = false :=
      fun c' hcm => by rw [Q.mouse]; exact hc c' (List.mem_cons_of_mem _ hcm)
    show (cityLoop L (index + 1) rest (visit L st index c)).hoveredId = _
      ∧ (cityLoop L (index + 1) rest (visit L st index c)).hovered = true
    cases k with
    | zero =>
      simp only [List.get?_cons_zero, Option.some.injEq] at hk
      subst hk
      have hrest : ∀ c' ∈ rest, hoverHit (visit L st index c).r c' = false := by
        intro c' hcm
        rw [hoverHit_quiet Q]
        obtain ⟨j, hj⟩ := List.get?_of_mem hcm
        exact hlast (j + 1) c' (Nat.succ_pos j) (by simpa using hj)
      obtain ⟨i1, i2⟩ := cityLoop_no_hit L rest (index + 1) (visit L st index c) hc' hrest
      obtain ⟨m1, m2⟩ := hoverStep_hit st index c he
      rw [i1, i2, hv, m1, m2]
      exact ⟨rfl, rfl⟩
    | succ k =>
      simp only [List.get?_cons_succ] at hk
      obtain ⟨i1, i2⟩ := ih (index + 1) (visit L st index c) k e hc' hk
        (by rw [hoverHit_quiet Q]; exact he)
        (fun j c' hj hjc => by
          rw [hoverHit_quiet Q]
          exact hlast (j + 1) c' (Nat.succ_lt_succ hj) (by simpa using hjc))
      rw [i1, i2]
      refine ⟨?_, rfl⟩
      congr 1
      omega

end Hover

section Hint

variable {F : Type}

/-- The hint block when the hint exists already: colour and placement are
rewritten, nothing is registered. -/
theorem hintBlock_old (L : Lib F) (s : State F) (hoveredId : Int) (sel : roadBuildingEntity)
    (target : SpaceComponent F)
    (ht : hintTarget L s hoveredId = some target)
    (h0 : s.roadHint.BasicEntity.ID ≠ 0) :
    hintBlock L s hoveredId sel = some
      { s with roadHint :=
          { s.roadHint with
            RenderComponent :=
              { s.roadHint.RenderComponent with
                Color := if hoveredId ≥ 0 then colorRoadAvailable else colorRoadUnavailable }
            SpaceComponent := hintSpace L (center L (L.spaceAABB target))
              (center L (L.spaceAABB (s.space sel.SpaceComponent))) } } := by
  unfold hintBlock
  rw [ht]
  simp [h0]

/-- The hint block when the hint is in its sentinel state: a hint with a fresh
identity is made and registered with every render system of the world. -/
theorem hintBlock_new (L : Lib F) (s : State F) (hoveredId : Int) (sel : roadBuildingEntity)
    (target : SpaceComponent F)
    (ht : hintTarget L s hoveredId = some target)
    (h0 : s.roadHint.BasicEntity.ID = 0) :
    ∃ hint : Road F,
      hint.BasicEntity = { id := s.idInc + 1 }
      ∧ hint.RenderComponent.Color
          = (if hoveredId ≥ 0 then colorRoadAvailable else colorRoadUnavailable)
      ∧ hint.SpaceComponent = hintSpace L (center L (L.spaceAABB target))
          (center L (L.spaceAABB (s.space sel.SpaceComponent)))
      ∧ hintBlock L s hoveredId sel = some
        { s with
          idInc := s.idInc + 1
          roadHint := hint
          events := s.events ++ (s.world.filter (fun sys => sys = System.RenderSystem)).map
            (fun _ => Event.renderAdd hint.BasicEntity hint.RenderComponent
              hint.SpaceComponent) } := by
  refine ⟨{ Road.zero L with
      BasicEntity := { id := s.idInc + 1 }
      RenderComponent :=
        { Drawable := some (Rectangle.zero L)
          Color := if hoveredId ≥ 0 then colorRoadAvailable else colorRoadUnavailable
          zIndex := L.lit (-1)
          shader := some Shader.LegacyShader }
      SpaceComponent := hintSpace L (center L (L.spaceAABB target))
        (center L (L.spaceAABB (s.space sel.SpaceComponent))) }, rfl, rfl, rfl, ?_⟩
  unfold hintBlock
  rw [ht]
  simp [h0, NewBasic, emit]

theorem hintTarget_hovered (L : Lib F) (s : State F) (i : Nat) (e : roadBuildingEntity)
    (h : s.cities.get? i = some e) :
    hintTarget L s (i : Int) = some (s.space e.SpaceComponent) := by
  unfold hintTarget
  rw [if_pos (Int.ofNat_nonneg i), Int.toNat_ofNat, h]
  rfl

theorem hintTarget_pointer (L : Lib F) (s : State F) :
    hintTarget L s (-1) = some { SpaceComponent.zero L with
      Position := { X := s.mouseTracker.MouseX, Y := s.mouseTracker.MouseY } } := by
  unfold hintTarget
  simp

/-- A frame without clicks: the loop changes colours and hover flags only. -/
theorem Update_no_click (L : Lib F) (s : State F)
    (h : ∀ c ∈ s.cities, (s.mouse c.MouseComponent).Clicked = false) :
    Quiet s (cityLoop L 0 s.cities { r := s, hovered := false, hoveredId := -1 }).r :=
  cityLoop_quiet L s.cities 0 { r := s, hovered := false, hoveredId := -1 } h

end Hint

section StableLemmas

variable {F : Type}

theorem Stable.srefl (s : State F) : Stable s s := ⟨rfl, rfl, rfl, rfl, rfl⟩

theorem Stable.strans {s t u : State F} (h1 : Stable s t) (h2 : Stable t u) : Stable s u :=
  ⟨h2.basic.trans h1.basic, h2.space.trans h1.space, h2.mouse.trans h1.mouse,
    h2.world.trans h1.world, h2.mouseTracker.trans h1.mouseTracker⟩

theorem Calm.toStable {s t : State F} (h : Calm s t) : Stable s t :=
  ⟨h.basic, h.space, h.mouse, h.world, h.mouseTracker⟩

theorem clickStep_stable (L : Lib F) (s : State F) (e : roadBuildingEntity) :
    Stable s (clickStep L s e) := by
  unfold clickStep
  split
  · split
    · exact ⟨rfl, rfl, rfl, rfl, rfl⟩
    · split
      · obtain ⟨cs, hb⟩ := buildRoad_eq L s ‹_› e
        simp only [hb]
        exact ⟨rfl, rfl, rfl, rfl, rfl⟩
      · exact ⟨rfl, rfl, rfl, rfl, rfl⟩
  · exact Stable.srefl s

theorem visit_stable (L : Lib F) (st : LoopState F) (index : Nat) (e : roadBuildingEntity) :
    Stable st.r (visit L st index e).r := by
  unfold visit
  exact (clickStep_stable L st.r e).strans
    (hoverStep_quiet { st with r := clickStep L st.r e } index e).toCalm.toStable

theorem cityLoop_stable (L : Lib F) (l : List roadBuildingEntity) :
    ∀ (index : Nat) (st : LoopState F), Stable st.r (cityLoop L index l st).r := by
  induction l with
  | nil => intro index st; exact Stable.srefl _
  | cons e rest ih =>
    intro index st
    exact (visit_stable L st index e).strans (ih (index + 1) (visit L st index e))

/-- The cursor block leaves the selection and the hint alone. -/
theorem cursorBlock_keeps (s : State F) (hovered : Bool) :
    (cursorBlock s hovered).selectedEntity = s.selectedEntity
    ∧ (cursorBlock s hovered).roadHint = s.roadHint := by
  obtain ⟨cur, h, hcb, -⟩ := cursorBlock_eq s hovered
  rw [hcb]
  exact ⟨rfl, rfl⟩

/-- The hint block returns as soon as the target exists; it keeps the selection,
writes the placement computed from the two centres and the tint. -/
theorem hintBlock_spec (L : Lib F) (s : State F) (hoveredId : Int) (sel : roadBuildingEntity)
    (target : SpaceComponent F) (ht : hintTarget L s hoveredId = some target) :
    ∃ s1, hintBlock L s hoveredId sel = some s1
      ∧ s1.selectedEntity = s.selectedEntity
      ∧ s1.roadHint.SpaceComponent = hintSpace L (center L (L.spaceAABB target))
          (center L (L.spaceAABB (s.space sel.SpaceComponent)))
      ∧ s1.roadHint.RenderComponent.Color
          = (if hoveredId ≥ 0 then colorRoadAvailable else colorRoadUnavailable) := by
  by_cases h0 : s.roadHint.BasicEntity.ID = 0
  · obtain ⟨hint, -, hcol, hsp, hb⟩ := hintBlock_new L s hoveredId sel target ht h0
    exact ⟨_, hb, rfl, hsp, hcol⟩
  · exact ⟨_, hintBlock_old L s hoveredId sel target ht h0, rfl, rfl, rfl⟩

/-- A frame that leaves the loop with the candidate `sel` selected and a target
for the hint: `Update` returns, keeps the selection and writes the placement
computed from the two centres. -/
theorem Update_hint (L : Lib F) (s : State F) (sel : roadBuildingEntity)
    (target : SpaceComponent F)
    (hsel : (cityLoop L 0 s.cities { r := s, hovered := false, hoveredId := -1 }).r.selectedEntity
      = some sel)
    (hT : hintTarget L (cityLoop L 0 s.cities { r := s, hovered := false, hoveredId := -1 }).r
      (cityLoop L 0 s.cities { r := s, hovered := false, hoveredId := -1 }).hoveredId
        = some target) :
    ∃ s', Update L s = some s'
      ∧ s'.selectedEntity = some sel
      ∧ s'.roadHint.SpaceComponent = hintSpace L (center L (L.spaceAABB target))
          (center L (L.spaceAABB (s.space sel.SpaceComponent)))
      ∧ s'.roadHint.RenderComponent.Color
          = (if (cityLoop L 0 s.cities { r := s, hovered := false, hoveredId := -1 }).hoveredId ≥ 0
              then colorRoadAvailable else colorRoadUnavailable) := by
  have hS := cityLoop_stable L s.cities 0 { r := s, hovered := false, hoveredId := -1 }
  obtain ⟨s1, hb, h1, h2, h3⟩ := hintBlock_spec L _ _ sel target hT
  rw [Update_of_selected_some L s sel hsel, hb]
  obtain ⟨k1, k2⟩ := cursorBlock_keeps s1
    (cityLoop L 0 s.cities { r := s, hovered := false, hoveredId := -1 }).hovered
  refine ⟨_, rfl, ?_, ?_, ?_⟩
  · rw [k1, h1]; exact hsel
  · rw [k2, h2, hS.space]
  · rw [k2, h3]

end StableLemmas

section Commit

variable {F : Type}

theorem actualRoad_quiet (L : Lib F) {s t : State F} (h : Quiet s t) (b : BasicEntity)
    (sel e : roadBuildingEntity) : actualRoad L t b sel e = actualRoad L s b sel e := by
  unfold actualRoad
  rw [h.basic, h.roadHint]

theorem renderAdd_mem_roadRegistrations (w : List System) (road : Road F)
    (h : System.RenderSystem ∈ w) :
    Event.renderAdd road.BasicEntity road.RenderComponent road.SpaceComponent
      ∈ roadRegistrations w road := by
  unfold roadRegistrations
  rw [List.mem_filterMap]
  exact ⟨System.RenderSystem, h, rfl⟩

theorem addRoad_mem_roadRegistrations (w : List System) (road : Road F)
    (h : System.CommuterSystem ∈ w) :
    Event.addRoad road.BasicEntity road.RoadComponent ∈ roadRegistrations w road := by
  unfold roadRegistrations
  rw [List.mem_filterMap]
  exact ⟨System.CommuterSystem, h, rfl⟩

/-- C6: with the candidate `sel` selected and exactly one registry entry `e`
clicked, of another identity, `Update` returns and has built exactly one road:
it has a fresh identity, `From` the selected candidate, `To` the clicked one,
type `RoadBasic`, no commuters, the default road colour and the placement the
hint had; it is registered with the render and commuter systems of the world
and appended to the road list of the selected candidate (no other road list
changes), the hint is removed from the world and reset, and the selection is
empty afterwards. -/
theorem Update_click_other (L : Lib F) (s : State F) (sel e : roadBuildingEntity)
    (pre post : List roadBuildingEntity)
    (hsel : s.selectedEntity = some sel)
    (hcities : s.cities = pre ++ e :: post)
    (hpre : ∀ c ∈ pre, (s.mouse c.MouseComponent).Clicked = false)
    (hpost : ∀ c ∈ post, (s.mouse c.MouseComponent).Clicked = false)
    (hc : (s.mouse e.MouseComponent).Clicked = true)
    (hid : (s.basic sel.BasicEntity).ID ≠ (s.basic e.BasicEntity).ID) :
    ∃ (s' : State F) (road : Road F) (cur : List (Event F)),
      Update L s = some s'
      ∧ s'.selectedEntity = none
      ∧ road.BasicEntity = { id := s.idInc + 1 }
      ∧ road.RoadComponent.From = s.basic sel.BasicEntity
      ∧ road.RoadComponent.To = s.basic e.BasicEntity
      ∧ road.RoadComponent.Typ = RoadType.RoadBasic
      ∧ road.RoadComponent.Commuters = []
      ∧ road.RenderComponent.Color = colorRoadDefault
      ∧ road.SpaceComponent = s.roadHint.SpaceComponent
      ∧ (s'.city sel.CityComponent).Roads = (s.city sel.CityComponent).Roads ++ [road]
      ∧ (∀ p, p ≠ sel.CityComponent → (s'.city p).Roads = (s.city p).Roads)
      ∧ s'.idInc = s.idInc + 1
      ∧ s'.events = s.events ++ roadRegistrations s.world road
          ++ [Event.removeEntity s.roadHint.BasicEntity] ++ cur
      ∧ (∀ ev ∈ cur, ∃ c, ev = Event.setCursor c)
      ∧ (System.RenderSystem ∈ s.world →
          Event.renderAdd road.BasicEntity road.RenderComponent road.SpaceComponent ∈ s'.events)
      ∧ (System.CommuterSystem ∈ s.world →
          Event.addRoad road.BasicEntity road.RoadComponent ∈ s'.events)
      ∧ s'.roadHint = Road.zero L := by
  obtain ⟨s1, Q1, Q2⟩ := cityLoop_single_click L s pre post e hpre hpost
  have hsel1 : s1.selectedEntity = some sel := by rw [Q1.selectedEntity, hsel]
  have hc1 : (s1.mouse e.MouseComponent).Clicked = true := by rw [Q1.mouse, hc]
  have hid1 : (s1.basic sel.BasicEntity).ID ≠ (s1.basic e.BasicEntity).ID := by
    rw [Q1.basic]; exact hid
  obtain ⟨k1, -, -, -, -, -, -, k8, k9, k10, k11, k12⟩ :=
    clickStep_commit L s1 sel e hsel1 hc1 hid1
  rw [← hcities] at Q2
  rw [actualRoad_quiet L Q1, Q1.idInc] at k10 k11
  rw [Q1.events, Q1.world, Q1.roadHint] at k10
  rw [Q1.roads] at k11
  rw [Q1.idInc] at k9
  have hfin : (cityLoop L 0 s.cities { r := s, hovered := false, hoveredId := -1 }).r.selectedEntity
      = none := by rw [Q2.selectedEntity, k1]
  obtain ⟨cur, h, hcb, hcur⟩ := cursorBlock_eq
    (cityLoop L 0 s.cities { r := s, hovered := false, hoveredId := -1 }).r
    (cityLoop L 0 s.cities { r := s, hovered := false, hoveredId := -1 }).hovered
  have hev : (cursorBlock (cityLoop L 0 s.cities { r := s, hovered := false, hoveredId := -1 }).r
      (cityLoop L 0 s.cities { r := s, hovered := false, hoveredId := -1 }).hovered).events
      = s.events ++ roadRegistrations s.world (actualRoad L s { id := s.idInc + 1 } sel e)
          ++ [Event.removeEntity s.roadHint.BasicEntity] ++ cur := by
    rw [hcb]; show _ ++ cur = _; rw [Q2.events, k10]
  refine ⟨_, actualRoad L s { id := s.idInc + 1 } sel e, cur, Update_of_selected_none L s hfin,
    ?_, rfl, rfl, rfl, rfl, rfl, rfl, rfl, ?_, ?_, ?_, hev, hcur, ?_, ?_, ?_⟩
  · rw [hcb]; exact hfin
  · rw [hcb]; show ((cityLoop L 0 s.cities _).r.city sel.CityComponent).Roads = _
    rw [Q2.roads, k11]
  · intro p hp
    rw [hcb]; show ((cityLoop L 0 s.cities _).r.city p).Roads = _
    rw [Q2.roads, k12 p hp, Q1.roads]
  · rw [hcb]; show (cityLoop L 0 s.cities _).r.idInc = _
    rw [Q2.idInc, k9]
  · intro hw
    rw [hev]
    simp only [List.mem_append]
    exact Or.inl (Or.inl (Or.inr (renderAdd_mem_roadRegistrations s.world _ hw)))
  · intro hw
    rw [hev]
    simp only [List.mem_append]
    exact Or.inl (Or.inl (Or.inr (addRoad_mem_roadRegistrations s.world _ hw)))
  · rw [hcb]; show (cityLoop L 0 s.cities _).r.roadHint = _
    rw [Q2.roadHint, k8]

end Commit

theorem center_box (x y : ℝ) :
    center ideal (ideal.spaceAABB (box x y)) = pt (x + 5) (y + 5) := by
  simp only [center, box, pt, ideal, Num32.lift2]
  norm_num
  constructor <;> ring

section Examples

theorem hintSpace_east :
    (hintSpace ideal (pt 100 0) (pt 0 0)).Width = Num32.val 100
    ∧ (hintSpace ideal (pt 100 0) (pt 0 0)).Rotation = Num32.val 0 := by
  have hs : Real.sqrt ((100 - 0) ^ 2 + (0 - 0) ^ 2) = 100 := by
    rw [show ((100 : ℝ) - 0) ^ 2 + (0 - 0) ^ 2 = 100 ^ 2 by norm_num]
    exact Real.sqrt_sq (by norm_num)
  constructor
  · rw [hintSpace_width_ideal, hs]
  · rw [hintSpace_rotation_ideal 100 0 0 0 (by norm_num), hs]
    norm_num

/-- The frame before the click in the example of C6: the candidate centred at
(0, 0) is selected, the one centred at (100, 0) is hovered, and the hint gets
the placement of length 100 and rotation 0. -/
theorem hint_after_hover_frame :
    ∃ s1, Update ideal
        (demo [cand 0, cand 1] (some (cand 0)) (Road.zero ideal) (flags [] [1]) 100 0) = some s1
      ∧ s1.selectedEntity = some (cand 0)
      ∧ s1.roadHint.SpaceComponent = (hintAt 100 0).SpaceComponent
      ∧ s1.roadHint.SpaceComponent.Width = Num32.val 100
      ∧ s1.roadHint.SpaceComponent.Rotation = Num32.val 0 := by
  obtain ⟨s1, h1, h2, h3, -⟩ := Update_hint ideal
    (demo [cand 0, cand 1] (some (cand 0)) (Road.zero ideal) (flags [] [1]) 100 0)
    (cand 0) (box 95 (-5)) rfl rfl
  have e : s1.roadHint.SpaceComponent = hintSpace ideal (pt 100 0) (pt 0 0) := by
    rw [h3, center_box]
    have : (demo [cand 0, cand 1] (some (cand 0)) (Road.zero ideal) (flags [] [1]) 100 0).space
        (cand 0).SpaceComponent = box (-5) (-5) := rfl
    rw [this, center_box]
    norm_num
  refine ⟨s1, h1, h2, e, ?_, ?_⟩
  · rw [e]; exact hintSpace_east.1
  · rw [e]; exact hintSpace_east.2

theorem Update_click_other_witness :
    (demo [cand 0, cand 1] (some (cand 0)) (hintAt 100 0) (flags [1] [1]) 100 0).selectedEntity
      = some (cand 0)
    ∧ ∃ (s' : State Num32) (road : Road Num32),
      Update ideal (demo [cand 0, cand 1] (some (cand 0)) (hintAt 100 0) (flags [1] [1]) 100 0)
        = some s'
      ∧ s'.selectedEntity = none
      ∧ road.RoadComponent.From = { id := 1 }
      ∧ road.RoadComponent.To = { id := 2 }
      ∧ road.RoadComponent.Typ = RoadType.RoadBasic
      ∧ road.SpaceComponent.Width = Num32.val 100
      ∧ road.SpaceComponent.Rotation = Num32.val 0
      ∧ (s'.city 0).Roads = [road] := by
  refine ⟨rfl, ?_⟩
  obtain ⟨s', road, cur, h1, h2, -, h4, h5, h6, -, -, h9, h10, -⟩ :=
    Update_click_other ideal
      (demo [cand 0, cand 1] (some (cand 0)) (hintAt 100 0) (flags [1] [1]) 100 0)
      (cand 0) (cand 1) [cand 0] [] rfl rfl (by decide) (by simp) rfl (by decide)
  refine ⟨s', road, h1, h2, h4, h5, h6, ?_, ?_, h10⟩
  · rw [h9]; exact hintSpace_east.1
  · rw [h9]; exact hintSpace_east.2

end Examples

section Deselect

variable {F : Type}

/-- C7: with the candidate `sel` selected and exactly one registry entry `e`
clicked, of the identity of `sel`, `Update` returns with an empty selection; no
road list changes, no identity is allocated, the only outgoing calls of the
frame are cursor calls, and the registry is the same list. -/
theorem Update_click_selected (L : Lib F) (s : State F) (sel e : roadBuildingEntity)
    (pre post : List roadBuildingEntity)
    (hsel : s.selectedEntity = some sel)
    (hcities : s.cities = pre ++ e :: post)
    (hpre : ∀ c ∈ pre, (s.mouse c.MouseComponent).Clicked = false)
    (hpost : ∀ c ∈ post, (s.mouse c.MouseComponent).Clicked = false)
    (hc : (s.mouse e.MouseComponent).Clicked = true)
    (hid : (s.basic sel.BasicEntity).ID = (s.basic e.BasicEntity).ID) :
    ∃ (s' : State F) (cur : List (Event F)),
      Update L s = some s'
      ∧ s'.selectedEntity = none
      ∧ (s'.city sel.CityComponent).Roads = (s.city sel.CityComponent).Roads
      ∧ (∀ p, (s'.city p).Roads = (s.city p).Roads)
      ∧ s'.idInc = s.idInc
      ∧ s'.events = s.events ++ cur
      ∧ (∀ ev ∈ cur, ∃ c, ev = Event.setCursor c)
      ∧ s'.cities = s.cities := by
  obtain ⟨s', cur, h1, h2, h3, -, h5, h6, h7, h8⟩ :=
    Update_click_self L s sel e pre post hsel hcities hpre hpost hc hid
  exact ⟨s', cur, h1, h2, h6 _, h6, h5, h7, h8, h3⟩

theorem Update_click_selected_witness :
    (demo [cand 0, cand 1] (some (cand 0)) (hintAt 3 4) (flags [0] [0]) 3 4).selectedEntity
      = some (cand 0)
    ∧ ((demo [cand 0, cand 1] (some (cand 0)) (hintAt 3 4) (flags [0] [0]) 3 4).mouse
        (cand 0).MouseComponent).Clicked = true
    ∧ ∃ (s' : State Num32) (cur : List (Event Num32)),
      Update ideal (demo [cand 0, cand 1] (some (cand 0)) (hintAt 3 4) (flags [0] [0]) 3 4)
        = some s'
      ∧ s'.selectedEntity = none
      ∧ (s'.city (cand 0).CityComponent).Roads = []
      ∧ (∀ p, (s'.city p).Roads = [])
      ∧ s'.idInc = 5
      ∧ s'.events = [] ++ cur
      ∧ (∀ ev ∈ cur, ∃ c, ev = Event.setCursor c)
      ∧ s'.cities = [cand 0, cand 1] :=
  ⟨rfl, rfl, Update_click_selected ideal
    (demo [cand 0, cand 1] (some (cand 0)) (hintAt 3 4) (flags [0] [0]) 3 4)
    (cand 0) (cand 0) [] [cand 1] rfl rfl (by simp) (by decide) rfl rfl⟩

/-- C8: the candidate at (0, 0) is selected, the hint exists with identity 5, and
the selected candidate is clicked again. `Update` ends with an empty selection,
yet the hint keeps its identity 5 (it is not back in the sentinel state) and
the frame makes no `World.RemoveEntity` call. -/
theorem deselect_keeps_hint :
    ∃ s', Update ideal (demo [cand 0, cand 1] (some (cand 0)) (hintAt 3 4) (flags [0] [0]) 3 4)
        = some s'
      ∧ s'.selectedEntity = none
      ∧ s'.roadHint.BasicEntity.ID = 5
      ∧ s'.roadHint.BasicEntity.ID ≠ 0
      ∧ ∀ b, Event.removeEntity b ∉ s'.events := by
  obtain ⟨s', cur, h1, h2, -, h4, -, -, h7, h8⟩ :=
    Update_click_self ideal
      (demo [cand 0, cand 1] (some (cand 0)) (hintAt 3 4) (flags [0] [0]) 3 4)
      (cand 0) (cand 0) [] [cand 1] rfl rfl (by simp) (by decide) rfl rfl
  refine ⟨s', h1, h2, ?_, ?_, ?_⟩
  · rw [h4]; rfl
  · rw [h4]; decide
  · intro b hb
    rw [h7] at hb
    simp only [demo, List.nil_append] at hb
    obtain ⟨c, hc⟩ := h8 _ hb
    cases hc

end Deselect

section Placement

theorem hintSpace_height_position (ax ay bx by_ : ℝ) :
    (hintSpace ideal (pt ax ay) (pt bx by_)).Height = Num32.val 10
    ∧ (hintSpace ideal (pt ax ay) (pt bx by_)).Position = pt (bx - 5) (by_ - 5) := by
  simp only [hintSpace, pt]
  norm_num

/-- C2: in a frame that leaves the loop with `sel` selected and a target for the
hint, with `A` the centre of the target (the far endpoint) and `B` the centre of
the selected candidate, `Update` returns and the placement of the hint has the
width `Sqrt(Pow(A.x-B.x, 2) + Pow(A.y-B.y, 2))`, the height 10 and the position
`(B.x - 5, B.y - 5)`. The operations are those of the program, whatever the
arithmetic `L` is, so the statement holds of `float32` with its rounding and its
range; `h5` says that `10 / 2` is `5` in that arithmetic. -/
theorem Update_hint_placement {F : Type} (L : Lib F) (s : State F) (sel : roadBuildingEntity)
    (target : SpaceComponent F)
    (hsel : (cityLoop L 0 s.cities
      { r := s, hovered := false, hoveredId := -1 }).r.selectedEntity = some sel)
    (hT : hintTarget L (cityLoop L 0 s.cities { r := s, hovered := false, hoveredId := -1 }).r
      (cityLoop L 0 s.cities { r := s, hovered := false, hoveredId := -1 }).hoveredId
        = some target)
    (h5 : L.div (L.lit 10) (L.lit 2) = L.lit 5) :
    ∃ s', Update L s = some s'
      ∧ s'.selectedEntity = some sel
      ∧ s'.roadHint.SpaceComponent.Width
          = L.Sqrt (L.add
              (L.Pow (L.sub (center L (L.spaceAABB target)).X
                (center L (L.spaceAABB (s.space sel.SpaceComponent))).X) (L.lit 2))
              (L.Pow (L.sub (center L (L.spaceAABB target)).Y
                (center L (L.spaceAABB (s.space sel.SpaceComponent))).Y) (L.lit 2)))
      ∧ s'.roadHint.SpaceComponent.Height = L.lit 10
      ∧ s'.roadHint.SpaceComponent.Position
          = { X := L.sub (center L (L.spaceAABB (s.space sel.SpaceComponent))).X (L.lit 5)
              Y := L.sub (center L (L.spaceAABB (s.space sel.SpaceComponent))).Y (L.lit 5) } := by
  obtain ⟨s', h1, h2, h3, -⟩ := Update_hint L s sel target hsel hT
  refine ⟨s', h1, h2, ?_, ?_, ?_⟩
  · rw [h3]; rfl
  · rw [h3]; rfl
  · rw [h3]
    show ({ X := L.sub _ (L.div (L.lit 10) (L.lit 2)),
            Y := L.sub _ (L.div (L.lit 10) (L.lit 2)) } : Point F) = _
    rw [h5]

theorem center_pointer (x y : ℝ) :
    center ideal (ideal.spaceAABB
      { SpaceComponent.zero ideal with Position := { X := Num32.val x, Y := Num32.val y } })
      = pt x y := by
  simp only [center, pt, ideal, Num32.lift2, SpaceComponent.zero]
  norm_num

theorem Update_hint_placement_witness :
    ∃ s', Update ideal
        (demo [cand 0, cand 1] (some (cand 0)) (Road.zero ideal) (flags [] []) 3 4) = some s'
      ∧ s'.selectedEntity = some (cand 0)
      ∧ s'.roadHint.SpaceComponent.Width = Num32.val 5
      ∧ s'.roadHint.SpaceComponent.Height = Num32.val 10
      ∧ s'.roadHint.SpaceComponent.Position = pt (-5) (-5) := by
  obtain ⟨s', h1, h2, h3, h4, h5⟩ := Update_hint_placement ideal
    (demo [cand 0, cand 1] (some (cand 0)) (Road.zero ideal) (flags [] []) 3 4)
    (cand 0)
    { SpaceComponent.zero ideal with Position := { X := Num32.val 3, Y := Num32.val 4 } }
    rfl rfl (by simp only [ideal]; norm_num)
  have hB : center ideal (ideal.spaceAABB
      ((demo [cand 0, cand 1] (some (cand 0)) (Road.zero ideal) (flags [] []) 3 4).space
        (cand 0).SpaceComponent)) = pt (-5 + 5) (-5 + 5) := center_box (-5) (-5)
  rw [center_pointer 3 4, hB] at h3
  rw [hB] at h5
  refine ⟨s', h1, h2, ?_, h4, ?_⟩
  · rw [h3]
    have hw := roadLength_ideal 3 4 (-5 + 5) (-5 + 5)
    unfold roadLength at hw
    rw [hw]
    congr 1
    rw [show ((3 : ℝ) - (-5 + 5)) ^ 2 + (4 - (-5 + 5)) ^ 2 = 5 ^ 2 by norm_num]
    exact Real.sqrt_sq (by norm_num)
  · rw [h5]
    simp only [pt, ideal, Num32.lift2]
    norm_num

/-- C1: the candidate centred at `B = (0, 0)` is selected and the candidate
centred at `A = (0, 100)` is hovered, two distinct points. `Update` writes a
hint of length 100 whose rotation is `NaN`: no direction leads from `B` to
`A`. -/
theorem Update_vertical_rotation_NaN :
    ∃ s', Update ideal
        (demo [cand 0, cand 1, cand 2] (some (cand 0)) (hintAt 100 0) (flags [] [2]) 0 0)
          = some s'
      ∧ s'.roadHint.SpaceComponent
          = hintSpace ideal (pt 0 100) (pt 0 0)
      ∧ s'.roadHint.SpaceComponent.Width = Num32.val 100
      ∧ rotationDivisor ideal (pt 0 100) (pt 0 0) = Num32.val 0
      ∧ s'.roadHint.SpaceComponent.Rotation = Num32.NaN := by
  obtain ⟨s', h1, -, h3, -⟩ := Update_hint ideal
    (demo [cand 0, cand 1, cand 2] (some (cand 0)) (hintAt 100 0) (flags [] [2]) 0 0)
    (cand 0) (box (-5) 95) rfl rfl
  have e : s'.roadHint.SpaceComponent = hintSpace ideal (pt 0 100) (pt 0 0) := by
    rw [h3, center_box]
    have : (demo [cand 0, cand 1, cand 2] (some (cand 0)) (hintAt 100 0) (flags [] [2]) 0 0).space
        (cand 0).SpaceComponent = box (-5) (-5) := rfl
    rw [this, center_box]
    norm_num
  have hs : Real.sqrt (((0 : ℝ) - 0) ^ 2 + (100 - 0) ^ 2) = 100 := by
    rw [show ((0 : ℝ) - 0) ^ 2 + (100 - 0) ^ 2 = 100 ^ 2 by norm_num]
    exact Real.sqrt_sq (by norm_num)
  refine ⟨s', h1, e, ?_, ?_, ?_⟩
  · rw [e, hintSpace_width_ideal, hs]
  · rw [rotationDivisor_ideal]; norm_num
  · rw [e]; exact hintSpace_rotation_ideal_vertical 0 100 0

/-- C4: for the distinct points `A = (0, 100)` and `B = (0, 0)` the geometry of
`(A, B)` and of `(B, A)` has the same length 100, and both rotations are `NaN`:
they are not two directions 180 degrees apart. -/
theorem hintSpace_swap_vertical_NaN :
    (hintSpace ideal (pt 0 100) (pt 0 0)).Width = Num32.val 100
    ∧ (hintSpace ideal (pt 0 0) (pt 0 100)).Width = Num32.val 100
    ∧ (hintSpace ideal (pt 0 100) (pt 0 0)).Rotation = Num32.NaN
    ∧ (hintSpace ideal (pt 0 0) (pt 0 100)).Rotation = Num32.NaN
    ∧ ¬ ∃ r1 r2 : ℝ, ∃ k : ℤ,
        (hintSpace ideal (pt 0 100) (pt 0 0)).Rotation = Num32.val r1
        ∧ (hintSpace ideal (pt 0 0) (pt 0 100)).Rotation = Num32.val r2
        ∧ r1 - r2 = 180 + 360 * k := by
  have hs1 : Real.sqrt (((0 : ℝ) - 0) ^ 2 + (100 - 0) ^ 2) = 100 := by
    rw [show ((0 : ℝ) - 0) ^ 2 + (100 - 0) ^ 2 = 100 ^ 2 by norm_num]
    exact Real.sqrt_sq (by norm_num)
  have hs2 : Real.sqrt (((0 : ℝ) - 0) ^ 2 + (0 - 100) ^ 2) = 100 := by
    rw [show ((0 : ℝ) - 0) ^ 2 + (0 - 100) ^ 2 = 100 ^ 2 by norm_num]
    exact Real.sqrt_sq (by norm_num)
  refine ⟨?_, ?_, hintSpace_rotation_ideal_vertical 0 100 0,
    hintSpace_rotation_ideal_vertical 0 0 100, ?_⟩
  · rw [hintSpace_width_ideal, hs1]
  · rw [hintSpace_width_ideal, hs2]
  · rintro ⟨r1, r2, k, h1, -, -⟩
    rw [hintSpace_rotation_ideal_vertical 0 100 0] at h1
    cases h1

end Placement

section Lifecycle

/-- C9: from the initial state, the first frame clicks the candidate of
identity 1, which selects it and creates and registers the hint (identity 5);
the second frame clicks it again, which ends the selection episode. The hint
keeps its identity and the whole trace of outgoing calls is the `MouseSystem.Add`
of `New` and the one `RenderSystem.Add` of the hint: the episode ends without a
`World.RemoveEntity`. A third frame that selects the other candidate goes on
with the same hint and adds no call. -/
theorem deselect_trace_has_no_removeEntity :
    ∃ s1 s2 s3,
      frames ideal started [input [0] [] 3 4] = some s1
      ∧ s1.selectedEntity = some (cand 0)
      ∧ s1.roadHint.BasicEntity.ID = 5
      ∧ s1.events.map Event.call = [(Call.mouseAdd, 4), (Call.renderAdd, 5)]
      ∧ frames ideal started [input [0] [] 3 4, input [0] [] 3 4] = some s2
      ∧ s2.selectedEntity = none
      ∧ s2.roadHint.BasicEntity.ID = 5
      ∧ s2.events.map Event.call = [(Call.mouseAdd, 4), (Call.renderAdd, 5)]
      ∧ (∀ b, Event.removeEntity b ∉ s2.events)
      ∧ frames ideal started [input [0] [] 3 4, input [0] [] 3 4, input [1] [] 100 0] = some s3
      ∧ s3.selectedEntity = some (cand 1)
      ∧ s3.roadHint.BasicEntity.ID = 5
      ∧ s3.events.map Event.call = [(Call.mouseAdd, 4), (Call.renderAdd, 5)] := by
  have a0 : (frames ideal started [input [0] [] 3 4]).isSome = true := rfl
  have a1 : (frames ideal started [input [0] [] 3 4]).map (fun s => s.selectedEntity)
      = some (some (cand 0)) := rfl
  have a2 : (frames ideal started [input [0] [] 3 4]).map (fun s => s.roadHint.BasicEntity.ID)
      = some 5 := rfl
  have a3 : (frames ideal started [input [0] [] 3 4]).map (fun s => s.events.map Event.call)
      = some [(Call.mouseAdd, 4), (Call.renderAdd, 5)] := rfl
  have b0 : (frames ideal started [input [0] [] 3 4, input [0] [] 3 4]).isSome = true := rfl
  have b1 : (frames ideal started [input [0] [] 3 4, input [0] [] 3 4]).map
      (fun s => s.selectedEntity) = some none := rfl
  have b2 : (frames ideal started [input [0] [] 3 4, input [0] [] 3 4]).map
      (fun s => s.roadHint.BasicEntity.ID) = some 5 := rfl
  have b3 : (frames ideal started [input [0] [] 3 4, input [0] [] 3 4]).map
      (fun s => s.events.map Event.call)
        = some [(Call.mouseAdd, 4), (Call.renderAdd, 5)] := rfl
  have c0 : (frames ideal started
      [input [0] [] 3 4, input [0] [] 3 4, input [1] [] 100 0]).isSome = true := rfl
  have c1 : (frames ideal started
      [input [0] [] 3 4, input [0] [] 3 4, input [1] [] 100 0]).map
        (fun s => s.selectedEntity) = some (some (cand 1)) := rfl
  have c2 : (frames ideal started
      [input [0] [] 3 4, input [0] [] 3 4, input [1] [] 100 0]).map
        (fun s => s.roadHint.BasicEntity.ID) = some 5 := rfl
  have c3 : (frames ideal started
      [input [0] [] 3 4, input [0] [] 3 4, input [1] [] 100 0]).map
        (fun s => s.events.map Event.call)
          = some [(Call.mouseAdd, 4), (Call.renderAdd, 5)] := rfl
  obtain ⟨s1, h1⟩ := Option.isSome_iff_exists.mp a0
  obtain ⟨s2, h2⟩ := Option.isSome_iff_exists.mp b0
  obtain ⟨s3, h3⟩ := Option.isSome_iff_exists.mp c0
  rw [h1] at a1 a2 a3
  rw [h2] at b1 b2 b3
  rw [h3] at c1 c2 c3
  simp only [Option.map_some', Option.some.injEq] at a1 a2 a3 b1 b2 b3 c1 c2 c3
  refine ⟨s1, s2, s3, h1, a1, a2, a3, h2, b1, b2, b3, ?_, h3, c1, c2, c3⟩
  intro b hb
  have : Event.call (Event.removeEntity b : Event Num32) ∈ s2.events.map Event.call :=
    List.mem_map_of_mem _ hb
  rw [b3] at this
  simp [Event.call] at this

end Lifecycle

section TieBreak

variable {F : Type}

theorem cityLoop_no_hit_visit (L : Lib F) (l : List roadBuildingEntity) :
    ∀ (index : Nat) (st : LoopState F),
      (∀ k c, l.get? k = some c →
        hoverHit (clickStep L (cityLoop L index (l.take k) st).r c) c = false) →
      (cityLoop L index l st).hoveredId = st.hoveredId
      ∧ (cityLoop L index l st).hovered = st.hovered := by
  induction l with
  | nil => intro index st _; exact ⟨rfl, rfl⟩
  | cons c rest ih =>
    intro index st h
    obtain ⟨m1, m2⟩ := hoverStep_miss { st with r := clickStep L st.r c } index c (h 0 c rfl)
    obtain ⟨i1, i2⟩ := ih (index + 1) (visit L st index c)
      (fun k c' hk => h (k + 1) c' (by simpa using hk))
    show (cityLoop L (index + 1) rest (visit L st index c)).hoveredId = _
      ∧ (cityLoop L (index + 1) rest (visit L st index c)).hovered = _
    rw [i1, i2]
    exact ⟨m1, m2⟩

theorem cityLoop_last_hit_visit (L : Lib F) (l : List roadBuildingEntity) :
    ∀ (index : Nat) (st : LoopState F) (k : Nat) (e : roadBuildingEntity),
      l.get? k = some e →
      hoverHit (clickStep L (cityLoop L index (l.take k) st).r e) e = true →
      (∀ j c, k < j → l.get? j = some c →
        hoverHit (clickStep L (cityLoop L index (l.take j) st).r c) c = false) →
      (cityLoop L index l st).hoveredId = ((index + k : Nat) : Int)
      ∧ (cityLoop L index l st).hovered = true := by
  induction l with
  | nil => intro index st k e hk; simp at hk
  | cons c rest ih =>
    intro index st k e hk he hlast
    show (cityLoop L (index + 1) rest (visit L st index c)).hoveredId = _
      ∧ (cityLoop L (index + 1) rest (visit L st index c)).hovered = true
    cases k with
    | zero =>
      simp only [List.get?_cons_zero, Option.some.injEq] at hk
      subst hk
      obtain ⟨m1, m2⟩ := hoverStep_hit { st with r := clickStep L st.r c } index c he
      obtain ⟨i1, i2⟩ := cityLoop_no_hit_visit L rest (index + 1) (visit L st index c)
        (fun j c' hj => hlast (j + 1) c' (Nat.succ_pos j) (by simpa using hj))
      rw [i1, i2]
      exact ⟨m1, m2⟩
    | succ k =>
      simp only [List.get?_cons_succ] at hk
      obtain ⟨i1, i2⟩ := ih (index + 1) (visit L st index c) k e hk he
        (fun j c' hj hjc => hlast (j + 1) c' (Nat.succ_lt_succ hj) (by simpa using hjc))
      rw [i1, i2]
      refine ⟨?_, rfl⟩
      congr 1
      omega

/-- C10, as the code has it: the index remembered as the hovered one is that of
the last registry entry that took the hover branch when the loop visited it
(it reported hovered and was not the selected candidate at that moment). When
the frame leaves the loop with `sel` selected and the registry as it was, this
entry is the far endpoint of the hint. -/
theorem hover_last_wins (L : Lib F) (s : State F) (i : Nat) (e : roadBuildingEntity)
    (hi : s.cities.get? i = some e)
    (hit : hoverHit (atVisit L s i e) e = true)
    (hlast : ∀ j c, i < j → s.cities.get? j = some c → hoverHit (atVisit L s j c) c = false) :
    (cityLoop L 0 s.cities { r := s, hovered := false, hoveredId := -1 }).hoveredId = (i : Int)
    ∧ ∀ sel,
        (cityLoop L 0 s.cities { r := s, hovered := false, hoveredId := -1 }).r.selectedEntity
          = some sel →
        (cityLoop L 0 s.cities { r := s, hovered := false, hoveredId := -1 }).r.cities = s.cities →
        ∃ s', Update L s = some s'
          ∧ s'.roadHint.SpaceComponent
            = hintSpace L (center L (L.spaceAABB (s.space e.SpaceComponent)))
                (center L (L.spaceAABB (s.space sel.SpaceComponent))) := by
  obtain ⟨h1, -⟩ := cityLoop_last_hit_visit L s.cities 0
    { r := s, hovered := false, hoveredId := -1 } i e hi hit hlast
  have h1' : (cityLoop L 0 s.cities { r := s, hovered := false, hoveredId := -1 }).hoveredId
      = (i : Int) := by rw [h1, Nat.zero_add]
  refine ⟨h1', ?_⟩
  intro sel hsel hcs
  have hS := cityLoop_stable L s.cities 0 { r := s, hovered := false, hoveredId := -1 }
  have hT : hintTarget L (cityLoop L 0 s.cities { r := s, hovered := false, hoveredId := -1 }).r
      (cityLoop L 0 s.cities { r := s, hovered := false, hoveredId := -1 }).hoveredId
        = some (s.space e.SpaceComponent) := by
    rw [h1', hintTarget_hovered L _ i e (by rw [hcs]; exact hi), hS.space]
  obtain ⟨s', u1, -, u3, -⟩ := Update_hint L s sel _ hsel hT
  exact ⟨s', u1, u3⟩

theorem hover_last_wins_witness :
    (demo [cand 0, cand 1, cand 2] (some (cand 0)) (hintAt 100 0) (flags [] [1, 2]) 0 0).cities.get? 2
      = some (cand 2)
    ∧ hoverHit (atVisit ideal
        (demo [cand 0, cand 1, cand 2] (some (cand 0)) (hintAt 100 0) (flags [] [1, 2]) 0 0)
        2 (cand 2)) (cand 2) = true
    ∧ (cityLoop ideal 0
        (demo [cand 0, cand 1, cand 2] (some (cand 0)) (hintAt 100 0) (flags [] [1, 2]) 0 0).cities
        { r := demo [cand 0, cand 1, cand 2] (some (cand 0)) (hintAt 100 0) (flags [] [1, 2]) 0 0,
          hovered := false, hoveredId := -1 }).hoveredId = ((2 : Nat) : Int) :=
  ⟨rfl, rfl, (hover_last_wins ideal
    (demo [cand 0, cand 1, cand 2] (some (cand 0)) (hintAt 100 0) (flags [] [1, 2]) 0 0)
    2 (cand 2) rfl rfl (fun j c hj hjc => by
      have : (demo [cand 0, cand 1, cand 2] (some (cand 0)) (hintAt 100 0)
          (flags [] [1, 2]) 0 0).cities = [cand 0, cand 1, cand 2] := rfl
      rw [this] at hjc
      obtain _ | _ | _ | j := j
      · omega
      · omega
      · omega
      · simp at hjc)).1⟩

/-- C10, as the claim has it, fails: the candidate of identity 1 is selected, the
candidates at the indices 1 and 2 both report hovered, and the remembered index
is 2, not the first hovered index 1; the hint ends at the centre (0, 100) of the
candidate at index 2. -/
theorem hover_first_not_remembered :
    (cityLoop ideal 0
        (demo [cand 0, cand 1, cand 2] (some (cand 0)) (hintAt 100 0) (flags [] [1, 2]) 0 0).cities
        { r := demo [cand 0, cand 1, cand 2] (some (cand 0)) (hintAt 100 0) (flags [] [1, 2]) 0 0,
          hovered := false, hoveredId := -1 }).hoveredId = 2
    ∧ (∃ s1, Update ideal
          (demo [cand 0, cand 1, cand 2] (some (cand 0)) (hintAt 100 0) (flags [] [1, 2]) 0 0)
            = some s1
        ∧ s1.roadHint.SpaceComponent = hintSpace ideal (pt 0 100) (pt 0 0))
    ∧ ¬ (∀ (i : Nat) (e : roadBuildingEntity),
        (demo [cand 0, cand 1, cand 2] (some (cand 0)) (hintAt 100 0)
          (flags [] [1, 2]) 0 0).cities.get? i = some e →
        hoverHit (atVisit ideal
          (demo [cand 0, cand 1, cand 2] (some (cand 0)) (hintAt 100 0) (flags [] [1, 2]) 0 0)
          i e) e = true →
        (∀ j c, j < i →
          (demo [cand 0, cand 1, cand 2] (some (cand 0)) (hintAt 100 0)
            (flags [] [1, 2]) 0 0).cities.get? j = some c →
          hoverHit (atVisit ideal
            (demo [cand 0, cand 1, cand 2] (some (cand 0)) (hintAt 100 0) (flags [] [1, 2]) 0 0)
            j c) c = false) →
        (cityLoop ideal 0
          (demo [cand 0, cand 1, cand 2] (some (cand 0)) (hintAt 100 0)
            (flags [] [1, 2]) 0 0).cities
          { r := demo [cand 0, cand 1, cand 2] (some (cand 0)) (hintAt 100 0)
              (flags [] [1, 2]) 0 0,
            hovered := false, hoveredId := -1 }).hoveredId = (i : Int)) := by
  refine ⟨rfl, ?_, ?_⟩
  · obtain ⟨s1, u1, -, u3, -⟩ := Update_hint ideal
      (demo [cand 0, cand 1, cand 2] (some (cand 0)) (hintAt 100 0) (flags [] [1, 2]) 0 0)
      (cand 0) (box (-5) 95) rfl rfl
    refine ⟨s1, u1, ?_⟩
    rw [u3, center_box]
    have : (demo [cand 0, cand 1, cand 2] (some (cand 0)) (hintAt 100 0)
        (flags [] [1, 2]) 0 0).space (cand 0).SpaceComponent = box (-5) (-5) := rfl
    rw [this, center_box]
    norm_num
  intro h
  have h1 := h 1 (cand 1) rfl rfl (fun j c hj hjc => by
    obtain rfl : j = 0 := by omega
    have : c = cand 0 := by
      have e : (demo [cand 0, cand 1, cand 2] (some (cand 0)) (hintAt 100 0)
          (flags [] [1, 2]) 0 0).cities.get? 0 = some (cand 0) := rfl
      rw [e] at hjc
      exact (Option.some.inj hjc).symm
    subst this
    rfl)
  have h2 : (cityLoop ideal 0
      (demo [cand 0, cand 1, cand 2] (some (cand 0)) (hintAt 100 0) (flags [] [1, 2]) 0 0).cities
      { r := demo [cand 0, cand 1, cand 2] (some (cand 0)) (hintAt 100 0) (flags [] [1, 2]) 0 0,
        hovered := false, hoveredId := -1 }).hoveredId = 2 := rfl
  rw [h2] at h1
  exact absurd h1 (by decide)

end TieBreak

section Registration

variable {F : Type}

/-- The calls of the part of a frame that follows the loop: registrations of the
hint, then cursor calls. The hint is registered only when the loop left a
selection and the hint in its sentinel state, and it leaves that state at
once. -/
theorem Update_hint_registered_from_sentinel (L : Lib F) (s s' : State F)
    (h : Update L s = some s') :
    ∃ regs cur : List (Event F),
      s'.events
        = (cityLoop L 0 s.cities { r := s, hovered := false, hoveredId := -1 }).r.events
          ++ regs ++ cur
      ∧ (∀ ev ∈ cur, ∃ c, ev = Event.setCursor c)
      ∧ (∀ ev ∈ regs, ev = Event.renderAdd s'.roadHint.BasicEntity s'.roadHint.RenderComponent
          s'.roadHint.SpaceComponent)
      ∧ (regs ≠ [] →
          (cityLoop L 0 s.cities
            { r := s, hovered := false, hoveredId := -1 }).r.roadHint.BasicEntity.ID = 0
          ∧ (cityLoop L 0 s.cities
            { r := s, hovered := false, hoveredId := -1 }).r.selectedEntity ≠ none
          ∧ s'.roadHint.BasicEntity.ID ≠ 0) := by
  cases hsel : (cityLoop L 0 s.cities
      { r := s, hovered := false, hoveredId := -1 }).r.selectedEntity with
  | none =>
    rw [Update_of_selected_none L s hsel] at h
    obtain ⟨cur, hv, hcb, hcur⟩ := cursorBlock_eq
      (cityLoop L 0 s.cities { r := s, hovered := false, hoveredId := -1 }).r
      (cityLoop L 0 s.cities { r := s, hovered := false, hoveredId := -1 }).hovered
    rw [hcb] at h
    cases h
    exact ⟨[], cur, by simp, hcur, by simp, by simp⟩
  | some sel =>
    rw [Update_of_selected_some L s sel hsel] at h
    cases hT : hintTarget L (cityLoop L 0 s.cities
        { r := s, hovered := false, hoveredId := -1 }).r
      (cityLoop L 0 s.cities { r := s, hovered := false, hoveredId := -1 }).hoveredId with
    | none =>
      unfold hintBlock at h
      rw [hT] at h
      cases h
    | some target =>
      by_cases h0 : (cityLoop L 0 s.cities
          { r := s, hovered := false, hoveredId := -1 }).r.roadHint.BasicEntity.ID = 0
      · obtain ⟨hint, hid, -, -, hb⟩ := hintBlock_new L _ _ sel target hT h0
        rw [hb] at h
        obtain ⟨cur, hv, hcb, hcur⟩ := cursorBlock_eq
          ({ (cityLoop L 0 s.cities { r := s, hovered := false, hoveredId := -1 }).r with
              idInc := (cityLoop L 0 s.cities
                { r := s, hovered := false, hoveredId := -1 }).r.idInc + 1
              roadHint := hint
              events := (cityLoop L 0 s.cities
                  { r := s, hovered := false, hoveredId := -1 }).r.events
                ++ ((cityLoop L 0 s.cities
                  { r := s, hovered := false, hoveredId := -1 }).r.world.filter
                    (fun sys => sys = System.RenderSystem)).map
                    (fun _ => Event.renderAdd hint.BasicEntity hint.RenderComponent
                      hint.SpaceComponent) } : State F)
          (cityLoop L 0 s.cities { r := s, hovered := false, hoveredId := -1 }).hovered
        simp only [Option.map_some'] at h
        rw [hcb] at h
        cases h
        refine ⟨_, cur, rfl, hcur, ?_, ?_⟩
        · intro ev hev
          simp only [List.mem_map] at hev
          obtain ⟨_, -, rfl⟩ := hev
          rfl
        · intro _
          refine ⟨h0, by simp, ?_⟩
          show hint.BasicEntity.ID ≠ 0
          rw [hid]
          exact Nat.succ_ne_zero _
      · rw [hintBlock_old L _ _ sel target hT h0] at h
        obtain ⟨cur, hv, hcb, hcur⟩ := cursorBlock_eq
          ({ (cityLoop L 0 s.cities { r := s, hovered := false, hoveredId := -1 }).r with
              roadHint :=
                { (cityLoop L 0 s.cities
                    { r := s, hovered := false, hoveredId := -1 }).r.roadHint with
                  RenderComponent :=
                    { (cityLoop L 0 s.cities
                        { r := s, hovered := false, hoveredId := -1 }).r.roadHint.RenderComponent with
                      Color := if (cityLoop L 0 s.cities
                          { r := s, hovered := false, hoveredId := -1 }).hoveredId ≥ 0
                        then colorRoadAvailable else colorRoadUnavailable }
                  SpaceComponent := hintSpace L (center L (L.spaceAABB target))
                    (center L (L.spaceAABB ((cityLoop L 0 s.cities
                      { r := s, hovered := false, hoveredId := -1 }).r.space
                        sel.SpaceComponent))) } } : State F)
          (cityLoop L 0 s.cities { r := s, hovered := false, hoveredId := -1 }).hovered
        simp only [Option.map_some'] at h
        rw [hcb] at h
        cases h
        exact ⟨[], cur, by simp, hcur, by simp, by simp⟩

end Registration

section Divisor

/-- In exact arithmetic the divisor `2 * length * dx` of the arc cosine argument
is zero exactly when `A.x = B.x`, which happens for distinct vertically aligned
centres as well as for coincident ones; when `A.x ≠ B.x` it is non-zero, the
argument is `dx / length`, it lies in `[-1, 1]` and the arc cosine has a finite
value. This is a statement about `ideal` only: in `float32` the square of a
very small `dx` underflows to 0 and the divisor vanishes although `A.x ≠ B.x`. -/
theorem rotationDivisor_zero_iff (ax ay bx by_ : ℝ) :
    rotationDivisor ideal (pt ax ay) (pt bx by_)
      = Num32.val (2 * Real.sqrt ((ax - bx) ^ 2 + (ay - by_) ^ 2) * (ax - bx))
    ∧ (2 * Real.sqrt ((ax - bx) ^ 2 + (ay - by_) ^ 2) * (ax - bx) = 0 ↔ ax = bx)
    ∧ (ax ≠ bx →
        rotationArg ideal (pt ax ay) (pt bx by_)
          = Num32.val ((ax - bx) / Real.sqrt ((ax - bx) ^ 2 + (ay - by_) ^ 2))
        ∧ -1 ≤ (ax - bx) / Real.sqrt ((ax - bx) ^ 2 + (ay - by_) ^ 2)
        ∧ (ax - bx) / Real.sqrt ((ax - bx) ^ 2 + (ay - by_) ^ 2) ≤ 1
        ∧ ideal.Acos (rotationArg ideal (pt ax ay) (pt bx by_))
          = Num32.val (Real.arccos
              ((ax - bx) / Real.sqrt ((ax - bx) ^ 2 + (ay - by_) ^ 2)))) := by
  refine ⟨rotationDivisor_ideal ax ay bx by_, ?_, ?_⟩
  · constructor
    · intro h
      by_contra hne
      have hdx : ax - bx ≠ 0 := sub_ne_zero.mpr hne
      have hpos : 0 < (ax - bx) ^ 2 + (ay - by_) ^ 2 := by positivity
      have hL := (Real.sqrt_pos.mpr hpos).ne'
      exact (mul_ne_zero (mul_ne_zero two_ne_zero hL) hdx) h
    · intro h
      rw [h, sub_self, mul_zero]
  · intro hne
    have hb := arccos_ratio_bounds (ax - bx) (ay - by_) (sub_ne_zero.mpr hne)
    refine ⟨rotationArg_ideal ax ay bx by_ hne, hb.1, hb.2, ?_⟩
    rw [rotationArg_ideal ax ay bx by_ hne, ideal_Acos, if_pos hb]

/-- Two distinct, vertically aligned centres: the divisor is zero. -/
theorem rotationDivisor_vertical_example :
    rotationDivisor ideal (pt 0 100) (pt 0 0) = Num32.val 0 ∧ pt 0 100 ≠ pt 0 0 := by
  constructor
  · rw [rotationDivisor_ideal]; norm_num
  · intro h
    have := congrArg Point.Y h
    simp [pt] at this

end Divisor

section Registry

variable {F : Type}

theorem findDelete_none (s : State F) (b : BasicEntity) (l : List roadBuildingEntity) :
    ∀ index : Nat, (∀ c ∈ l, (s.basic c.BasicEntity).ID ≠ b.ID) →
      findDelete s b index l = -1 := by
  induction l with
  | nil => intro index _; rfl
  | cons c rest ih =>
    intro index h
    unfold findDelete
    rw [if_neg (h c (List.mem_cons_self _ _))]
    exact ih (index + 1) (fun c' hc' => h c' (List.mem_cons_of_mem _ hc'))

theorem findDelete_first (s : State F) (b : BasicEntity) (pre : List roadBuildingEntity)
    (e : roadBuildingEntity) (post : List roadBuildingEntity) :
    ∀ index : Nat, (∀ c ∈ pre, (s.basic c.BasicEntity).ID ≠ b.ID) →
      (s.basic e.BasicEntity).ID = b.ID →
      findDelete s b index (pre ++ e :: post) = ((index + pre.length : Nat) : Int) := by
  induction pre with
  | nil =>
    intro index _ he
    show findDelete s b index (e :: post) = _
    unfold findDelete
    rw [if_pos he]
    rfl
  | cons c rest ih =>
    intro index h he
    show findDelete s b index (c :: (rest ++ e :: post)) = _
    unfold findDelete
    rw [if_neg (h c (List.mem_cons_self _ _)),
      ih (index + 1) (fun c' hc' => h c' (List.mem_cons_of_mem _ hc')) he]
    congr 1
    simp only [List.length_cons]
    omega

theorem Remove_absent (s : State F) (b : BasicEntity)
    (h : ∀ c ∈ s.cities, (s.basic c.BasicEntity).ID ≠ b.ID) : Remove s b = s := by
  unfold Remove
  rw [findDelete_none s b s.cities 0 h]
  rfl

/-- C15: `Remove` deletes exactly the first registry entry with the identity of
`basic` and keeps the other entries in their order; nothing else in the system
changes, and when no entry has that identity the system is left as it is. -/
theorem Remove_first_match (s : State F) (basic : BasicEntity) :
    (∀ (pre post : List roadBuildingEntity) (e : roadBuildingEntity),
        s.cities = pre ++ e :: post →
        (∀ c ∈ pre, (s.basic c.BasicEntity).ID ≠ basic.ID) →
        (s.basic e.BasicEntity).ID = basic.ID →
        Remove s basic = { s with cities := pre ++ post })
    ∧ ((∀ c ∈ s.cities, (s.basic c.BasicEntity).ID ≠ basic.ID) → Remove s basic = s) := by
  refine ⟨?_, Remove_absent s basic⟩
  intro pre post e hc hpre he
  unfold Remove
  rw [hc, findDelete_first s basic pre e post 0 hpre he]
  simp only [Nat.zero_add]
  have h1 : ((pre.length : Nat) : Int) ≥ 0 := Int.ofNat_nonneg _
  rw [if_pos h1, Int.toNat_ofNat]
  congr 1
  rw [List.take_left' rfl, List.drop_append 1]
  rfl

/-- `AddCity` appends the new entry to the registry. -/
theorem AddCity_appends (s : State F) (basic city space render mouse : Nat) :
    (AddCity s basic city space render mouse).cities
      = s.cities ++ [(⟨basic, city, space, render, mouse⟩ : roadBuildingEntity)] := rfl

/-- Removing the identity 2 from the registry of the three candidates. -/
theorem Remove_example :
    (Remove (demo [cand 0, cand 1, cand 2] none (Road.zero ideal) (flags [] []) 0 0)
      { id := 2 }).cities = [cand 0, cand 2]
    ∧ (Remove (demo [cand 0, cand 1, cand 2] none (Road.zero ideal) (flags [] []) 0 0)
      { id := 9 }).cities = [cand 0, cand 1, cand 2] :=
  ⟨rfl, rfl⟩

end Registry

section Cases

variable {F : Type}

theorem Remove_cities_sublist (s : State F) (b : BasicEntity) :
    (Remove s b).cities.Sublist s.cities := by
  unfold Remove
  simp only
  split
  · show (s.cities.take _ ++ s.cities.drop _).Sublist s.cities
    conv => rhs; rw [← List.take_append_drop (findDelete s b 0 s.cities).toNat s.cities]
    apply List.Sublist.append (List.Sublist.refl _)
    rw [← List.drop_drop]
    exact List.drop_sublist _ _
  · exact List.Sublist.refl _

theorem foldl_Remove_cities_sublist (b : BasicEntity) (w : List System) :
    ∀ s : State F,
      (w.foldl (fun s sys => if sys = System.RoadBuildingSystem then Remove s b else s) s).cities.Sublist
        s.cities := by
  induction w with
  | nil => intro s; exact List.Sublist.refl _
  | cons sys rest ih =>
    intro s
    simp only [List.foldl_cons]
    by_cases h : sys = System.RoadBuildingSystem
    · rw [if_pos h]
      exact (ih (Remove s b)).trans (Remove_cities_sublist s b)
    · rw [if_neg h]
      exact ih s

theorem foldl_Remove_absent (b : BasicEntity) (w : List System) :
    ∀ s : State F, (∀ c ∈ s.cities, (s.basic c.BasicEntity).ID ≠ b.ID) →
      w.foldl (fun s sys => if sys = System.RoadBuildingSystem then Remove s b else s) s = s := by
  induction w with
  | nil => intro s _; rfl
  | cons sys rest ih =>
    intro s h
    simp only [List.foldl_cons]
    by_cases hs : sys = System.RoadBuildingSystem
    · rw [if_pos hs, Remove_absent s b h]
      exact ih s h
    · rw [if_neg hs]
      exact ih s h

theorem worldRemoveEntity_absent (s : State F) (b : BasicEntity)
    (h : ∀ c ∈ s.cities, (s.basic c.BasicEntity).ID ≠ b.ID) :
    worldRemoveEntity s b = emit s [Event.removeEntity b] := by
  unfold worldRemoveEntity
  exact foldl_Remove_absent b _ (emit s [Event.removeEntity b]) h

theorem buildRoad_cities_sublist (L : Lib F) (s : State F) (sel e : roadBuildingEntity) :
    (buildRoad L s sel e).cities.Sublist s.cities := by
  unfold buildRoad worldRemoveEntity
  exact foldl_Remove_cities_sublist _ _ _

theorem buildRoad_cities_absent (L : Lib F) (s : State F) (sel e : roadBuildingEntity)
    (h : ∀ c ∈ s.cities, (s.basic c.BasicEntity).ID ≠ s.roadHint.BasicEntity.ID) :
    (buildRoad L s sel e).cities = s.cities := by
  have hw := worldRemoveEntity_absent
    (appendRoad (emit (NewBasic s).2
      (roadRegistrations (NewBasic s).2.world (actualRoad L (NewBasic s).2 (NewBasic s).1 sel e)))
      sel.CityComponent (actualRoad L (NewBasic s).2 (NewBasic s).1 sel e))
    s.roadHint.BasicEntity h
  show (worldRemoveEntity
    (appendRoad (emit (NewBasic s).2
      (roadRegistrations (NewBasic s).2.world (actualRoad L (NewBasic s).2 (NewBasic s).1 sel e)))
      sel.CityComponent (actualRoad L (NewBasic s).2 (NewBasic s).1 sel e))
    s.roadHint.BasicEntity).cities = s.cities
  rw [hw]
  rfl

end Cases

section Invariants

variable {F : Type}

/-- The four ways the click handling of lines 114-157 can go. -/
theorem clickStep_cases (L : Lib F) (s : State F) (e : roadBuildingEntity) :
    ((s.mouse e.MouseComponent).Clicked = false ∧ clickStep L s e = s)
    ∨ ((s.mouse e.MouseComponent).Clicked = true ∧ s.selectedEntity = none
        ∧ clickStep L s e
          = setDrawable (setColor { s with selectedEntity := some e } e.RenderComponent
              colorDefault) e.RenderComponent
              (some { BorderColor := colorSelectedBorder, BorderWidth := L.lit 5 }))
    ∨ (∃ sel, (s.mouse e.MouseComponent).Clicked = true ∧ s.selectedEntity = some sel
        ∧ (s.basic sel.BasicEntity).ID = (s.basic e.BasicEntity).ID
        ∧ clickStep L s e
          = { setDrawable (setDrawable (setColor s e.RenderComponent colorDefault)
                e.RenderComponent (some (Rectangle.zero L))) sel.RenderComponent
                (some (Rectangle.zero L)) with selectedEntity := none })
    ∨ (∃ sel, (s.mouse e.MouseComponent).Clicked = true ∧ s.selectedEntity = some sel
        ∧ (s.basic sel.BasicEntity).ID ≠ (s.basic e.BasicEntity).ID
        ∧ clickStep L s e
          = { setDrawable (setDrawable (setColor (buildRoad L s sel e) e.RenderComponent
                colorDefault) e.RenderComponent (some (Rectangle.zero L))) sel.RenderComponent
                (some (Rectangle.zero L)) with selectedEntity := none }) := by
  by_cases hc : (s.mouse e.MouseComponent).Clicked = true
  · cases hsel : s.selectedEntity with
    | none =>
      refine Or.inr (Or.inl ⟨hc, rfl, ?_⟩)
      unfold clickStep
      rw [if_pos hc, hsel]
    | some sel =>
      by_cases hid : (s.basic sel.BasicEntity).ID = (s.basic e.BasicEntity).ID
      · refine Or.inr (Or.inr (Or.inl ⟨sel, hc, rfl, hid, ?_⟩))
        unfold clickStep
        rw [if_pos hc, hsel]
        simp only [hid, ne_eq, not_true_eq_false, if_false]
      · refine Or.inr (Or.inr (Or.inr ⟨sel, hc, rfl, hid, ?_⟩))
        unfold clickStep
        rw [if_pos hc, hsel]
        simp only [hid, ne_eq, not_false_eq_true, if_true]
  · have hc' : (s.mouse e.MouseComponent).Clicked = false := by simpa using hc
    exact Or.inl ⟨hc', clickStep_of_not_clicked L s e hc'⟩

/-- Induction over the loop: a property of the loop state that holds before the
loop and is kept by every visit holds after the loop. The number counts the
entries visited. -/
theorem cityLoop_invariant (L : Lib F) (l : List roadBuildingEntity) :
    ∀ (P : Nat → LoopState F → Prop) (index : Nat) (st : LoopState F),
      P 0 st →
      (∀ k e st1, l.get? k = some e → P k st1 → P (k + 1) (visit L st1 (index + k) e)) →
      P l.length (cityLoop L index l st) := by
  induction l with
  | nil => intro P index st h0 _; exact h0
  | cons c rest ih =>
    intro P index st h0 hstep
    show P (rest.length + 1) (cityLoop L (index + 1) rest (visit L st index c))
    refine ih (fun k st1 => P (k + 1) st1) (index + 1) (visit L st index c)
      (hstep 0 c st rfl h0) ?_
    intro k e st1 hk hP
    have := hstep (k + 1) e st1 (by simpa using hk) hP
    rw [show index + (k + 1) = index + 1 + k by omega] at this
    exact this

/-- Induction over the loop for a property of the system alone: it is enough
that the click handling and the hover handling of every entry keep it. -/
theorem cityLoop_state_invariant (L : Lib F) (Q : State F → Prop)
    (l : List roadBuildingEntity) (index : Nat) (st : LoopState F)
    (h0 : Q st.r)
    (hclick : ∀ s e, e ∈ l → Q s → Q (clickStep L s e))
    (hquiet : ∀ s t, Quiet s t → Q s → Q t) :
    Q (cityLoop L index l st).r := by
  refine cityLoop_invariant L l (fun _ st1 => Q st1.r) index st h0 ?_
  intro k e st1 hk hQ
  have he : e ∈ l := List.get?_mem hk
  show Q (hoverStep { st1 with r := clickStep L st1.r e } (index + k) e).r
  exact hquiet _ _ (hoverStep_quiet { st1 with r := clickStep L st1.r e } (index + k) e)
    (hclick st1.r e he hQ)

end Invariants

section SelfLink

variable {F : Type}

/-- What the part of `Update` after the loop leaves alone. -/
theorem Update_tail (L : Lib F) (s s' : State F) (h : Update L s = some s') :
    s'.city = (cityLoop L 0 s.cities { r := s, hovered := false, hoveredId := -1 }).r.city
    ∧ s'.render = (cityLoop L 0 s.cities { r := s, hovered := false, hoveredId := -1 }).r.render
    ∧ s'.cities = (cityLoop L 0 s.cities { r := s, hovered := false, hoveredId := -1 }).r.cities
    ∧ s'.selectedEntity
        = (cityLoop L 0 s.cities { r := s, hovered := false, hoveredId := -1 }).r.selectedEntity
    ∧ s'.basic = (cityLoop L 0 s.cities { r := s, hovered := false, hoveredId := -1 }).r.basic := by
  cases hsel : (cityLoop L 0 s.cities
      { r := s, hovered := false, hoveredId := -1 }).r.selectedEntity with
  | none =>
    rw [Update_of_selected_none L s hsel] at h
    obtain ⟨cur, hv, hcb, -⟩ := cursorBlock_eq
      (cityLoop L 0 s.cities { r := s, hovered := false, hoveredId := -1 }).r
      (cityLoop L 0 s.cities { r := s, hovered := false, hoveredId := -1 }).hovered
    rw [hcb] at h
    cases h
    exact ⟨rfl, rfl, rfl, hsel, rfl⟩
  | some sel =>
    rw [Update_of_selected_some L s sel hsel] at h
    cases hT : hintTarget L (cityLoop L 0 s.cities
        { r := s, hovered := false, hoveredId := -1 }).r
      (cityLoop L 0 s.cities { r := s, hovered := false, hoveredId := -1 }).hoveredId with
    | none =>
      unfold hintBlock at h
      rw [hT] at h
      cases h
    | some target =>
      by_cases h0 : (cityLoop L 0 s.cities
          { r := s, hovered := false, hoveredId := -1 }).r.roadHint.BasicEntity.ID = 0
      · obtain ⟨hint, -, -, -, hb⟩ := hintBlock_new L _ _ sel target hT h0
        rw [hb] at h
        simp only [Option.map_some', Option.some.injEq] at h
        obtain ⟨cur, hv, hcb, -⟩ := cursorBlock_eq
          ({ (cityLoop L 0 s.cities { r := s, hovered := false, hoveredId := -1 }).r with
              idInc := (cityLoop L 0 s.cities
                { r := s, hovered := false, hoveredId := -1 }).r.idInc + 1
              roadHint := hint
              events := (cityLoop L 0 s.cities
                  { r := s, hovered := false, hoveredId := -1 }).r.events
                ++ ((cityLoop L 0 s.cities
                  { r := s, hovered := false, hoveredId := -1 }).r.world.filter
                    (fun sys => sys = System.RenderSystem)).map
                    (fun _ => Event.renderAdd hint.BasicEntity hint.RenderComponent
                      hint.SpaceComponent) } : State F)
          (cityLoop L 0 s.cities { r := s, hovered := false, hoveredId := -1 }).hovered
        rw [hcb] at h
        subst h
        exact ⟨rfl, rfl, rfl, hsel, rfl⟩
      · rw [hintBlock_old L _ _ sel target hT h0] at h
        simp only [Option.map_some', Option.some.injEq] at h
        obtain ⟨cur, hv, hcb, -⟩ := cursorBlock_eq
          ({ (cityLoop L 0 s.cities { r := s, hovered := false, hoveredId := -1 }).r with
              roadHint :=
                { (cityLoop L 0 s.cities
                    { r := s, hovered := false, hoveredId := -1 }).r.roadHint with
                  RenderComponent :=
                    { (cityLoop L 0 s.cities
                        { r := s, hovered := false, hoveredId := -1 }).r.roadHint.RenderComponent with
                      Color := if (cityLoop L 0 s.cities
                          { r := s, hovered := false, hoveredId := -1 }).hoveredId ≥ 0
                        then colorRoadAvailable else colorRoadUnavailable }
                  SpaceComponent := hintSpace L (center L (L.spaceAABB target))
                    (center L (L.spaceAABB ((cityLoop L 0 s.cities
                      { r := s, hovered := false, hoveredId := -1 }).r.space
                        sel.SpaceComponent))) } } : State F)
          (cityLoop L 0 s.cities { r := s, hovered := false, hoveredId := -1 }).hovered
        rw [hcb] at h
        subst h
        exact ⟨rfl, rfl, rfl, hsel, rfl⟩

theorem NoSelfLink_quiet {s t : State F} (h : Quiet s t) (hs : NoSelfLink s) : NoSelfLink t := by
  refine ⟨fun p road hr => hs.1 p road ?_, fun b rc hev => hs.2 b rc ?_⟩
  · rw [← h.roads p]; exact hr
  · rw [← h.events]; exact hev

theorem NoSelfLink_calm {s t : State F} (h : Calm s t) (hs : NoSelfLink s) : NoSelfLink t := by
  refine ⟨fun p road hr => hs.1 p road ?_, fun b rc hev => hs.2 b rc ?_⟩
  · rw [← h.roads p]; exact hr
  · rw [← h.events]; exact hev

theorem clickStep_NoSelfLink (L : Lib F) (s : State F) (e : roadBuildingEntity)
    (hs : NoSelfLink s) : NoSelfLink (clickStep L s e) := by
  rcases clickStep_cases L s e with ⟨-, h⟩ | ⟨-, -, h⟩ | ⟨sel, hc, hsel, hid, -⟩ |
    ⟨sel, hc, hsel, hid, -⟩
  · rw [h]; exact hs
  · rw [h]
    exact NoSelfLink_calm ((setSelected_calm s (some e)).ctrans
      (((setColor_quiet _ _ _).toCalm).ctrans (setDrawable_calm _ _ _))) hs
  · exact NoSelfLink_calm (clickStep_self L s sel e hsel hc hid).1 hs
  · obtain ⟨-, -, -, -, -, -, -, -, -, k10, k11, k12⟩ := clickStep_commit L s sel e hsel hc hid
    constructor
    · intro p road hr
      by_cases hp : p = sel.CityComponent
      · subst hp
        rw [k11, List.mem_append, List.mem_singleton] at hr
        rcases hr with hr | hr
        · exact hs.1 _ road hr
        · subst hr; exact hid
      · rw [k12 p hp] at hr
        exact hs.1 p road hr
    · intro b rc hev
      rw [k10] at hev
      simp only [List.mem_append, List.mem_singleton] at hev
      rcases hev with (hev | hev) | hev
      · exact hs.2 b rc hev
      · unfold roadRegistrations at hev
        rw [List.mem_filterMap] at hev
        obtain ⟨sys, -, hsys⟩ := hev
        cases sys <;> simp at hsys
        obtain ⟨-, rfl⟩ := hsys
        exact hid
      · cases hev

theorem Update_NoSelfLink (L : Lib F) (s s' : State F) (h : Update L s = some s')
    (hs : NoSelfLink s) : NoSelfLink s' := by
  have hloop : NoSelfLink (cityLoop L 0 s.cities
      { r := s, hovered := false, hoveredId := -1 }).r :=
    cityLoop_state_invariant L NoSelfLink s.cities 0 _ hs
      (fun s1 e _ h1 => clickStep_NoSelfLink L s1 e h1)
      (fun s1 t hq h1 => NoSelfLink_quiet hq h1)
  obtain ⟨hcity, -, -, -, -⟩ := Update_tail L s s' h
  obtain ⟨regs, cur, hev, hcur, hregs, -⟩ := Update_hint_registered_from_sentinel L s s' h
  constructor
  · intro p road hr
    rw [hcity] at hr
    exact hloop.1 p road hr
  · intro b rc hmem
    rw [hev] at hmem
    simp only [List.mem_append] at hmem
    rcases hmem with (hmem | hmem) | hmem
    · exact hloop.2 b rc hmem
    · have := hregs _ hmem
      cases this
    · obtain ⟨c, hc⟩ := hcur _ hmem
      cases hc

/-- C14: from a state without self-linking roads, every state reached by frames
with arbitrary input has no self-linking road: each road `Update` builds has
`From` and `To` of different identity. A click on a candidate with the identity
of the selected one clears the selection and changes no road list and no
outgoing call. -/
theorem no_self_link (L : Lib F) (s0 s : State F) (h0 : NoSelfLink s0)
    (hr : Reachable L s0 s) :
    NoSelfLink s
    ∧ ∀ sel e, s.selectedEntity = some sel →
        (s.mouse e.MouseComponent).Clicked = true →
        (s.basic sel.BasicEntity).ID = (s.basic e.BasicEntity).ID →
        (clickStep L s e).selectedEntity = none
        ∧ (∀ p, ((clickStep L s e).city p).Roads = (s.city p).Roads)
        ∧ (clickStep L s e).events = s.events := by
  constructor
  · induction hr with
    | init => exact h0
    | step s1 i s2 _ hf ih =>
      unfold frame at hf
      exact Update_NoSelfLink L _ s2 hf ⟨ih.1, ih.2⟩
  · intro sel e hsel hc hid
    obtain ⟨C, hn⟩ := clickStep_self L s sel e hsel hc hid
    exact ⟨hn, C.roads, C.events⟩

theorem frames_reachable (L : Lib F) (s0 : State F) (is : List (Input F)) :
    ∀ s s1 : State F, Reachable L s0 s → frames L s is = some s1 → Reachable L s0 s1 := by
  induction is with
  | nil =>
    intro s s1 hr h
    simp only [frames, Option.some.injEq] at h
    subst h
    exact hr
  | cons i rest ih =>
    intro s s1 hr h
    simp only [frames] at h
    cases hf : frame L s i with
    | none => rw [hf] at h; simp at h
    | some s2 =>
      rw [hf] at h
      exact ih s2 s1 (Reachable.step s i s2 hr hf) h

theorem started_NoSelfLink : NoSelfLink started := by
  constructor
  · intro p road hr
    simp [started, AddCity, New, NewBasic, emit, blank] at hr
  · intro b rc hev
    simp [started, AddCity, New, NewBasic, emit, blank] at hev

theorem no_self_link_witness :
    ∃ s2, frames ideal started [input [0] [] 3 4, input [1] [1] 100 0] = some s2
      ∧ ((s2.city 0).Roads.map (fun road =>
          (road.RoadComponent.From.ID, road.RoadComponent.To.ID))) = [(1, 2)]
      ∧ NoSelfLink s2 := by
  have a0 : (frames ideal started [input [0] [] 3 4, input [1] [1] 100 0]).isSome = true := rfl
  have a1 : (frames ideal started [input [0] [] 3 4, input [1] [1] 100 0]).map
      (fun s => (s.city 0).Roads.map (fun road =>
        (road.RoadComponent.From.ID, road.RoadComponent.To.ID))) = some [(1, 2)] := rfl
  obtain ⟨s2, h2⟩ := Option.isSome_iff_exists.mp a0
  rw [h2] at a1
  simp only [Option.map_some', Option.some.injEq] at a1
  exact ⟨s2, h2, a1, (no_self_link ideal started s2 started_NoSelfLink
    (frames_reachable ideal started _ started s2 Reachable.init h2)).1⟩

end SelfLink

section Exclusive

variable {F : Type}

theorem zero_not_border (L : Lib F) :
    (some (Rectangle.zero L) : Option (Rectangle F))
      ≠ some { BorderColor := colorSelectedBorder, BorderWidth := L.lit 5 } := by
  intro h
  have h1 := congrArg Rectangle.BorderColor (Option.some.inj h)
  simp [Rectangle.zero, colorSelectedBorder, colorHover] at h1

/-- The invariant behind C13, for the candidates `R`: a render component carries
the selected border only if it is the one of the selected candidate, the
selected candidate is one of `R`, and so is every registry entry. -/
theorem clickStep_border (L : Lib F) (R : List roadBuildingEntity) (s : State F)
    (e : roadBuildingEntity) (he : e ∈ R)
    (h1 : ∀ p, hasBorder L (s.render p) →
      ∃ sel, s.selectedEntity = some sel ∧ sel.RenderComponent = p)
    (h2 : ∀ sel, s.selectedEntity = some sel → sel ∈ R)
    (h3 : ∀ c ∈ s.cities, c ∈ R) :
    (∀ p, hasBorder L ((clickStep L s e).render p) →
      ∃ sel, (clickStep L s e).selectedEntity = some sel ∧ sel.RenderComponent = p)
    ∧ (∀ sel, (clickStep L s e).selectedEntity = some sel → sel ∈ R)
    ∧ (∀ c ∈ (clickStep L s e).cities, c ∈ R) := by
  rcases clickStep_cases L s e with ⟨-, h⟩ | ⟨-, hn, h⟩ | ⟨sel, -, hsel, -, h⟩ |
    ⟨sel, -, hsel, -, h⟩
  · rw [h]; exact ⟨h1, h2, h3⟩
  · rw [h]
    refine ⟨?_, ?_, h3⟩
    · intro p hp
      by_cases hpe : p = e.RenderComponent
      · exact ⟨e, rfl, hpe.symm⟩
      · exfalso
        have : hasBorder L (s.render p) := by
          unfold hasBorder at hp ⊢
          simpa [setDrawable, setColor, Function.update_noteq hpe] using hp
        obtain ⟨sel, hs, -⟩ := h1 p this
        rw [hn] at hs
        cases hs
    · intro sel hs
      have : sel = e := by
        simp only [setDrawable, setColor, Option.some.injEq] at hs
        exact hs.symm
      rw [this]; exact he
  · rw [h]
    refine ⟨?_, (fun sel hs => by cases hs), h3⟩
    intro p hp
    exfalso
    unfold hasBorder at hp
    by_cases hps : p = sel.RenderComponent
    · subst hps
      simp only [setDrawable, Function.update_same] at hp
      exact zero_not_border L hp
    · by_cases hpe : p = e.RenderComponent
      · subst hpe
        simp only [setDrawable, setColor, Function.update_noteq hps, Function.update_same] at hp
        exact zero_not_border L hp
      · simp only [setDrawable, setColor, Function.update_noteq hps,
          Function.update_noteq hpe] at hp
        obtain ⟨sel1, hs1, hr1⟩ := h1 p hp
        rw [hsel] at hs1
        cases hs1
        exact hps hr1.symm
  · obtain ⟨cs, hb⟩ := buildRoad_eq L s sel e
    have hsub := buildRoad_cities_sublist L s sel e
    rw [h]
    refine ⟨?_, (fun sel hs => by cases hs), ?_⟩
    · intro p hp
      exfalso
      unfold hasBorder at hp
      by_cases hps : p = sel.RenderComponent
      · subst hps
        simp only [setDrawable, Function.update_same] at hp
        exact zero_not_border L hp
      · by_cases hpe : p = e.RenderComponent
        · subst hpe
          simp only [setDrawable, setColor, Function.update_noteq hps,
            Function.update_same] at hp
          exact zero_not_border L hp
        · rw [hb] at hp
          simp only [setDrawable, setColor, Function.update_noteq hps,
            Function.update_noteq hpe] at hp
          obtain ⟨sel1, hs1, hr1⟩ := h1 p hp
          rw [hsel] at hs1
          cases hs1
          exact hps hr1.symm
    · intro c hc
      exact h3 c (hsub.subset hc)

theorem Update_border (L : Lib F) (R : List roadBuildingEntity) (s s' : State F)
    (h : Update L s = some s')
    (h1 : ∀ p, hasBorder L (s.render p) →
      ∃ sel, s.selectedEntity = some sel ∧ sel.RenderComponent = p)
    (h2 : ∀ sel, s.selectedEntity = some sel → sel ∈ R)
    (h3 : ∀ c ∈ s.cities, c ∈ R) :
    (∀ p, hasBorder L (s'.render p) →
      ∃ sel, s'.selectedEntity = some sel ∧ sel.RenderComponent = p)
    ∧ (∀ sel, s'.selectedEntity = some sel → sel ∈ R)
    ∧ (∀ c ∈ s'.cities, c ∈ R) := by
  have hloop := cityLoop_state_invariant L
    (fun t : State F =>
      (∀ p, hasBorder L (t.render p) →
        ∃ sel, t.selectedEntity = some sel ∧ sel.RenderComponent = p)
      ∧ (∀ sel, t.selectedEntity = some sel → sel ∈ R)
      ∧ (∀ c ∈ t.cities, c ∈ R))
    s.cities 0 { r := s, hovered := false, hoveredId := -1 } ⟨h1, h2, h3⟩
    (fun t e he ht => clickStep_border L R t e (h3 e he) ht.1 ht.2.1 ht.2.2)
    (fun t u hq ht => by
      refine ⟨?_, ?_, ?_⟩
      · intro p hp
        unfold hasBorder at hp
        rw [hq.drawable p] at hp
        obtain ⟨sel, hs, hr⟩ := ht.1 p hp
        exact ⟨sel, by rw [hq.selectedEntity]; exact hs, hr⟩
      · intro sel hs
        rw [hq.selectedEntity] at hs
        exact ht.2.1 sel hs
      · intro c hc
        rw [hq.cities] at hc
        exact ht.2.2 c hc)
  obtain ⟨-, hrender, hcities, hselE, -⟩ := Update_tail L s s' h
  rw [hrender, hcities, hselE]
  exact hloop

/-- C13: from a state with no selection in which no render component carries the
selected border, over a registry whose entries have separate render
components, every state reached by frames with arbitrary input has at most one
candidate marked selected: a candidate carries the selected border only if it is
the selected entity, so two candidates that carry it are the same one; the
registry is never extended. -/
theorem selection_exclusive (L : Lib F) (s0 s : State F)
    (hsel0 : s0.selectedEntity = none)
    (hb0 : ∀ p, ¬ hasBorder L (s0.render p))
    (hinj : ∀ c1 ∈ s0.cities, ∀ c2 ∈ s0.cities,
      c1.RenderComponent = c2.RenderComponent → c1 = c2)
    (hr : Reachable L s0 s) :
    (∀ c ∈ s0.cities, hasBorder L (s.render c.RenderComponent) → s.selectedEntity = some c)
    ∧ (∀ c1 ∈ s0.cities, ∀ c2 ∈ s0.cities,
        hasBorder L (s.render c1.RenderComponent) →
        hasBorder L (s.render c2.RenderComponent) → c1 = c2)
    ∧ (∀ c ∈ s.cities, c ∈ s0.cities) := by
  have inv : (∀ p, hasBorder L (s.render p) →
        ∃ sel, s.selectedEntity = some sel ∧ sel.RenderComponent = p)
      ∧ (∀ sel, s.selectedEntity = some sel → sel ∈ s0.cities)
      ∧ (∀ c ∈ s.cities, c ∈ s0.cities) := by
    induction hr with
    | init =>
      refine ⟨fun p hp => absurd hp (hb0 p), ?_, fun c hc => hc⟩
      intro sel hs
      rw [hsel0] at hs
      cases hs
    | step s1 i s2 _ hf ih =>
      unfold frame at hf
      exact Update_border L s0.cities _ s2 hf ih.1 ih.2.1 ih.2.2
  have key : ∀ c ∈ s0.cities, hasBorder L (s.render c.RenderComponent) →
      s.selectedEntity = some c := by
    intro c hc hb
    obtain ⟨sel, hs, hrr⟩ := inv.1 _ hb
    rw [hs, hinj sel (inv.2.1 sel hs) c hc hrr]
  refine ⟨key, ?_, inv.2.2⟩
  intro c1 h1 c2 h2 b1 b2
  have e1 := key c1 h1 b1
  have e2 := key c2 h2 b2
  rw [e1] at e2
  exact Option.some.inj e2

theorem selection_exclusive_witness :
    ∃ s1, frames ideal started [input [0] [] 3 4] = some s1
      ∧ s1.selectedEntity = some (cand 0)
      ∧ hasBorder ideal (s1.render (cand 0).RenderComponent)
      ∧ (∀ c ∈ started.cities, hasBorder ideal (s1.render c.RenderComponent) →
          s1.selectedEntity = some c)
      ∧ (∀ c1 ∈ started.cities, ∀ c2 ∈ started.cities,
          hasBorder ideal (s1.render c1.RenderComponent) →
          hasBorder ideal (s1.render c2.RenderComponent) → c1 = c2)
      ∧ (∀ c ∈ s1.cities, c ∈ started.cities) := by
  have a0 : (frames ideal started [input [0] [] 3 4]).isSome = true := rfl
  have a1 : (frames ideal started [input [0] [] 3 4]).map (fun s => s.selectedEntity)
      = some (some (cand 0)) := rfl
  have a2 : (frames ideal started [input [0] [] 3 4]).map
      (fun s => (s.render (cand 0).RenderComponent).Drawable)
      = some (some { BorderColor := colorSelectedBorder, BorderWidth := ideal.lit 5 }) := rfl
  obtain ⟨s1, h1⟩ := Option.isSome_iff_exists.mp a0
  rw [h1] at a1 a2
  simp only [Option.map_some', Option.some.injEq] at a1 a2
  refine ⟨s1, h1, a1, a2, selection_exclusive ideal started s1 rfl ?_ (by decide)
    (frames_reachable ideal started _ started s1 Reachable.init h1)⟩
  intro p hp
  exact zero_not_border ideal hp

end Exclusive

section CursorSignals

variable {F : Type}

theorem clickStep_hovering (L : Lib F) (s : State F) (e : roadBuildingEntity) :
    (clickStep L s e).hovering = s.hovering := by
  rcases clickStep_cases L s e with ⟨-, h⟩ | ⟨-, -, h⟩ | ⟨sel, -, -, -, h⟩ | ⟨sel, -, -, -, h⟩
  · rw [h]
  · rw [h]; rfl
  · rw [h]; rfl
  · obtain ⟨cs, hb⟩ := buildRoad_eq L s sel e
    rw [h, hb]; rfl

theorem cityLoop_hovering (L : Lib F) (s : State F) :
    (cityLoop L 0 s.cities { r := s, hovered := false, hoveredId := -1 }).r.hovering
      = s.hovering :=
  cityLoop_state_invariant L (fun t => t.hovering = s.hovering) s.cities 0
    { r := s, hovered := false, hoveredId := -1 } rfl
    (fun t e _ ht => (clickStep_hovering L t e).trans ht)
    (fun _ _ hq ht => hq.hovering.trans ht)

theorem clickStep_events (L : Lib F) (s : State F) (e : roadBuildingEntity) :
    ∃ evs, (clickStep L s e).events = s.events ++ evs ∧ ∀ ev ∈ evs, notCursor ev := by
  rcases clickStep_cases L s e with ⟨-, h⟩ | ⟨-, -, h⟩ | ⟨sel, -, -, -, h⟩ |
    ⟨sel, hc, hsel, hid, -⟩
  · exact ⟨[], by rw [h]; simp, by simp⟩
  · exact ⟨[], by rw [h]; simp [setDrawable, setColor], by simp⟩
  · exact ⟨[], by rw [h]; simp [setDrawable, setColor], by simp⟩
  · obtain ⟨-, -, -, -, -, -, -, -, -, k10, -, -⟩ := clickStep_commit L s sel e hsel hc hid
    refine ⟨_, by rw [k10, List.append_assoc], ?_⟩
    intro ev hev
    simp only [List.mem_append, List.mem_singleton] at hev
    rcases hev with hev | hev
    · unfold roadRegistrations at hev
      rw [List.mem_filterMap] at hev
      obtain ⟨sys, -, hsys⟩ := hev
      cases sys <;> simp at hsys <;> subst hsys <;> simp [notCursor, Event.call]
    · subst hev
      simp [notCursor, Event.call]

theorem cityLoop_events (L : Lib F) (s : State F) :
    ∃ evs,
      (cityLoop L 0 s.cities { r := s, hovered := false, hoveredId := -1 }).r.events
        = s.events ++ evs
      ∧ ∀ ev ∈ evs, notCursor ev :=
  cityLoop_state_invariant L
    (fun t => ∃ evs, t.events = s.events ++ evs ∧ ∀ ev ∈ evs, notCursor ev) s.cities 0
    { r := s, hovered := false, hoveredId := -1 } ⟨[], by simp, by simp⟩
    (fun t e _ ht => by
      obtain ⟨evs, h1, h2⟩ := ht
      obtain ⟨evs', h3, h4⟩ := clickStep_events L t e
      refine ⟨evs ++ evs', by rw [h3, h1, List.append_assoc], ?_⟩
      intro ev hev
      rcases List.mem_append.mp hev with h | h
      · exact h2 ev h
      · exact h4 ev h)
    (fun t u hq ht => by
      obtain ⟨evs, h1, h2⟩ := ht
      exact ⟨evs, by rw [hq.events, h1], h2⟩)

/-- After the loop `hovered` is set exactly when it was set before or some entry
took the hover branch when the loop visited it. -/
theorem cityLoop_hovered_iff (L : Lib F) (l : List roadBuildingEntity) :
    ∀ (index : Nat) (st : LoopState F),
      (cityLoop L index l st).hovered = true ↔
        (st.hovered = true ∨ ∃ k e, l.get? k = some e
          ∧ hoverHit (clickStep L (cityLoop L index (l.take k) st).r e) e = true) := by
  induction l with
  | nil =>
    intro index st
    simp [cityLoop]
  | cons c rest ih =>
    intro index st
    show (cityLoop L (index + 1) rest (visit L st index c)).hovered = true ↔ _
    rw [ih (index + 1) (visit L st index c)]
    have hv : (visit L st index c).hovered = true ↔
        (st.hovered = true ∨ hoverHit (clickStep L st.r c) c = true) := by
      show (hoverStep { st with r := clickStep L st.r c } index c).hovered = true ↔ _
      cases hh : hoverHit (clickStep L st.r c) c with
      | true =>
        rw [(hoverStep_hit { st with r := clickStep L st.r c } index c hh).2]
        simp
      | false =>
        rw [(hoverStep_miss { st with r := clickStep L st.r c } index c hh).2]
        simp
    constructor
    · rintro (h | ⟨k, e, hk, hit⟩)
      · rcases hv.mp h with h | h
        · exact Or.inl h
        · exact Or.inr ⟨0, c, rfl, h⟩
      · exact Or.inr ⟨k + 1, e, by simpa using hk, hit⟩
    · rintro (h | ⟨k, e, hk, hit⟩)
      · exact Or.inl (hv.mpr (Or.inl h))
      · cases k with
        | zero =>
          simp only [List.get?_cons_zero, Option.some.injEq] at hk
          subst hk
          exact Or.inl (hv.mpr (Or.inr hit))
        | succ k =>
          exact Or.inr ⟨k, e, by simpa using hk, hit⟩

theorem cursorBlock_exact (s : State F) (hovered : Bool) :
    ∃ cur, cursorBlock s hovered = { s with events := s.events ++ cur, hovering := hovered }
      ∧ (hovered = true ∧ s.hovering = false → cur = [Event.setCursor Cursor.CursorHand])
      ∧ (hovered = false ∧ s.hovering = true → cur = [Event.setCursor Cursor.CursorNone])
      ∧ (hovered = s.hovering → cur = []) := by
  cases s with
  | mk b c sp r m w cs rh se hv mt ii ev =>
    cases hovered <;> cases hv
    · exact ⟨[], by simp [cursorBlock], by simp, by simp, by simp⟩
    · exact ⟨[Event.setCursor Cursor.CursorNone], by simp [cursorBlock, emit], by simp,
        by simp, by simp⟩
    · exact ⟨[Event.setCursor Cursor.CursorHand], by simp [cursorBlock, emit], by simp,
        by simp, by simp⟩
    · exact ⟨[], by simp [cursorBlock], by simp, by simp, by simp⟩

/-- The shape of a frame that returns: the loop, then possibly the hint block,
which leaves the stored `hovering` alone and makes no cursor call, then the
cursor block. -/
theorem Update_shape (L : Lib F) (s s' : State F) (h : Update L s = some s') :
    ∃ (mid : State F) (regs : List (Event F)),
      s' = cursorBlock mid
        (cityLoop L 0 s.cities { r := s, hovered := false, hoveredId := -1 }).hovered
      ∧ mid.hovering
        = (cityLoop L 0 s.cities { r := s, hovered := false, hoveredId := -1 }).r.hovering
      ∧ mid.events
        = (cityLoop L 0 s.cities { r := s, hovered := false, hoveredId := -1 }).r.events ++ regs
      ∧ ∀ ev ∈ regs, notCursor ev := by
  cases hsel : (cityLoop L 0 s.cities
      { r := s, hovered := false, hoveredId := -1 }).r.selectedEntity with
  | none =>
    rw [Update_of_selected_none L s hsel] at h
    exact ⟨_, [], (Option.some.inj h).symm, rfl, by simp, by simp⟩
  | some sel =>
    rw [Update_of_selected_some L s sel hsel] at h
    cases hT : hintTarget L (cityLoop L 0 s.cities
        { r := s, hovered := false, hoveredId := -1 }).r
      (cityLoop L 0 s.cities { r := s, hovered := false, hoveredId := -1 }).hoveredId with
    | none =>
      unfold hintBlock at h
      rw [hT] at h
      cases h
    | some target =>
      by_cases h0 : (cityLoop L 0 s.cities
          { r := s, hovered := false, hoveredId := -1 }).r.roadHint.BasicEntity.ID = 0
      · obtain ⟨hint, -, -, -, hb⟩ := hintBlock_new L _ _ sel target hT h0
        rw [hb] at h
        simp only [Option.map_some', Option.some.injEq] at h
        refine ⟨_, _, h.symm, rfl, rfl, ?_⟩
        intro ev hev
        simp only [List.mem_map] at hev
        obtain ⟨_, -, rfl⟩ := hev
        simp [notCursor, Event.call]
      · rw [hintBlock_old L _ _ sel target hT h0] at h
        simp only [Option.map_some', Option.some.injEq] at h
        exact ⟨_, [], h.symm, rfl, by simp, by simp⟩

/-- A frame after a state `s1`, whose stored `hovering` is the hover-any value of
the frame before: it makes a cursor call only when its own hover-any value
differs. -/
theorem cursor_silent_while_unchanged (L : Lib F) (s1 s2 : State F) (i2 : Input F)
    (h2 : frame L s1 i2 = some s2) :
    ∃ (evs cur : List (Event F)),
      s2.events = s1.events ++ evs ++ cur
      ∧ (∀ ev ∈ evs, notCursor ev)
      ∧ (s2.hovering = s1.hovering → cur = [])
      ∧ (s2.hovering = true ∧ s1.hovering = false → cur = [Event.setCursor Cursor.CursorHand])
      ∧ (s2.hovering = false ∧ s1.hovering = true
          → cur = [Event.setCursor Cursor.CursorNone]) := by
  have key : ∀ s : State F, Update L s = some s2 →
      ∃ (evs cur : List (Event F)),
        s2.events = s.events ++ evs ++ cur
        ∧ (∀ ev ∈ evs, notCursor ev)
        ∧ (s2.hovering = s.hovering → cur = [])
        ∧ (s2.hovering = true ∧ s.hovering = false → cur = [Event.setCursor Cursor.CursorHand])
        ∧ (s2.hovering = false ∧ s.hovering = true
            → cur = [Event.setCursor Cursor.CursorNone]) := by
    intro s h
    obtain ⟨mid, regs, hs', hmh, hme, hregs⟩ := Update_shape L s s2 h
    obtain ⟨evs, hev, hevs⟩ := cityLoop_events L s
    obtain ⟨cur, hcb, c1, c2, c3⟩ := cursorBlock_exact mid
      (cityLoop L 0 s.cities { r := s, hovered := false, hoveredId := -1 }).hovered
    have hmid : mid.hovering = s.hovering := by rw [hmh, cityLoop_hovering]
    rw [hmid] at c1 c2 c3
    have hhov : s2.hovering
        = (cityLoop L 0 s.cities { r := s, hovered := false, hoveredId := -1 }).hovered := by
      rw [hs', hcb]
    rw [← hhov] at c1 c2 c3
    refine ⟨evs ++ regs, cur, ?_, ?_, c3, c1, c2⟩
    · rw [hs', hcb]
      show mid.events ++ cur = _
      rw [hme, hev, List.append_assoc s.events evs regs]
    · intro ev hmem
      rcases List.mem_append.mp hmem with h1 | h1
      · exact hevs ev h1
      · exact hregs ev h1
  exact key { s1 with
    mouse := i2.mouse
    mouseTracker := { s1.mouseTracker with MouseX := i2.MouseX, MouseY := i2.MouseY } } h2

end CursorSignals

section HoverIndex

variable {F : Type}

theorem hoverStep_hoveredId (st : LoopState F) (index : Nat) (e : roadBuildingEntity) :
    ((hoverStep st index e).hoveredId = (index : Int) ∧ hoverHit st.r e = true)
    ∨ ((hoverStep st index e).hoveredId = st.hoveredId ∧ hoverHit st.r e = false) := by
  cases hh : hoverHit st.r e with
  | true => exact Or.inl ⟨(hoverStep_hit st index e hh).1, rfl⟩
  | false => exact Or.inr ⟨(hoverStep_miss st index e hh).1, rfl⟩

/-- After the loop `hoveredId` is `-1` or an index into the list the loop ranged
over. -/
theorem cityLoop_hoveredId_bound (L : Lib F) (s : State F) :
    (cityLoop L 0 s.cities { r := s, hovered := false, hoveredId := -1 }).hoveredId = -1
    ∨ (0 ≤ (cityLoop L 0 s.cities { r := s, hovered := false, hoveredId := -1 }).hoveredId
      ∧ (cityLoop L 0 s.cities { r := s, hovered := false, hoveredId := -1 }).hoveredId
          < (s.cities.length : Int)) := by
  refine cityLoop_invariant L s.cities
    (fun k st => st.hoveredId = -1 ∨ (0 ≤ st.hoveredId ∧ st.hoveredId < (k : Int)))
    0 { r := s, hovered := false, hoveredId := -1 } (Or.inl rfl) ?_
  intro k e st1 _ hP
  have key : (visit L st1 (0 + k) e).hoveredId = ((0 + k : Nat) : Int)
      ∨ (visit L st1 (0 + k) e).hoveredId = st1.hoveredId := by
    rcases hoverStep_hoveredId { st1 with r := clickStep L st1.r e } (0 + k) e with
      ⟨h, -⟩ | ⟨h, -⟩
    · exact Or.inl h
    · exact Or.inr h
  show (visit L st1 (0 + k) e).hoveredId = -1
    ∨ (0 ≤ (visit L st1 (0 + k) e).hoveredId
      ∧ (visit L st1 (0 + k) e).hoveredId < ((k + 1 : Nat) : Int))
  rcases key with h | h
  · rw [h]
    right
    push_cast
    omega
  · rw [h]
    rcases hP with hP | hP
    · exact Or.inl hP
    · right
      push_cast
      omega

theorem clickStep_roadHint (L : Lib F) (s : State F) (e : roadBuildingEntity) :
    (clickStep L s e).roadHint = s.roadHint ∨ (clickStep L s e).roadHint = Road.zero L := by
  rcases clickStep_cases L s e with ⟨-, h⟩ | ⟨-, -, h⟩ | ⟨sel, -, -, -, h⟩ | ⟨sel, -, -, -, h⟩
  · rw [h]; exact Or.inl rfl
  · rw [h]; exact Or.inl rfl
  · rw [h]; exact Or.inl rfl
  · obtain ⟨cs, hb⟩ := buildRoad_eq L s sel e
    rw [h, hb]; exact Or.inr rfl

theorem clickStep_cities_absent (L : Lib F) (s : State F) (e : roadBuildingEntity)
    (h : ∀ c ∈ s.cities, (s.basic c.BasicEntity).ID ≠ s.roadHint.BasicEntity.ID) :
    (clickStep L s e).cities = s.cities := by
  rcases clickStep_cases L s e with ⟨-, h1⟩ | ⟨-, -, h1⟩ | ⟨sel, -, -, -, h1⟩ |
    ⟨sel, -, -, -, h1⟩
  · rw [h1]
  · rw [h1]; rfl
  · rw [h1]; rfl
  · rw [h1]
    exact buildRoad_cities_absent L s sel e h

/-- When no registered candidate carries the identity 0 or the identity of the
hint, the loop leaves the registry as it is. -/
theorem cityLoop_cities (L : Lib F) (s : State F)
    (hz : ∀ c ∈ s.cities, (s.basic c.BasicEntity).ID ≠ 0)
    (hh : ∀ c ∈ s.cities, (s.basic c.BasicEntity).ID ≠ s.roadHint.BasicEntity.ID) :
    (cityLoop L 0 s.cities { r := s, hovered := false, hoveredId := -1 }).r.cities = s.cities := by
  have := cityLoop_state_invariant L
    (fun t : State F => t.cities = s.cities ∧ t.basic = s.basic
      ∧ (t.roadHint.BasicEntity.ID = s.roadHint.BasicEntity.ID ∨ t.roadHint.BasicEntity.ID = 0))
    s.cities 0 { r := s, hovered := false, hoveredId := -1 } ⟨rfl, rfl, Or.inl rfl⟩
    (fun t e _ ht => by
      obtain ⟨h1, h2, h3⟩ := ht
      have habs : ∀ c ∈ t.cities, (t.basic c.BasicEntity).ID ≠ t.roadHint.BasicEntity.ID := by
        intro c hc
        rw [h1] at hc
        rw [h2]
        rcases h3 with h3 | h3
        · rw [h3]; exact hh c hc
        · rw [h3]; exact hz c hc
      refine ⟨?_, ?_, ?_⟩
      · show (clickStep L t e).cities = s.cities
        rw [clickStep_cities_absent L t e habs, h1]
      · show (clickStep L t e).basic = s.basic
        rw [(clickStep_stable L t e).basic, h2]
      · show (clickStep L t e).roadHint.BasicEntity.ID = s.roadHint.BasicEntity.ID
          ∨ (clickStep L t e).roadHint.BasicEntity.ID = 0
        rcases clickStep_roadHint L t e with h | h
        · rw [h]; exact h3
        · rw [h]; exact Or.inr rfl)
    (fun t u hq ht => by
      obtain ⟨h1, h2, h3⟩ := ht
      refine ⟨?_, ?_, ?_⟩
      · show u.cities = s.cities
        rw [hq.cities, h1]
      · show u.basic = s.basic
        rw [hq.basic, h2]
      · show u.roadHint.BasicEntity.ID = s.roadHint.BasicEntity.ID
          ∨ u.roadHint.BasicEntity.ID = 0
        rw [hq.roadHint]; exact h3)
  exact this.1

/-- When the loop leaves the registry as it is, the target of the hint exists:
the index `r.cities[hoveredId]` is in range. -/
theorem hintTarget_in_range (L : Lib F) (s : State F)
    (hc : (cityLoop L 0 s.cities { r := s, hovered := false, hoveredId := -1 }).r.cities
      = s.cities) :
    ∃ target, hintTarget L (cityLoop L 0 s.cities { r := s, hovered := false, hoveredId := -1 }).r
      (cityLoop L 0 s.cities { r := s, hovered := false, hoveredId := -1 }).hoveredId
        = some target := by
  unfold hintTarget
  rcases cityLoop_hoveredId_bound L s with h | ⟨h1, h2⟩
  · rw [h]
    exact ⟨_, rfl⟩
  · rw [if_pos h1, hc]
    have hlt : (cityLoop L 0 s.cities
        { r := s, hovered := false, hoveredId := -1 }).hoveredId.toNat < s.cities.length := by
      omega
    rw [List.get?_eq_get hlt]
    exact ⟨_, rfl⟩

/-- When the loop leaves the registry as it is, `Update` returns. -/
theorem Update_returns (L : Lib F) (s : State F)
    (hc : (cityLoop L 0 s.cities { r := s, hovered := false, hoveredId := -1 }).r.cities
      = s.cities) :
    ∃ s', Update L s = some s' := by
  cases hsel : (cityLoop L 0 s.cities
      { r := s, hovered := false, hoveredId := -1 }).r.selectedEntity with
  | none => exact ⟨_, Update_of_selected_none L s hsel⟩
  | some sel =>
    obtain ⟨target, hT⟩ := hintTarget_in_range L s hc
    obtain ⟨s', h, -⟩ := Update_hint L s sel target hsel hT
    exact ⟨s', h⟩

end HoverIndex

section CursorEdges

variable {F : Type}

/-- C12, with the condition the code relies on: when no registered candidate
carries the identity 0 or the identity of the hint, `Update` returns and, with
`hov` the hover-any value of the frame (some registry entry reports hovered and
is not the selected candidate when the loop visits it): the interactive cursor
is signalled exactly when `hov` is true and the stored `hovering` was false, the
default cursor exactly when `hov` is false and `hovering` was true, no other
cursor call is made, and afterwards `hovering` equals `hov`. -/
theorem cursor_transitions (L : Lib F) (s : State F)
    (hz : ∀ c ∈ s.cities, (s.basic c.BasicEntity).ID ≠ 0)
    (hh : ∀ c ∈ s.cities, (s.basic c.BasicEntity).ID ≠ s.roadHint.BasicEntity.ID) :
    ∃ (s' : State F) (hov : Bool) (evs cur : List (Event F)),
      Update L s = some s'
      ∧ (hov = true ↔ ∃ i e, s.cities.get? i = some e ∧ hoverHit (atVisit L s i e) e = true)
      ∧ s'.hovering = hov
      ∧ s'.events = s.events ++ evs ++ cur
      ∧ (∀ ev ∈ evs, notCursor ev)
      ∧ (hov = true ∧ s.hovering = false → cur = [Event.setCursor Cursor.CursorHand])
      ∧ (hov = false ∧ s.hovering = true → cur = [Event.setCursor Cursor.CursorNone])
      ∧ (hov = s.hovering → cur = []) := by
  obtain ⟨s', h⟩ := Update_returns L s (cityLoop_cities L s hz hh)
  obtain ⟨mid, regs, hs', hmh, hme, hregs⟩ := Update_shape L s s' h
  obtain ⟨evs, hev, hevs⟩ := cityLoop_events L s
  obtain ⟨cur, hcb, c1, c2, c3⟩ := cursorBlock_exact mid
    (cityLoop L 0 s.cities { r := s, hovered := false, hoveredId := -1 }).hovered
  have hmid : mid.hovering = s.hovering := by rw [hmh, cityLoop_hovering]
  rw [hmid] at c1 c2 c3
  refine ⟨s', (cityLoop L 0 s.cities { r := s, hovered := false, hoveredId := -1 }).hovered,
    evs ++ regs, cur, h, ?_, ?_, ?_, ?_, c1, c2, c3⟩
  · rw [cityLoop_hovered_iff L s.cities 0 { r := s, hovered := false, hoveredId := -1 }]
    constructor
    · rintro (h1 | h1)
      · cases h1
      · exact h1
    · intro h1
      exact Or.inr h1
  · rw [hs', hcb]
  · rw [hs', hcb]
    show mid.events ++ cur = _
    rw [hme, hev, List.append_assoc s.events evs regs]
  · intro ev hmem
    rcases List.mem_append.mp hmem with h1 | h1
    · exact hevs ev h1
    · exact hregs ev h1

theorem cursor_transitions_witness :
    ∃ (s' : State Num32) (cur : List (Event Num32)),
      Update ideal (demo [cand 0, cand 1] none (Road.zero ideal) (flags [] [1]) 100 0) = some s'
      ∧ (∃ i e,
          (demo [cand 0, cand 1] none (Road.zero ideal) (flags [] [1]) 100 0).cities.get? i
            = some e
          ∧ hoverHit (atVisit ideal
              (demo [cand 0, cand 1] none (Road.zero ideal) (flags [] [1]) 100 0) i e) e = true)
      ∧ (demo [cand 0, cand 1] none (Road.zero ideal) (flags [] [1]) 100 0).hovering = false
      ∧ s'.hovering = true
      ∧ cur = [Event.setCursor Cursor.CursorHand]
      ∧ s'.events.map Event.call = [(Call.setCursor, 0)] := by
  obtain ⟨s', hov, evs, cur, h1, k1, k2, -, -, k5, -, -⟩ := cursor_transitions ideal
    (demo [cand 0, cand 1] none (Road.zero ideal) (flags [] [1]) 100 0) (by decide) (by decide)
  have hit : ∃ i e,
      (demo [cand 0, cand 1] none (Road.zero ideal) (flags [] [1]) 100 0).cities.get? i = some e
      ∧ hoverHit (atVisit ideal
          (demo [cand 0, cand 1] none (Road.zero ideal) (flags [] [1]) 100 0) i e) e = true :=
    ⟨1, cand 1, rfl, rfl⟩
  have hhov : hov = true := k1.mpr hit
  have a2 : (Update ideal
      (demo [cand 0, cand 1] none (Road.zero ideal) (flags [] [1]) 100 0)).map
        (fun s => s.events.map Event.call) = some [(Call.setCursor, 0)] := rfl
  rw [h1] at a2
  simp only [Option.map_some', Option.some.injEq] at a2
  exact ⟨s', cur, h1, hit, rfl, by rw [k2, hhov], k5 ⟨hhov, rfl⟩, a2⟩

/-- C12, as the claim has it, fails: the registry holds four candidates, the last
of identity 0, nothing is selected, the hint is in its sentinel state and the
stored `hovering` is false; the first three candidates report clicked and the
last reports hovered. When the loop visits the last candidate it is not the
selected one and it reports hovered, so the hover-any value of the frame is
true. The loop makes three calls, none of them a cursor call, and `Update`
panics on `r.cities[3]` before it reaches the cursor block: no cursor is
signalled and `hovering` is not updated. -/
theorem hovered_frame_without_cursor_call :
    (demoZero (flags [0, 1, 2] [3])).hovering = false
    ∧ (demoZero (flags [0, 1, 2] [3])).cities.get? 3 = some (cand 3)
    ∧ hoverHit (atVisit ideal (demoZero (flags [0, 1, 2] [3])) 3 (cand 3)) (cand 3) = true
    ∧ (cityLoop ideal 0 (demoZero (flags [0, 1, 2] [3])).cities
        { r := demoZero (flags [0, 1, 2] [3]), hovered := false, hoveredId := -1 }).hovered = true
    ∧ (cityLoop ideal 0 (demoZero (flags [0, 1, 2] [3])).cities
        { r := demoZero (flags [0, 1, 2] [3]), hovered := false, hoveredId := -1 }).r.events.map
          Event.call = [(Call.renderAdd, 6), (Call.addRoad, 6), (Call.removeEntity, 0)]
    ∧ (cityLoop ideal 0 (demoZero (flags [0, 1, 2] [3])).cities
        { r := demoZero (flags [0, 1, 2] [3]), hovered := false, hoveredId := -1 }).r.hovering
          = false
    ∧ Update ideal (demoZero (flags [0, 1, 2] [3])) = none :=
  ⟨rfl, rfl, rfl, rfl, rfl, rfl, rfl⟩

end CursorEdges

section HoverIndexSafe

variable {F : Type}

theorem clickStep_selected (L : Lib F) (s : State F) (e : roadBuildingEntity) :
    (clickStep L s e).selectedEntity = s.selectedEntity
    ∨ ((clickStep L s e).selectedEntity = some e ∧ s.selectedEntity = none)
    ∨ (clickStep L s e).selectedEntity = none := by
  rcases clickStep_cases L s e with ⟨-, h⟩ | ⟨-, hn, h⟩ | ⟨sel, -, -, -, h⟩ | ⟨sel, -, -, -, h⟩
  · rw [h]; exact Or.inl rfl
  · rw [h]; exact Or.inr (Or.inl ⟨rfl, hn⟩)
  · rw [h]; exact Or.inr (Or.inr rfl)
  · rw [h]; exact Or.inr (Or.inr rfl)

theorem notSelected_ne (s : State F) (sel e : roadBuildingEntity)
    (hs : s.selectedEntity = some sel) (h : notSelected s e = true) :
    (s.basic e.BasicEntity).ID ≠ (s.basic sel.BasicEntity).ID := by
  unfold notSelected at h
  rw [hs] at h
  simp only [decide_eq_true_eq] at h
  exact fun heq => h heq.symm

/-- With pairwise distinct identities in the registry, the entry at `hoveredId`
is never the selected candidate. -/
theorem cityLoop_hovered_not_selected (L : Lib F) (s : State F)
    (hnd : ∀ i j e1 e2, s.cities.get? i = some e1 → s.cities.get? j = some e2 →
      (s.basic e1.BasicEntity).ID = (s.basic e2.BasicEntity).ID → i = j) :
    ∀ sel e,
      (cityLoop L 0 s.cities { r := s, hovered := false, hoveredId := -1 }).r.selectedEntity
        = some sel →
      0 ≤ (cityLoop L 0 s.cities { r := s, hovered := false, hoveredId := -1 }).hoveredId →
      s.cities.get?
        (cityLoop L 0 s.cities { r := s, hovered := false, hoveredId := -1 }).hoveredId.toNat
          = some e →
      (s.basic e.BasicEntity).ID ≠ (s.basic sel.BasicEntity).ID := by
  have := cityLoop_invariant L s.cities
    (fun k st => st.r.basic = s.basic
      ∧ (st.hoveredId = -1 ∨ (0 ≤ st.hoveredId ∧ st.hoveredId < (k : Int)))
      ∧ ∀ sel e, st.r.selectedEntity = some sel → 0 ≤ st.hoveredId →
          s.cities.get? st.hoveredId.toNat = some e →
          (s.basic e.BasicEntity).ID ≠ (s.basic sel.BasicEntity).ID)
    0 { r := s, hovered := false, hoveredId := -1 }
    ⟨rfl, Or.inl rfl, fun sel e _ h0 _ => absurd (show (0 : Int) ≤ -1 from h0) (by decide)⟩ ?_
  · exact this.2.2
  intro k ek st1 hk hP
  obtain ⟨hb, hbound, hinv⟩ := hP
  have hQ := hoverStep_quiet { st1 with r := clickStep L st1.r ek } (0 + k) ek
  have hbasic : (clickStep L st1.r ek).basic = s.basic := by
    rw [(clickStep_stable L st1.r ek).basic, hb]
  have hvsel : (visit L st1 (0 + k) ek).r.selectedEntity = (clickStep L st1.r ek).selectedEntity :=
    hQ.selectedEntity
  have hvbasic : (visit L st1 (0 + k) ek).r.basic = s.basic := by
    show (hoverStep { st1 with r := clickStep L st1.r ek } (0 + k) ek).r.basic = s.basic
    rw [hQ.basic]; exact hbasic
  have key : ((visit L st1 (0 + k) ek).hoveredId = ((0 + k : Nat) : Int)
        ∧ hoverHit (clickStep L st1.r ek) ek = true)
      ∨ ((visit L st1 (0 + k) ek).hoveredId = st1.hoveredId
        ∧ hoverHit (clickStep L st1.r ek) ek = false) :=
    hoverStep_hoveredId { st1 with r := clickStep L st1.r ek } (0 + k) ek
  show (visit L st1 (0 + k) ek).r.basic = s.basic
    ∧ ((visit L st1 (0 + k) ek).hoveredId = -1
      ∨ (0 ≤ (visit L st1 (0 + k) ek).hoveredId
        ∧ (visit L st1 (0 + k) ek).hoveredId < ((k + 1 : Nat) : Int)))
    ∧ ∀ sel e, (visit L st1 (0 + k) ek).r.selectedEntity = some sel →
        0 ≤ (visit L st1 (0 + k) ek).hoveredId →
        s.cities.get? (visit L st1 (0 + k) ek).hoveredId.toNat = some e →
        (s.basic e.BasicEntity).ID ≠ (s.basic sel.BasicEntity).ID
  refine ⟨hvbasic, ?_, ?_⟩
  · rcases key with ⟨h, -⟩ | ⟨h, -⟩
    · rw [h]; right; push_cast; omega
    · rw [h]
      rcases hbound with hP | hP
      · exact Or.inl hP
      · right; push_cast; omega
  · intro sel e hs h0 he
    rw [hvsel] at hs
    rcases key with ⟨h, hit⟩ | ⟨h, -⟩
    · rw [h] at he
      simp only [Nat.zero_add, Int.toNat_ofNat] at he
      rw [hk] at he
      obtain rfl := Option.some.inj he
      unfold hoverHit at hit
      rw [Bool.and_eq_true] at hit
      have := notSelected_ne (clickStep L st1.r ek) sel ek hs hit.1
      rw [hbasic] at this
      exact this
    · rw [h] at he h0
      rcases clickStep_selected L st1.r ek with hc | ⟨hc, -⟩ | hc
      · rw [hc] at hs
        exact hinv sel e hs h0 he
      · rw [hc] at hs
        obtain rfl := Option.some.inj hs
        intro heq
        have hik := hnd _ _ e ek he hk heq
        rcases hbound with hP | hP
        · omega
        · omega
      · rw [hc] at hs
        cases hs

/-- C19, with the condition the code relies on: when no registered candidate
carries the identity 0 or the identity of the hint, the loop leaves the registry
as it is, `hoveredId` is `-1` or a valid index into it, the lookup
`r.cities[hoveredId]` succeeds and `Update` returns; and when the identities of
the registry are pairwise distinct, the candidate at `hoveredId` is not the
selected entity. -/
theorem hover_index_safe (L : Lib F) (s : State F)
    (hz : ∀ c ∈ s.cities, (s.basic c.BasicEntity).ID ≠ 0)
    (hh : ∀ c ∈ s.cities, (s.basic c.BasicEntity).ID ≠ s.roadHint.BasicEntity.ID) :
    ((cityLoop L 0 s.cities { r := s, hovered := false, hoveredId := -1 }).hoveredId = -1
      ∨ (0 ≤ (cityLoop L 0 s.cities { r := s, hovered := false, hoveredId := -1 }).hoveredId
        ∧ (cityLoop L 0 s.cities { r := s, hovered := false, hoveredId := -1 }).hoveredId
          < ((cityLoop L 0 s.cities
              { r := s, hovered := false, hoveredId := -1 }).r.cities.length : Int)))
    ∧ (∃ target,
        hintTarget L (cityLoop L 0 s.cities { r := s, hovered := false, hoveredId := -1 }).r
          (cityLoop L 0 s.cities { r := s, hovered := false, hoveredId := -1 }).hoveredId
            = some target)
    ∧ (∃ s', Update L s = some s')
    ∧ ((∀ i j e1 e2, s.cities.get? i = some e1 → s.cities.get? j = some e2 →
          (s.basic e1.BasicEntity).ID = (s.basic e2.BasicEntity).ID → i = j) →
        ∀ sel e,
          (cityLoop L 0 s.cities { r := s, hovered := false, hoveredId := -1 }).r.selectedEntity
            = some sel →
          0 ≤ (cityLoop L 0 s.cities { r := s, hovered := false, hoveredId := -1 }).hoveredId →
          (cityLoop L 0 s.cities { r := s, hovered := false, hoveredId := -1 }).r.cities.get?
            (cityLoop L 0 s.cities { r := s, hovered := false, hoveredId := -1 }).hoveredId.toNat
              = some e →
          (s.basic e.BasicEntity).ID ≠ (s.basic sel.BasicEntity).ID) := by
  have hc := cityLoop_cities L s hz hh
  refine ⟨?_, hintTarget_in_range L s hc, Update_returns L s hc, ?_⟩
  · rw [hc]; exact cityLoop_hoveredId_bound L s
  · intro hnd sel e hs h0 he
    rw [hc] at he
    exact cityLoop_hovered_not_selected L s hnd sel e hs h0 he

theorem hover_index_safe_witness :
    (cityLoop ideal 0
        (demo [cand 0, cand 1, cand 2] (some (cand 0)) (hintAt 100 0) (flags [] [1, 2]) 0 0).cities
        { r := demo [cand 0, cand 1, cand 2] (some (cand 0)) (hintAt 100 0) (flags [] [1, 2]) 0 0,
          hovered := false, hoveredId := -1 }).hoveredId = 2
    ∧ ∃ s', Update ideal
        (demo [cand 0, cand 1, cand 2] (some (cand 0)) (hintAt 100 0) (flags [] [1, 2]) 0 0)
          = some s' :=
  ⟨rfl, (hover_index_safe ideal
    (demo [cand 0, cand 1, cand 2] (some (cand 0)) (hintAt 100 0) (flags [] [1, 2]) 0 0)
    (by decide) (by decide)).2.2.1⟩

/-- C19, as the claim has it, fails: the registry holds four candidates, the last
of identity 0, nothing is selected and the hint is in its sentinel state; the
first three candidates report clicked and the last reports hovered. The first
click selects, the second builds a road and removes the entity of identity 0
from the world, which takes the last candidate out of the registry, the third
selects again, and the last entry of the loop sets `hoveredId` to 3. The
registry now has three entries: the lookup `r.cities[3]` is out of range and
`Update` panics. -/
theorem hover_index_out_of_range :
    (cityLoop ideal 0 (demoZero (flags [0, 1, 2] [3])).cities
        { r := demoZero (flags [0, 1, 2] [3]), hovered := false, hoveredId := -1 }).hoveredId = 3
    ∧ (cityLoop ideal 0 (demoZero (flags [0, 1, 2] [3])).cities
        { r := demoZero (flags [0, 1, 2] [3]), hovered := false,
          hoveredId := -1 }).r.cities = [cand 0, cand 1, cand 2]
    ∧ (cityLoop ideal 0 (demoZero (flags [0, 1, 2] [3])).cities
        { r := demoZero (flags [0, 1, 2] [3]), hovered := false,
          hoveredId := -1 }).r.selectedEntity = some (cand 2)
    ∧ hintTarget ideal
        (cityLoop ideal 0 (demoZero (flags [0, 1, 2] [3])).cities
          { r := demoZero (flags [0, 1, 2] [3]), hovered := false, hoveredId := -1 }).r
        (cityLoop ideal 0 (demoZero (flags [0, 1, 2] [3])).cities
          { r := demoZero (flags [0, 1, 2] [3]), hovered := false, hoveredId := -1 }).hoveredId
          = none
    ∧ Update ideal (demoZero (flags [0, 1, 2] [3])) = none :=
  ⟨rfl, rfl, rfl, rfl, rfl⟩

end HoverIndexSafe

section FarEndpoint

/-- When some entry takes the hover branch, there is a last one. -/
theorem last_hit_exists {F : Type} (L : Lib F) (s : State F)
    (h : ∃ k e, s.cities.get? k = some e ∧ hoverHit (atVisit L s k e) e = true) :
    ∃ i e, s.cities.get? i = some e ∧ hoverHit (atVisit L s i e) e = true
      ∧ ∀ j c, i < j → s.cities.get? j = some c → hoverHit (atVisit L s j c) c = false := by
  classical
  obtain ⟨k, e, hk, hit⟩ := h
  have hkl : k < s.cities.length := by
    rcases Nat.lt_or_ge k s.cities.length with h | h
    · exact h
    · rw [List.get?_eq_none.mpr h] at hk; cases hk
  have hP := Nat.findGreatest_spec
    (P := fun i => ∃ e, s.cities.get? i = some e ∧ hoverHit (atVisit L s i e) e = true)
    (Nat.le_of_lt hkl) ⟨e, hk, hit⟩
  obtain ⟨e1, h1, h2⟩ := hP
  refine ⟨_, e1, h1, h2, ?_⟩
  intro j c hj hjc
  have hjl : j < s.cities.length := by
    rcases Nat.lt_or_ge j s.cities.length with h | h
    · exact h
    · rw [List.get?_eq_none.mpr h] at hjc; cases hjc
  have hn := Nat.findGreatest_is_greatest hj (Nat.le_of_lt hjl)
  cases hh : hoverHit (atVisit L s j c) c with
  | false => rfl
  | true => exact absurd ⟨c, hjc, hh⟩ hn

/-- C18, with the condition the code relies on: no registered candidate carries
the identity 0 or the identity of the hint, and the frame leaves the loop with
`sel` selected. `Update` returns. When some registry entry takes the hover
branch (it reports hovered and is not the selected candidate when the loop
visits it), the hint is placed from the centre of the selected candidate
towards the centre `((Max.X-Min.X)/2 + Min.X, (Max.Y-Min.Y)/2 + Min.Y)` of the
bounding box of such an entry, the last one, and its colour is
`colorRoadAvailable`. When no entry does, the hint is placed towards the pointer
position `(MouseX, MouseY)` and its colour is `colorRoadUnavailable`. The
arithmetic `L` is arbitrary; `hptr` says that the centre of the empty box at the
pointer is the pointer, which holds of a finite `float32` pointer. -/
theorem far_endpoint_and_tint {F : Type} (L : Lib F) (s : State F) (sel : roadBuildingEntity)
    (hz : ∀ c ∈ s.cities, (s.basic c.BasicEntity).ID ≠ 0)
    (hh : ∀ c ∈ s.cities, (s.basic c.BasicEntity).ID ≠ s.roadHint.BasicEntity.ID)
    (hsel : (cityLoop L 0 s.cities
      { r := s, hovered := false, hoveredId := -1 }).r.selectedEntity = some sel)
    (hptr : center L (L.spaceAABB { SpaceComponent.zero L with
        Position := { X := s.mouseTracker.MouseX, Y := s.mouseTracker.MouseY } })
      = { X := s.mouseTracker.MouseX, Y := s.mouseTracker.MouseY }) :
    ((∃ k e, s.cities.get? k = some e ∧ hoverHit (atVisit L s k e) e = true) →
      ∃ i e s', s.cities.get? i = some e ∧ hoverHit (atVisit L s i e) e = true
        ∧ (∀ j c, i < j → s.cities.get? j = some c → hoverHit (atVisit L s j c) c = false)
        ∧ Update L s = some s'
        ∧ s'.roadHint.SpaceComponent
            = hintSpace L
                { X := L.add (L.div (L.sub (L.spaceAABB (s.space e.SpaceComponent)).Max.X
                      (L.spaceAABB (s.space e.SpaceComponent)).Min.X) (L.lit 2))
                    (L.spaceAABB (s.space e.SpaceComponent)).Min.X
                  Y := L.add (L.div (L.sub (L.spaceAABB (s.space e.SpaceComponent)).Max.Y
                      (L.spaceAABB (s.space e.SpaceComponent)).Min.Y) (L.lit 2))
                    (L.spaceAABB (s.space e.SpaceComponent)).Min.Y }
                { X := L.add (L.div (L.sub (L.spaceAABB (s.space sel.SpaceComponent)).Max.X
                      (L.spaceAABB (s.space sel.SpaceComponent)).Min.X) (L.lit 2))
                    (L.spaceAABB (s.space sel.SpaceComponent)).Min.X
                  Y := L.add (L.div (L.sub (L.spaceAABB (s.space sel.SpaceComponent)).Max.Y
                      (L.spaceAABB (s.space sel.SpaceComponent)).Min.Y) (L.lit 2))
                    (L.spaceAABB (s.space sel.SpaceComponent)).Min.Y }
        ∧ s'.roadHint.RenderComponent.Color = colorRoadAvailable)
    ∧ ((¬ ∃ k e, s.cities.get? k = some e ∧ hoverHit (atVisit L s k e) e = true) →
      ∃ s', Update L s = some s'
        ∧ s'.roadHint.SpaceComponent
            = hintSpace L { X := s.mouseTracker.MouseX, Y := s.mouseTracker.MouseY }
                { X := L.add (L.div (L.sub (L.spaceAABB (s.space sel.SpaceComponent)).Max.X
                      (L.spaceAABB (s.space sel.SpaceComponent)).Min.X) (L.lit 2))
                    (L.spaceAABB (s.space sel.SpaceComponent)).Min.X
                  Y := L.add (L.div (L.sub (L.spaceAABB (s.space sel.SpaceComponent)).Max.Y
                      (L.spaceAABB (s.space sel.SpaceComponent)).Min.Y) (L.lit 2))
                    (L.spaceAABB (s.space sel.SpaceComponent)).Min.Y }
        ∧ s'.roadHint.RenderComponent.Color = colorRoadUnavailable) := by
  have hS := cityLoop_stable L s.cities 0 { r := s, hovered := false, hoveredId := -1 }
  have hc := cityLoop_cities L s hz hh
  constructor
  · intro h
    obtain ⟨i, e, hi, hit, hlast⟩ := last_hit_exists L s h
    obtain ⟨h1, -⟩ := cityLoop_last_hit_visit L s.cities 0
      { r := s, hovered := false, hoveredId := -1 } i e hi hit hlast
    have h1' : (cityLoop L 0 s.cities
        { r := s, hovered := false, hoveredId := -1 }).hoveredId = (i : Int) := by
      rw [h1, Nat.zero_add]
    have hT : hintTarget L
        (cityLoop L 0 s.cities { r := s, hovered := false, hoveredId := -1 }).r
        (cityLoop L 0 s.cities { r := s, hovered := false, hoveredId := -1 }).hoveredId
          = some (s.space e.SpaceComponent) := by
      rw [h1', hintTarget_hovered L _ i e (by rw [hc]; exact hi), hS.space]
    obtain ⟨s', u1, -, u3, u4⟩ := Update_hint L s sel _ hsel hT
    refine ⟨i, e, s', hi, hit, hlast, u1, ?_, ?_⟩
    · rw [u3]
      rfl
    · rw [u4, h1', if_pos (Int.ofNat_nonneg i)]
  · intro h
    obtain ⟨h1, -⟩ := cityLoop_no_hit_visit L s.cities 0
      { r := s, hovered := false, hoveredId := -1 }
      (fun k c hk => by
        cases hh : hoverHit (clickStep L (cityLoop L 0 (s.cities.take k)
          { r := s, hovered := false, hoveredId := -1 }).r c) c with
        | false => rfl
        | true => exact absurd ⟨k, c, hk, hh⟩ h)
    have h1' : (cityLoop L 0 s.cities
        { r := s, hovered := false, hoveredId := -1 }).hoveredId = -1 := h1
    have hT : hintTarget L
        (cityLoop L 0 s.cities { r := s, hovered := false, hoveredId := -1 }).r
        (cityLoop L 0 s.cities { r := s, hovered := false, hoveredId := -1 }).hoveredId
          = some { SpaceComponent.zero L with
              Position := { X := s.mouseTracker.MouseX, Y := s.mouseTracker.MouseY } } := by
      rw [h1', hintTarget_pointer, hS.mouseTracker]
    obtain ⟨s', u1, -, u3, u4⟩ := Update_hint L s sel _ hsel hT
    refine ⟨s', u1, ?_, ?_⟩
    · rw [u3, hptr]
      rfl
    · rw [u4, h1']
      rfl

theorem far_endpoint_and_tint_witness :
    (∃ s', Update ideal
        (demo [cand 0, cand 1, cand 2] (some (cand 0)) (hintAt 3 4) (flags [] [1]) 3 4) = some s'
      ∧ s'.roadHint.SpaceComponent = hintSpace ideal (pt 100 0) (pt 0 0)
      ∧ s'.roadHint.RenderComponent.Color = colorRoadAvailable)
    ∧ (∃ s', Update ideal
        (demo [cand 0, cand 1, cand 2] (some (cand 0)) (hintAt 100 0) (flags [] []) 3 4) = some s'
      ∧ s'.roadHint.SpaceComponent = hintSpace ideal (pt 3 4) (pt 0 0)
      ∧ s'.roadHint.RenderComponent.Color = colorRoadUnavailable) := by
  have hbox : ∀ x y : ℝ,
      ({ X := ideal.add (ideal.div (ideal.sub (ideal.spaceAABB (box x y)).Max.X
            (ideal.spaceAABB (box x y)).Min.X) (ideal.lit 2)) (ideal.spaceAABB (box x y)).Min.X
         Y := ideal.add (ideal.div (ideal.sub (ideal.spaceAABB (box x y)).Max.Y
            (ideal.spaceAABB (box x y)).Min.Y) (ideal.lit 2)) (ideal.spaceAABB (box x y)).Min.Y }
        : Point Num32) = pt (x + 5) (y + 5) := fun x y => center_box x y
  constructor
  · obtain ⟨i, e, s', hi, hit, hlast, u1, u3, u4⟩ := (far_endpoint_and_tint ideal
      (demo [cand 0, cand 1, cand 2] (some (cand 0)) (hintAt 3 4) (flags [] [1]) 3 4)
      (cand 0) (by decide) (by decide) rfl (center_pointer 3 4)).1 ⟨1, cand 1, rfl, rfl⟩
    have hcs : (demo [cand 0, cand 1, cand 2] (some (cand 0)) (hintAt 3 4)
        (flags [] [1]) 3 4).cities = [cand 0, cand 1, cand 2] := rfl
    have he : e = cand 1 := by
      rw [hcs] at hi
      obtain _ | _ | _ | i := i
      · simp only [List.get?_cons_zero, Option.some.injEq] at hi
        subst hi
        exact absurd hit (by decide)
      · simp only [List.get?_cons_succ, List.get?_cons_zero, Option.some.injEq] at hi
        exact hi.symm
      · simp only [List.get?_cons_succ, List.get?_cons_zero, Option.some.injEq] at hi
        subst hi
        exact absurd hit (by decide)
      · simp at hi
    subst he
    refine ⟨s', u1, ?_, u4⟩
    rw [u3]
    have e1 : (demo [cand 0, cand 1, cand 2] (some (cand 0)) (hintAt 3 4)
        (flags [] [1]) 3 4).space (cand 1).SpaceComponent = box 95 (-5) := rfl
    have e0 : (demo [cand 0, cand 1, cand 2] (some (cand 0)) (hintAt 3 4)
        (flags [] [1]) 3 4).space (cand 0).SpaceComponent = box (-5) (-5) := rfl
    rw [e1, e0, hbox, hbox]
    norm_num
  · obtain ⟨s', u1, u3, u4⟩ := (far_endpoint_and_tint ideal
      (demo [cand 0, cand 1, cand 2] (some (cand 0)) (hintAt 100 0) (flags [] []) 3 4)
      (cand 0) (by decide) (by decide) rfl (center_pointer 3 4)).2 (by
        rintro ⟨k, e, hk, hit⟩
        have hcs : (demo [cand 0, cand 1, cand 2] (some (cand 0)) (hintAt 100 0)
            (flags [] []) 3 4).cities = [cand 0, cand 1, cand 2] := rfl
        rw [hcs] at hk
        obtain _ | _ | _ | k := k
        · simp only [List.get?_cons_zero, Option.some.injEq] at hk
          subst hk
          exact absurd hit (by decide)
        · simp only [List.get?_cons_succ, List.get?_cons_zero, Option.some.injEq] at hk
          subst hk
          exact absurd hit (by decide)
        · simp only [List.get?_cons_succ, List.get?_cons_zero, Option.some.injEq] at hk
          subst hk
          exact absurd hit (by decide)
        · simp at hk)
    refine ⟨s', u1, ?_, u4⟩
    rw [u3]
    have e0 : (demo [cand 0, cand 1, cand 2] (some (cand 0)) (hintAt 100 0)
        (flags [] []) 3 4).space (cand 0).SpaceComponent = box (-5) (-5) := rfl
    rw [e0, hbox]
    have : (demo [cand 0, cand 1, cand 2] (some (cand 0)) (hintAt 100 0)
        (flags [] []) 3 4).mouseTracker.MouseX = Num32.val 3
        ∧ (demo [cand 0, cand 1, cand 2] (some (cand 0)) (hintAt 100 0)
        (flags [] []) 3 4).mouseTracker.MouseY = Num32.val 4 := ⟨rfl, rfl⟩
    rw [this.1, this.2]
    norm_num
    rfl

/-- C18, as the claim has it, fails: the registry holds four candidates, the last
of identity 0, nothing is selected and the hint is in its sentinel state; the
first three candidates report clicked and the last reports hovered. The frame
leaves the loop with the candidate at the index 2 selected, and the last
candidate reported hovered while it was not the selected one; but the second
click has removed it from the registry, `Update` panics on `r.cities[3]` and
writes no placement and no colour: the hint is still the sentinel when the
loop ends. -/
theorem hovered_frame_without_hint :
    (cityLoop ideal 0 (demoZero (flags [0, 1, 2] [3])).cities
        { r := demoZero (flags [0, 1, 2] [3]), hovered := false, hoveredId := -1 }).r.selectedEntity
      = some (cand 2)
    ∧ (demoZero (flags [0, 1, 2] [3])).cities.get? 3 = some (cand 3)
    ∧ ((demoZero (flags [0, 1, 2] [3])).mouse (cand 3).MouseComponent).Hovered = true
    ∧ notSelected (atVisit ideal (demoZero (flags [0, 1, 2] [3])) 3 (cand 3)) (cand 3) = true
    ∧ (cityLoop ideal 0 (demoZero (flags [0, 1, 2] [3])).cities
        { r := demoZero (flags [0, 1, 2] [3]), hovered := false, hoveredId := -1 }).r.roadHint
      = Road.zero ideal
    ∧ hintBlock ideal
        (cityLoop ideal 0 (demoZero (flags [0, 1, 2] [3])).cities
          { r := demoZero (flags [0, 1, 2] [3]), hovered := false, hoveredId := -1 }).r
        (cityLoop ideal 0 (demoZero (flags [0, 1, 2] [3])).cities
          { r := demoZero (flags [0, 1, 2] [3]), hovered := false, hoveredId := -1 }).hoveredId
        (cand 2) = none
    ∧ Update ideal (demoZero (flags [0, 1, 2] [3])) = none :=
  ⟨rfl, rfl, rfl, rfl, rfl, rfl, rfl⟩

end FarEndpoint

section CommitGuard

variable {F : Type}

/-- C16, as the code has it: there is no guard on the state of the hint. The
click handling for a candidate `e` of another identity than the selected
candidate `sel`, while the hint is in its sentinel state (identity 0), carries
the commit out: a road with a fresh identity from `sel` to `e` is built with the
placement the hint holds, registered with the systems of the world and appended
to the road list of `sel`; `World.RemoveEntity` is called with the identity 0,
the hint is reset and the selection is emptied. -/
theorem commit_without_guard (L : Lib F) (s : State F) (sel e : roadBuildingEntity)
    (hsel : s.selectedEntity = some sel)
    (hc : (s.mouse e.MouseComponent).Clicked = true)
    (hid : (s.basic sel.BasicEntity).ID ≠ (s.basic e.BasicEntity).ID)
    (h0 : s.roadHint.BasicEntity.ID = 0) :
    ∃ road : Road F,
      road.BasicEntity = { id := s.idInc + 1 }
      ∧ road.RoadComponent.Typ = RoadType.RoadBasic
      ∧ road.RoadComponent.From = s.basic sel.BasicEntity
      ∧ road.RoadComponent.To = s.basic e.BasicEntity
      ∧ road.SpaceComponent = s.roadHint.SpaceComponent
      ∧ ((clickStep L s e).city sel.CityComponent).Roads
          = (s.city sel.CityComponent).Roads ++ [road]
      ∧ (clickStep L s e).events
          = s.events ++ roadRegistrations s.world road ++ [Event.removeEntity { id := 0 }]
      ∧ (clickStep L s e).idInc = s.idInc + 1
      ∧ (clickStep L s e).roadHint = Road.zero L
      ∧ (clickStep L s e).selectedEntity = none := by
  obtain ⟨k1, -, -, -, -, -, -, k8, k9, k10, k11, -⟩ := clickStep_commit L s sel e hsel hc hid
  have hb : s.roadHint.BasicEntity = { id := 0 } := by
    cases hh : s.roadHint.BasicEntity with
    | mk n =>
      rw [hh] at h0
      have : n = 0 := h0
      rw [this]
  rw [hb] at k10
  exact ⟨actualRoad L s { id := s.idInc + 1 } sel e, rfl, rfl, rfl, rfl, rfl, k11, k10, k9, k8, k1⟩

theorem commit_without_guard_witness :
    ∃ road : Road Num32,
      road.BasicEntity = { id := 5 + 1 }
      ∧ road.RoadComponent.Typ = RoadType.RoadBasic
      ∧ road.RoadComponent.From = { id := 1 }
      ∧ road.RoadComponent.To = { id := 2 }
      ∧ road.SpaceComponent = SpaceComponent.zero ideal
      ∧ ((clickStep ideal
            (demo [cand 0, cand 1] (some (cand 0)) (Road.zero ideal) (flags [0, 1] []) 0 0)
            (cand 1)).city 0).Roads = [] ++ [road]
      ∧ (clickStep ideal
            (demo [cand 0, cand 1] (some (cand 0)) (Road.zero ideal) (flags [0, 1] []) 0 0)
            (cand 1)).events
          = [] ++ roadRegistrations [System.MouseSystem, System.RenderSystem,
              System.CommuterSystem, System.RoadBuildingSystem] road
            ++ [Event.removeEntity { id := 0 }]
      ∧ (clickStep ideal
            (demo [cand 0, cand 1] (some (cand 0)) (Road.zero ideal) (flags [0, 1] []) 0 0)
            (cand 1)).idInc = 5 + 1
      ∧ (clickStep ideal
            (demo [cand 0, cand 1] (some (cand 0)) (Road.zero ideal) (flags [0, 1] []) 0 0)
            (cand 1)).roadHint = Road.zero ideal
      ∧ (clickStep ideal
            (demo [cand 0, cand 1] (some (cand 0)) (Road.zero ideal) (flags [0, 1] []) 0 0)
            (cand 1)).selectedEntity = none :=
  commit_without_guard ideal
    (demo [cand 0, cand 1] (some (cand 0)) (Road.zero ideal) (flags [0, 1] []) 0 0)
    (cand 0) (cand 1) rfl rfl (by decide) rfl

/-- C16, as the claim has it, fails: nothing is selected, the hint is in its
sentinel state and the two candidates of the registry, of the identities 1 and
2, both report clicked in the same frame. The first click selects the first
candidate; the second click is on a candidate distinct from the selected one
while the hint is still the sentinel, and the commit is not skipped: `Update`
returns with one road from 1 to 2 in the road list of the first candidate,
placed at the zero placement of the sentinel, registered with the render and
commuter systems, and with `World.RemoveEntity` called for the identity 0. -/
theorem sentinel_commit_builds_road :
    (demo [cand 0, cand 1] none (Road.zero ideal) (flags [0, 1] []) 0 0).selectedEntity = none
    ∧ (demo [cand 0, cand 1] none (Road.zero ideal) (flags [0, 1] []) 0 0).roadHint
        = Road.zero ideal
    ∧ (atVisit ideal (demo [cand 0, cand 1] none (Road.zero ideal) (flags [0, 1] []) 0 0) 0
        (cand 0)).selectedEntity = some (cand 0)
    ∧ (atVisit ideal (demo [cand 0, cand 1] none (Road.zero ideal) (flags [0, 1] []) 0 0) 0
        (cand 0)).roadHint.BasicEntity.ID = 0
    ∧ ∃ (s' : State Num32) (road : Road Num32),
        Update ideal (demo [cand 0, cand 1] none (Road.zero ideal) (flags [0, 1] []) 0 0)
          = some s'
        ∧ (s'.city 0).Roads = [road]
        ∧ road.BasicEntity = { id := 6 }
        ∧ road.RoadComponent.From = { id := 1 }
        ∧ road.RoadComponent.To = { id := 2 }
        ∧ road.SpaceComponent = SpaceComponent.zero ideal
        ∧ s'.events.map Event.call
            = [(Call.renderAdd, 6), (Call.addRoad, 6), (Call.removeEntity, 0)]
        ∧ s'.idInc = 6
        ∧ s'.selectedEntity = none :=
  ⟨rfl, rfl, rfl, rfl, _, _, rfl, rfl, rfl, rfl, rfl, rfl, rfl, rfl, rfl⟩

end CommitGuard

section HoverReset

variable {F : Type}

theorem clickStep_isHovered (L : Lib F) (s : State F) (e : roadBuildingEntity) (p : Nat) :
    ((clickStep L s e).city p).isHovered = (s.city p).isHovered := by
  rcases clickStep_cases L s e with ⟨-, h⟩ | ⟨-, -, h⟩ | ⟨sel, -, -, -, h⟩ | ⟨sel, -, -, -, h⟩
  · rw [h]
  · rw [h]; rfl
  · rw [h]; rfl
  · rw [h]
    obtain ⟨cs, hb⟩ := buildRoad_eq L s sel e
    rw [hb]
    show (Function.update s.city sel.CityComponent _ p).isHovered = _
    by_cases hp : p = sel.CityComponent
    · subst hp
      rw [Function.update_same]
    · rw [Function.update_noteq hp]

/-- The hover handling never takes an `isHovered` flag back. -/
theorem hoverStep_isHovered (st : LoopState F) (index : Nat) (e : roadBuildingEntity) (p : Nat)
    (h : (st.r.city p).isHovered = true) :
    ((hoverStep st index e).r.city p).isHovered = true := by
  unfold hoverStep
  split
  · split
    · show ((setIsHovered (setColor st.r e.RenderComponent colorHover) e.CityComponent
        true).city p).isHovered = true
      unfold setIsHovered setColor
      by_cases hp : p = e.CityComponent
      · subst hp
        simp
      · simp only [Function.update_noteq hp]
        exact h
    · split
      · exact h
      · exact h
  · exact h

/-- No frame clears an `isHovered` flag: a city component marked hovered before
`Update` is marked hovered after it. -/
theorem Update_isHovered (L : Lib F) (s s' : State F) (h : Update L s = some s') (p : Nat)
    (hp : (s.city p).isHovered = true) : (s'.city p).isHovered = true := by
  rw [(Update_tail L s s' h).1]
  refine cityLoop_invariant L s.cities (fun _ st1 => (st1.r.city p).isHovered = true) 0
    { r := s, hovered := false, hoveredId := -1 } hp ?_
  intro k e st1 _ hst
  show ((hoverStep { st1 with r := clickStep L st1.r e } (0 + k) e).r.city p).isHovered = true
  refine hoverStep_isHovered _ _ _ _ ?_
  show ((clickStep L st1.r e).city p).isHovered = true
  rw [clickStep_isHovered]
  exact hst

/-- C17: two frames from the initial state with two candidates. In the first the
candidate at the address 1 reports hovered: it gets the hover colour and its
`isHovered` flag is set. In the second nothing is selected and no candidate
reports hovered: the colour of that candidate is back to the default colour,
but its `isHovered` flag is still true. -/
theorem hover_reset_keeps_flag :
    ∃ s1 s2,
      frame ideal started (input [] [1] 100 0) = some s1
      ∧ (s1.render 1).Color = colorHover
      ∧ (s1.city 1).isHovered = true
      ∧ s1.selectedEntity = none
      ∧ ((input [] [] 3 4).mouse 1).Hovered = false
      ∧ frame ideal s1 (input [] [] 3 4) = some s2
      ∧ (s2.render 1).Color = colorDefault
      ∧ (s2.city 1).isHovered = true :=
  ⟨_, _, rfl, rfl, rfl, rfl, rfl, rfl, rfl, rfl⟩

end HoverReset

section Highlight

variable {F : Type}

theorem notSelected_quiet {s t : State F} (h : Quiet s t) (e : roadBuildingEntity) :
    notSelected t e = notSelected s e := by
  unfold notSelected
  rw [h.selectedEntity, h.basic]

theorem hoverStep_render_other (st : LoopState F) (index : Nat) (e : roadBuildingEntity)
    (p : Nat) (hp : p ≠ e.RenderComponent) :
    (hoverStep st index e).r.render p = st.r.render p := by
  unfold hoverStep
  split
  · split
    · show Function.update st.r.render e.RenderComponent _ p = _
      rw [Function.update_noteq hp]
    · split
      · show Function.update st.r.render e.RenderComponent _ p = _
        rw [Function.update_noteq hp]
      · rfl
  · rfl

theorem hoverStep_city_other (st : LoopState F) (index : Nat) (e : roadBuildingEntity)
    (q : Nat) (hq : q ≠ e.CityComponent) :
    (hoverStep st index e).r.city q = st.r.city q := by
  unfold hoverStep
  split
  · split
    · show Function.update _ e.CityComponent _ q = _
      rw [Function.update_noteq hq]
      rfl
    · split
      · rfl
      · rfl
  · rfl

/-- The colour the hover handling leaves on the render component of the entry it
handles. -/
theorem hoverStep_color_self (st : LoopState F) (index : Nat) (e : roadBuildingEntity) :
    (hoverHit st.r e = true →
      ((hoverStep st index e).r.render e.RenderComponent).Color = colorHover)
    ∧ (notSelected st.r e = true → (st.r.mouse e.MouseComponent).Hovered = false →
        (st.r.city e.CityComponent).isHovered = true →
        ((hoverStep st index e).r.render e.RenderComponent).Color = colorDefault)
    ∧ (notSelected st.r e = false
        ∨ ((st.r.mouse e.MouseComponent).Hovered = false
          ∧ (st.r.city e.CityComponent).isHovered = false) →
        (hoverStep st index e).r.render e.RenderComponent = st.r.render e.RenderComponent) := by
  refine ⟨?_, ?_, ?_⟩
  · intro h
    unfold hoverHit at h
    rw [Bool.and_eq_true] at h
    unfold hoverStep
    rw [if_pos h.1, if_pos h.2]
    simp [setIsHovered, setColor]
  · intro h1 h2 h3
    unfold hoverStep
    rw [if_pos h1, h2, if_neg (by simp), if_pos h3]
    simp [setColor]
  · intro h
    unfold hoverStep
    rcases h with h | ⟨h2, h3⟩
    · rw [h]
      simp
    · rw [h2, h3]
      simp

/-- A loop without clicks over entries with separate render and city
components: the colour of every entry is decided by its own hover handling, on
the flags the loop started with. -/
theorem cityLoop_hover_colors (L : Lib F) (l : List roadBuildingEntity) :
    ∀ (index : Nat) (st : LoopState F),
      (∀ c ∈ l, (st.r.mouse c.MouseComponent).Clicked = false) →
      (l.map (fun c => c.RenderComponent)).Nodup →
      (l.map (fun c => c.CityComponent)).Nodup →
      (∀ p, (∀ c ∈ l, p ≠ c.RenderComponent) →
        (cityLoop L index l st).r.render p = st.r.render p)
      ∧ ∀ e ∈ l,
        (hoverHit st.r e = true →
          ((cityLoop L index l st).r.render e.RenderComponent).Color = colorHover)
        ∧ (notSelected st.r e = true → (st.r.mouse e.MouseComponent).Hovered = false →
            (st.r.city e.CityComponent).isHovered = true →
            ((cityLoop L index l st).r.render e.RenderComponent).Color = colorDefault)
        ∧ (notSelected st.r e = false
            ∨ ((st.r.mouse e.MouseComponent).Hovered = false
              ∧ (st.r.city e.CityComponent).isHovered = false) →
            (cityLoop L index l st).r.render e.RenderComponent
              = st.r.render e.RenderComponent) := by
  induction l with
  | nil =>
    intro index st _ _ _
    exact ⟨fun _ _ => rfl, fun e he => by cases he⟩
  | cons c rest ih =>
    intro index st hc hr hcity
    have Q := visit_quiet L st index c (hc c (List.mem_cons_self _ _))
    have hv : visit L st index c = hoverStep st index c := by
      unfold visit
      rw [clickStep_of_not_clicked L st.r c (hc c (List.mem_cons_self _ _))]
    rw [List.map_cons, List.nodup_cons] at hr hcity
    obtain ⟨F1, E1⟩ := ih (index + 1) (visit L st index c)
      (fun c' hcm => by rw [Q.mouse]; exact hc c' (List.mem_cons_of_mem _ hcm)) hr.2 hcity.2
    have hself : (cityLoop L (index + 1) rest (visit L st index c)).r.render c.RenderComponent
        = (hoverStep st index c).r.render c.RenderComponent := by
      rw [F1 c.RenderComponent (fun c' hcm heq =>
        hr.1 (List.mem_map.mpr ⟨c', hcm, heq.symm⟩)), hv]
    constructor
    · intro p hp
      show (cityLoop L (index + 1) rest (visit L st index c)).r.render p = _
      rw [F1 p (fun c' hcm => hp c' (List.mem_cons_of_mem _ hcm)), hv]
      exact hoverStep_render_other st index c p (hp c (List.mem_cons_self _ _))
    · intro e he
      show (_ → ((cityLoop L (index + 1) rest (visit L st index c)).r.render
          e.RenderComponent).Color = colorHover)
        ∧ (_ → _ → _ → ((cityLoop L (index + 1) rest (visit L st index c)).r.render
          e.RenderComponent).Color = colorDefault)
        ∧ (_ → (cityLoop L (index + 1) rest (visit L st index c)).r.render e.RenderComponent
          = st.r.render e.RenderComponent)
      rcases List.mem_cons.mp he with h | h
      · subst h
        rw [hself]
        exact hoverStep_color_self st index e
      · have hre : e.RenderComponent ≠ c.RenderComponent := fun heq =>
          hr.1 (List.mem_map.mpr ⟨e, h, heq⟩)
        have hce : e.CityComponent ≠ c.CityComponent := fun heq =>
          hcity.1 (List.mem_map.mpr ⟨e, h, heq⟩)
        obtain ⟨e1, e2, e3⟩ := E1 e h
        have k1 : (visit L st index c).r.render e.RenderComponent
            = st.r.render e.RenderComponent := by
          rw [hv]; exact hoverStep_render_other st index c _ hre
        have k2 : (visit L st index c).r.city e.CityComponent = st.r.city e.CityComponent := by
          rw [hv]; exact hoverStep_city_other st index c _ hce
        rw [hoverHit_quiet Q] at e1
        rw [notSelected_quiet Q, Q.mouse, k2] at e2
        rw [notSelected_quiet Q, Q.mouse, k2, k1] at e3
        exact ⟨e1, e2, e3⟩

/-- C11, as the code has it: in a frame without clicks, over a registry whose
entries have separate render and city components, `Update` returns and
afterwards every entry that reports hovered and is not the selected candidate
has the hover colour (however many there are), every entry that is not the
selected candidate, does not report hovered and was marked hovered has the
default colour, and the render component of every other entry is as it was. -/
theorem hover_highlight_each (L : Lib F) (s : State F)
    (hclick : ∀ c ∈ s.cities, (s.mouse c.MouseComponent).Clicked = false)
    (hr : (s.cities.map (fun c => c.RenderComponent)).Nodup)
    (hcity : (s.cities.map (fun c => c.CityComponent)).Nodup) :
    ∃ s', Update L s = some s'
      ∧ ∀ e ∈ s.cities,
        (hoverHit s e = true → (s'.render e.RenderComponent).Color = colorHover)
        ∧ (notSelected s e = true → (s.mouse e.MouseComponent).Hovered = false →
            (s.city e.CityComponent).isHovered = true →
            (s'.render e.RenderComponent).Color = colorDefault)
        ∧ (notSelected s e = false
            ∨ ((s.mouse e.MouseComponent).Hovered = false
              ∧ (s.city e.CityComponent).isHovered = false) →
            s'.render e.RenderComponent = s.render e.RenderComponent) := by
  have Q := Update_no_click L s hclick
  obtain ⟨s', hs'⟩ := Update_returns L s Q.cities
  obtain ⟨-, E⟩ := cityLoop_hover_colors L s.cities 0
    { r := s, hovered := false, hoveredId := -1 } hclick hr hcity
  refine ⟨s', hs', ?_⟩
  intro e he
  rw [(Update_tail L s s' hs').2.1]
  exact E e he

theorem hover_highlight_each_witness :
    ∃ s', Update ideal
        (demo [cand 0, cand 1, cand 2] none (Road.zero ideal) (flags [] [1, 2]) 0 0) = some s'
      ∧ (s'.render (cand 1).RenderComponent).Color = colorHover
      ∧ (s'.render (cand 2).RenderComponent).Color = colorHover
      ∧ s'.render (cand 0).RenderComponent
          = (demo [cand 0, cand 1, cand 2] none (Road.zero ideal)
              (flags [] [1, 2]) 0 0).render (cand 0).RenderComponent := by
  obtain ⟨s', h, E⟩ := hover_highlight_each ideal
    (demo [cand 0, cand 1, cand 2] none (Road.zero ideal) (flags [] [1, 2]) 0 0)
    (by decide) (by decide) (by decide)
  exact ⟨s', h, (E (cand 1) (by decide)).1 rfl, (E (cand 2) (by decide)).1 rfl,
    (E (cand 0) (by decide)).2.2 (Or.inr ⟨rfl, rfl⟩)⟩

/-- C11, as the claim has it, fails: nothing is selected or clicked and the
candidates at the indices 1 and 2 both report hovered. After `Update` both have
the hover colour: the highlighted candidate is not unique. -/
theorem two_hovered_both_highlighted :
    (∀ c ∈ (demo [cand 0, cand 1, cand 2] none (Road.zero ideal) (flags [] [1, 2]) 0 0).cities,
      ((demo [cand 0, cand 1, cand 2] none (Road.zero ideal) (flags [] [1, 2]) 0 0).mouse
        c.MouseComponent).Clicked = false)
    ∧ ((demo [cand 0, cand 1, cand 2] none (Road.zero ideal) (flags [] [1, 2]) 0 0).mouse
        (cand 1).MouseComponent).Hovered = true
    ∧ ((demo [cand 0, cand 1, cand 2] none (Road.zero ideal) (flags [] [1, 2]) 0 0).mouse
        (cand 2).MouseComponent).Hovered = true
    ∧ ∃ s', Update ideal
        (demo [cand 0, cand 1, cand 2] none (Road.zero ideal) (flags [] [1, 2]) 0 0) = some s'
      ∧ (s'.render (cand 0).RenderComponent).Color = colorDefault
      ∧ (s'.render (cand 1).RenderComponent).Color = colorHover
      ∧ (s'.render (cand 2).RenderComponent).Color = colorHover
      ∧ ¬ ∃! e, e ∈ (demo [cand 0, cand 1, cand 2] none (Road.zero ideal)
            (flags [] [1, 2]) 0 0).cities
          ∧ (s'.render e.RenderComponent).Color = colorHover := by
  refine ⟨by decide, rfl, rfl, _, rfl, rfl, rfl, rfl, ?_⟩
  rintro ⟨e0, -, huniq⟩
  have h1 := huniq (cand 1) ⟨by decide, rfl⟩
  have h2 := huniq (cand 2) ⟨by decide, rfl⟩
  exact absurd (h1.trans h2.symm) (by decide)

end Highlight

end TrafficManager
